import Mathlib

/-!
# Corporate-loan workflow: the REST handlers of `server/routes/loans.js`

A shallow embedding of the loan store and of the HTTP handlers that change it.

* The relational store is four tables held as lists of rows; an SQL `UPDATE ... WHERE`
  is a `List.map` that rewrites the rows matching the condition, an `INSERT` appends a row.
* `executeQuery` and `executeTransaction` (`server/config/database.js`) report a database
  error as `success: false`.  Whether a given statement errors is not decided by the
  handler, so every handler takes the outcome of each statement it issues as an input
  (`true`: the statement ran, `false`: it errored and changed nothing).
* `CURRENT_TIMESTAMP` is the `now` argument of a handler.
* A handler runs from its first statement to its answer without another request in
  between.  The three writes of the advance handler, sent together through `Promise.all`,
  touch disjoint rows and are applied in the order of the array.
-/

namespace CorpLoan

/-! ## Data model -/

/-- Modelled from the spec: the `status` column of a stage row and the `workflow_status`
column of a loan row are declared in `database/schema.sql`, which is not among the
sources; the spec gives their values as pending, processing, completed and failed, the
strings the handlers write and compare. -/
inductive Status
  | pending
  | processing
  | completed
  | failed
  deriving DecidableEq, Repr

/-- A row of `workflow_stages`: the columns written by `initializeWorkflowStages` and by the
stage updates.  `status` and `progress` are not given by the insert and take the column
defaults. -/
structure StageRow where
  loan_id : String
  stage_id : Nat
  stage_name : String
  stage_title : String
  stage_description : String
  estimated_time : Nat
  status : Status
  progress : Int
  started_at : Option Nat
  completed_at : Option Nat
  updated_at : Nat
  deriving DecidableEq, Repr

/-- A JavaScript value as it arrives in a parsed JSON request body, or as Joi hands it
back.  A number is given by its exact (finite) value; `date t` is a `Date` object, which
only validation produces; `object` is any other object or an array. -/
inductive JsValue
  | undefined
  | null
  | bool (b : Bool)
  | number (q : ℚ)
  | string (s : String)
  | date (t : Int)
  | object
  deriving DecidableEq, Repr

/-- JavaScript truthiness, as tested by `!x`, `x || y` and `if (x)`. -/
def JsValue.truthy : JsValue → Bool
  | .undefined => false
  | .null => false
  | .bool b => b
  | .number q => q != 0
  | .string s => s != ""
  | .date _ => true
  | .object => true

/-- The test `xs.includes(v)` for an array `xs` of integers: only a number equal to one
of them is included. -/
def jsIncludes (xs : List Nat) (v : JsValue) : Bool :=
  match v with
  | .number q => xs.any (fun n => q = (n : ℚ))
  | _ => false

/-- The keys of `loanApplicationSchema`, one field per key: the request body as received
(`undefined` for an absent key) and the value Joi returns. -/
structure LoanFields where
  companyName : JsValue
  businessRegistrationNumber : JsValue
  companyAddress : JsValue
  companyPhone : JsValue
  companyEstablishedYear : JsValue
  companyBusinessType : JsValue
  companyAnnualRevenue : JsValue
  companyEmployeeCount : JsValue
  applicationType : JsValue
  requestedAmount : JsValue
  loanDurationMonths : JsValue
  interestRateHope : JsValue
  collateralType : JsValue
  collateralValue : JsValue
  loanPurpose : JsValue
  applicantName : JsValue
  applicantPosition : JsValue
  applicantBirthDate : JsValue
  applicantContact : JsValue
  applicantEmail : JsValue
  deriving DecidableEq, Repr

/-- A row of `loan_applications`: the workflow columns, and the profile columns as the
list of the insert parameters between the id and `current_stage`.  `current_stage` is an
integer column, read back as a number. -/
structure LoanRow where
  loan_id : String
  profile : List JsValue
  current_stage : Nat
  workflow_status : Status
  created_by : String
  updated_at : Nat
  deriving DecidableEq, Repr

/-- A row of `uploaded_documents`. -/
structure DocumentRow where
  loan_id : String
  original_filename : String
  file_extension : String
  file_size : Nat
  mime_type : String
  s3_bucket : String
  s3_key : String
  s3_url : String
  document_type : String
  upload_status : String
  deriving DecidableEq, Repr

/-- A row of `user_actions`. -/
structure ActionRow where
  loan_id : String
  user_id : String
  user_role : String
  action_type : String
  action_description : String
  deriving DecidableEq, Repr

/-- The relational store. -/
structure Store where
  loans : List LoanRow
  stages : List StageRow
  documents : List DocumentRow
  actions : List ActionRow
  deriving DecidableEq, Repr

/-- The store before any request. -/
def Store.empty : Store :=
  { loans := [], stages := [], documents := [], actions := [] }

/-- An entry of the `uploadedFiles` array of the upload answer: a stored file (`status`
completed, with its key, url, size and type) or a file whose handling threw (`status`
failed, with the message). -/
structure UploadEntry where
  filename : String
  status : String
  s3Key : Option String
  url : Option String
  size : Option Nat
  type : Option String
  error : Option String
  deriving DecidableEq, Repr

/-- What a handler sends back: the HTTP status, the `success` flag, the `error` text and
the identifying fields of `data`. -/
structure Response where
  code : Nat
  success : Bool
  error : Option String
  loanId : Option String
  previousStage : Option Nat
  currentStage : Option Nat
  uploadedFiles : List UploadEntry
  deriving DecidableEq, Repr

/-- An error answer: `res.status(code).json({ success: false, error })`. -/
def Response.fail (code : Nat) (msg : String) : Response :=
  { code := code, success := false, error := some msg, loanId := none,
    previousStage := none, currentStage := none, uploadedFiles := [] }

/-- A success answer carrying the loan id. -/
def Response.okFor (code : Nat) (loanId : String) : Response :=
  { code := code, success := true, error := none, loanId := some loanId,
    previousStage := none, currentStage := none, uploadedFiles := [] }

/-! ## `POST /api/loans/:loanId/workflow/advance` -/

/-- The rows returned by `SELECT ... FROM loan_applications WHERE loan_id = ?`. -/
def selectLoan (db : Store) (loanId : String) : List LoanRow :=
  db.loans.filter (fun r => r.loan_id = loanId)

/-- The statement `completeCurrentStageQuery`. -/
def completeCurrentStageQuery (now : Nat) (loanId : String) (stage : Nat) (db : Store) : Store :=
  { db with stages := db.stages.map (fun r =>
      if r.loan_id = loanId ∧ r.stage_id = stage then
        { r with status := Status.completed, progress := 100, completed_at := some now,
                 updated_at := now }
      else r) }

/-- The statement `updateLoanQuery`. -/
def updateLoanQuery (now : Nat) (nextStage : Nat) (loanId : String) (db : Store) : Store :=
  { db with loans := db.loans.map (fun r =>
      if r.loan_id = loanId then
        { r with current_stage := nextStage, workflow_status := Status.processing,
                 updated_at := now }
      else r) }

/-- The statement `startNextStageQuery`. -/
def startNextStageQuery (now : Nat) (loanId : String) (stage : Nat) (db : Store) : Store :=
  { db with stages := db.stages.map (fun r =>
      if r.loan_id = loanId ∧ r.stage_id = stage then
        { r with status := Status.processing, progress := 0, started_at := some now,
                 updated_at := now }
      else r) }

/-- Outcome of the four statements of the advance handler. -/
structure AdvanceEnv where
  lookupOk : Bool
  completeOk : Bool
  updateOk : Bool
  startOk : Bool
  deriving DecidableEq, Repr

/-- All four statements run. -/
def AdvanceEnv.allOk : AdvanceEnv :=
  { lookupOk := true, completeOk := true, updateOk := true, startOk := true }

/-- A write issued through `executeQuery`: applied when the statement runs, without effect
when it errors. -/
def runWrite (ok : Bool) (stmt : Store → Store) (db : Store) : Store :=
  if ok then stmt db else db

/-- The handler of `POST /:loanId/workflow/advance`. -/
def advanceStage (db : Store) (env : AdvanceEnv) (now : Nat) (loanId : String) :
    Response × Store :=
  if !env.lookupOk then
    (Response.fail 404 "대출 신청을 찾을 수 없습니다.", db)
  else
    match selectLoan db loanId with
    | [] => (Response.fail 404 "대출 신청을 찾을 수 없습니다.", db)
    | loan :: _ =>
      let currentStage := loan.current_stage
      let nextStage := currentStage + 1
      if currentStage ≥ 8 then
        (Response.fail 400 "이미 최종 단계입니다.", db)
      else
        let db1 := runWrite env.completeOk (completeCurrentStageQuery now loanId currentStage) db
        let db2 := runWrite env.updateOk (updateLoanQuery now nextStage loanId) db1
        let db3 := runWrite env.startOk (startNextStageQuery now loanId nextStage) db2
        if !env.completeOk || !env.updateOk || !env.startOk then
          (Response.fail 500 "워크플로우 단계 진행에 실패했습니다.", db3)
        else
          ({ Response.okFor 200 loanId with
             previousStage := some currentStage, currentStage := some nextStage }, db3)

/-! ## `executeTransaction` -/

/-- What the database does during one `executeTransaction`: whether a connection is
obtained, whether `beginTransaction` runs, whether each statement runs (in order; a
statement beyond the list runs), whether `commit` runs and whether `rollback` runs. -/
structure TxEnv where
  connectOk : Bool
  beginOk : Bool
  stmtOk : List Bool
  commitOk : Bool
  rollbackOk : Bool
  deriving DecidableEq, Repr

/-- A transaction in which nothing errors. -/
def TxEnv.allOk : TxEnv :=
  { connectOk := true, beginOk := true, stmtOk := [], commitOk := true, rollbackOk := true }

/-- Result of `executeTransaction`: `success` with the committed store, `failure` (the
function returned `success: false`), or `thrown` (an exception left the function). -/
inductive TxResult
  | success (db : Store)
  | failure
  | thrown
  deriving DecidableEq, Repr

/-- The loop over the queries of a transaction: the store after the statements, or `none`
as soon as one of them errors. -/
def runStatements : List Bool → List (Store → Store) → Store → Option Store
  | _, [], db => some db
  | oks, q :: qs, db =>
    if oks.headD true then runStatements oks.tail qs (q db) else none

/-- The function `executeTransaction` of `server/config/database.js`.  Work that is not
committed is not part of the store. -/
def executeTransaction (env : TxEnv) (queries : List (Store → Store)) (db : Store) : TxResult :=
  if !env.connectOk then TxResult.thrown
  else
    let body : Option Store :=
      if !env.beginOk then none
      else
        match runStatements env.stmtOk queries db with
        | none => none
        | some db' => if env.commitOk then some db' else none
    match body with
    | some db' => TxResult.success db'
    | none => if env.rollbackOk then TxResult.failure else TxResult.thrown

/-! ## `PUT /api/loans/:loanId/stage` -/

/-- The body of the stage update.  `stageId` is kept as the JSON value received.  `status`
is one of the values of the status column, `none` when the field is null, absent or
otherwise falsy; `progress` is `none` when the field is null or absent.  Whether the driver
binds an absent field is part of the outcome of the transaction. -/
structure StageUpdateBody where
  stageId : JsValue
  status : Option Status
  progress : Option Int
  deriving DecidableEq, Repr

/-- The stage id bound to the statements once validation has passed. -/
def JsValue.toStageId : JsValue → Nat
  | .number q => q.num.toNat
  | _ => 0

/-- The first statement of the stage update: status, progress (`COALESCE(?, progress)`),
`started_at` when the status is processing, `completed_at` when it is completed. -/
def updateStageRowQuery (now : Nat) (status : Status) (progress : Option Int)
    (loanId : String) (stageId : Nat) (db : Store) : Store :=
  { db with stages := db.stages.map (fun r =>
      if r.loan_id = loanId ∧ r.stage_id = stageId then
        { r with status := status,
                 progress := progress.getD r.progress,
                 started_at := if status = Status.processing then some now else r.started_at,
                 completed_at := if status = Status.completed then some now else r.completed_at,
                 updated_at := now }
      else r) }

/-- The second statement of the stage update: the loan's current stage and the
`CASE WHEN ? = 8 AND ? = 'completed'` recomputation of its workflow status. -/
def updateLoanStageQuery (now : Nat) (stageId : Nat) (status : Option Status)
    (loanId : String) (db : Store) : Store :=
  { db with loans := db.loans.map (fun r =>
      if r.loan_id = loanId then
        { r with current_stage := stageId,
                 workflow_status :=
                   if stageId = 8 ∧ status = some Status.completed then Status.completed
                   else Status.processing,
                 updated_at := now }
      else r) }

/-- The list `updateQueries` built by the handler. -/
def updateQueries (now : Nat) (loanId : String) (stageId : Nat) (status : Option Status)
    (progress : Option Int) : List (Store → Store) :=
  (match status with
    | some st => [updateStageRowQuery now st progress loanId stageId]
    | none => []) ++
  [updateLoanStageQuery now stageId status loanId]

/-- The handler of `PUT /:loanId/stage`. -/
def updateStage (db : Store) (env : TxEnv) (now : Nat) (loanId : String)
    (body : StageUpdateBody) : Response × Store :=
  if !body.stageId.truthy || !jsIncludes [1, 2, 3, 4, 5, 6, 7, 8] body.stageId then
    (Response.fail 400 "유효하지 않은 단계 ID입니다.", db)
  else
    let stageId := body.stageId.toStageId
    match executeTransaction env
        (updateQueries now loanId stageId body.status body.progress) db with
    | TxResult.thrown => (Response.fail 500 "Internal server error", db)
    | TxResult.failure => (Response.fail 500 "Failed to update workflow stage", db)
    | TxResult.success db' => (Response.okFor 200 loanId, db')

/-! ## `POST /api/loans/:loanId/documents` -/

/-- A file of `req.files`, as multer hands it over. -/
structure UploadedFile where
  originalname : String
  size : Nat
  mimetype : String
  deriving DecidableEq, Repr

/-- How the handling of one file goes: the object store takes it (`uploadFile` answers
with bucket, key and url) and the metadata insert runs or errors; `uploadFile` answers
`success: false`; or something in the loop body throws (with the message). -/
inductive FileOutcome
  | stored (bucket key url : String) (insertOk : Bool)
  | storeFailed
  | threw (message : String)
  deriving DecidableEq, Repr

/-- Outcome of the two loan statements of the upload handler. -/
structure UploadEnv where
  lookupOk : Bool
  flipOk : Bool
  deriving DecidableEq, Repr

/-- The expression `file.originalname.split('.').pop()`. -/
def fileExtension (name : String) : String :=
  (name.splitOn ".").getLastD ""

/-- The body of the `for (const file of files)` loop for one file. -/
def uploadOne (loanId : String) (documentType : String) (file : UploadedFile)
    (outcome : FileOutcome) (acc : List UploadEntry × Store) : List UploadEntry × Store :=
  match outcome with
  | FileOutcome.threw message =>
    (acc.1 ++ [{ filename := file.originalname, status := "failed", s3Key := none,
                 url := none, size := none, type := none, error := some message }], acc.2)
  | FileOutcome.storeFailed => acc
  | FileOutcome.stored bucket key url insertOk =>
    if insertOk then
      (acc.1 ++ [{ filename := file.originalname, status := "completed", s3Key := some key,
                   url := some url, size := some file.size, type := some documentType,
                   error := none }],
        { acc.2 with documents := acc.2.documents ++
            [{ loan_id := loanId, original_filename := file.originalname,
               file_extension := fileExtension file.originalname, file_size := file.size,
               mime_type := file.mimetype, s3_bucket := bucket, s3_key := key, s3_url := url,
               document_type := documentType, upload_status := "completed" }] })
    else acc

/-- The statement that moves a pending loan to processing after an upload. -/
def flipPendingQuery (now : Nat) (loanId : String) (db : Store) : Store :=
  { db with loans := db.loans.map (fun r =>
      if r.loan_id = loanId ∧ r.workflow_status = Status.pending then
        { r with workflow_status := Status.processing, updated_at := now }
      else r) }

/-- The handler of `POST /:loanId/documents`, after multer: `files` pairs every file of
`req.files` with the way its handling goes, `documentType` is `req.body.documentType`
(`none` when absent). -/
def uploadDocuments (db : Store) (env : UploadEnv) (now : Nat) (loanId : String)
    (files : List (UploadedFile × FileOutcome)) (documentType : Option String) :
    Response × Store :=
  if files.isEmpty then
    (Response.fail 400 "업로드할 파일이 없습니다.", db)
  else if !env.lookupOk || (selectLoan db loanId).isEmpty then
    (Response.fail 404 "대출 신청을 찾을 수 없습니다.", db)
  else
    let docType := match documentType with
      | some t => if t != "" then t else "other"
      | none => "other"
    let looped := files.foldl (fun acc f => uploadOne loanId docType f.1 f.2 acc) ([], db)
    let db' := runWrite env.flipOk (flipPendingQuery now loanId) looped.2
    ({ Response.okFor 200 loanId with uploadedFiles := looped.1 }, db')

/-! ## Validation of the create request (`loanApplicationSchema`) -/

/-- The parts of Joi that are library code: the conversion of a string to a number, the
conversion of a string or number to a date (epoch milliseconds), the e-mail check, and the
year `new Date().getFullYear()` read when the schema is built. -/
structure JoiLib where
  parseNumber : String → Option ℚ
  parseDate : JsValue → Option Int
  isEmail : String → Bool
  currentYear : Nat

/-- The body of `POST /api/loans` as `express.json` leaves it: an object, given by the
value of each schema key and the names of its other keys, or an array. -/
inductive CreateBody
  | object (fields : LoanFields) (unknownKeys : List String)
  | array
  deriving DecidableEq, Repr

/-- A key between double quotes, as Joi's messages print it. -/
def quoted (key : String) : String :=
  String.singleton (Char.ofNat 34) ++ key ++ String.singleton (Char.ofNat 34)

/-- The `length` of a JavaScript string: UTF-16 code units. -/
def jsLength (s : String) : Nat :=
  (s.toList.map (fun c => if c.val ≥ 0x10000 then 2 else 1)).sum

/-- The rule `.min(n)` of a string schema. -/
def minLength (key : String) (n : Nat) (s : String) : Option String :=
  if jsLength s < n then
    some (quoted key ++ " length must be at least " ++ toString n ++ " characters long")
  else none

/-- The rule `.max(n)` of a string schema. -/
def maxLength (key : String) (n : Nat) (s : String) : Option String :=
  if jsLength s > n then
    some (quoted key ++ " length must be less than or equal to " ++ toString n ++
      " characters long")
  else none

/-- The rule `.email()`. -/
def emailRule (lib : JoiLib) (key : String) (s : String) : Option String :=
  if lib.isEmail s then none else some (quoted key ++ " must be a valid email")

/-- A schema `Joi.string()` with `.required()` or not, the values added by `.allow(...)`
and its rules in the order they were added. -/
def joiString (key : String) (required : Bool) (allowed : List JsValue)
    (rules : List (String → Option String)) (v : JsValue) : Except String JsValue :=
  if v = JsValue.undefined then
    if required then Except.error (quoted key ++ " is required") else Except.ok v
  else if allowed.contains v then Except.ok v
  else
    match v with
    | JsValue.string s =>
      if s = "" then Except.error (quoted key ++ " is not allowed to be empty")
      else
        match rules.findSome? (fun rule => rule s) with
        | some msg => Except.error msg
        | none => Except.ok v
    | _ => Except.error (quoted key ++ " must be a string")

/-- A schema `Joi.number()` with `.required()` or not, the values added by `.allow(...)`,
and `.min(lo)` and `.max(hi)` when given.  A string is converted first. -/
def joiNumber (lib : JoiLib) (key : String) (required : Bool) (allowed : List JsValue)
    (lo hi : Option Nat) (v : JsValue) : Except String JsValue :=
  if v = JsValue.undefined then
    if required then Except.error (quoted key ++ " is required") else Except.ok v
  else if allowed.contains v then Except.ok v
  else
    let converted := match v with
      | JsValue.string s => (lib.parseNumber s).elim v JsValue.number
      | _ => v
    match converted with
    | JsValue.number q =>
      if q > 9007199254740991 ∨ q < -9007199254740991 then
        Except.error (quoted key ++ " must be a safe number")
      else if lo.any (fun n => q < (n : ℚ)) then
        Except.error (quoted key ++ " must be greater than or equal to " ++
          toString (lo.getD 0))
      else if hi.any (fun n => q > (n : ℚ)) then
        Except.error (quoted key ++ " must be less than or equal to " ++ toString (hi.getD 0))
      else Except.ok converted
    | _ => Except.error (quoted key ++ " must be a number")

/-- The schema `Joi.date().optional().allow(null, '')`. -/
def joiDate (lib : JoiLib) (key : String) (v : JsValue) : Except String JsValue :=
  if v = JsValue.undefined then Except.ok v
  else if [JsValue.null, JsValue.string ""].contains v then Except.ok v
  else
    match lib.parseDate v with
    | some t => Except.ok (JsValue.date t)
    | none => Except.error (quoted key ++ " must be a valid date")

/-- The pattern `/^[0-9]{3}-[0-9]{2}-[0-9]{5}$/`. -/
def matchesRegistrationPattern (s : String) : Bool :=
  match s.toList with
  | [a, b, c, d1, e, f, d2, g, h, i, j, k] =>
    [a, b, c, e, f, g, h, i, j, k].all (fun x => decide ('0' ≤ x ∧ x ≤ '9')) &&
      d1 == '-' && d2 == '-'
  | _ => false

/-- The schema of `businessRegistrationNumber`: the alternatives
`Joi.string().pattern(...)` and `Joi.string().allow('', null)`, tried in turn. -/
def joiRegistrationNumber (key : String) (v : JsValue) : Except String JsValue :=
  if v = JsValue.undefined then Except.ok v
  else
    match joiString key false []
        [fun s => if matchesRegistrationPattern s then none
                  else some (quoted key ++ " fails to match the required pattern")] v with
    | Except.ok w => Except.ok w
    | Except.error _ =>
      match joiString key false [JsValue.string "", JsValue.null] [] v with
      | Except.ok w => Except.ok w
      | Except.error _ =>
        Except.error (quoted key ++ " must be one of [string]")

/-- The values of `applicationType`. -/
def applicationTypes : List String :=
  ["PF 대출", "시설자금 대출", "운영자금 대출", "기타"]

/-- The schema `Joi.string().valid(...).default('PF 대출')`. -/
def joiApplicationType (key : String) (v : JsValue) : Except String JsValue :=
  if v = JsValue.undefined then Except.ok (JsValue.string "PF 대출")
  else if (applicationTypes.map JsValue.string).contains v then Except.ok v
  else
    Except.error (quoted key ++ " must be one of [" ++ ", ".intercalate applicationTypes ++ "]")

/-- The validation `loanApplicationSchema.validate(req.body)`: the keys in schema order,
then the keys the schema does not know; the first error ends it. -/
def loanApplicationSchema (lib : JoiLib) (body : CreateBody) : Except String LoanFields :=
  match body with
  | CreateBody.array => Except.error (quoted "value" ++ " must be of type object")
  | CreateBody.object f unknownKeys => do
    let companyName ← joiString "companyName" true []
      [minLength "companyName" 2, maxLength "companyName" 200] f.companyName
    let businessRegistrationNumber ←
      joiRegistrationNumber "businessRegistrationNumber" f.businessRegistrationNumber
    let companyAddress ← joiString "companyAddress" false [JsValue.string ""]
      [maxLength "companyAddress" 500] f.companyAddress
    let companyPhone ← joiString "companyPhone" false [JsValue.string ""]
      [maxLength "companyPhone" 50] f.companyPhone
    let companyEstablishedYear ← joiNumber lib "companyEstablishedYear" false [JsValue.null]
      (some 1900) (some lib.currentYear) f.companyEstablishedYear
    let companyBusinessType ← joiString "companyBusinessType" false [JsValue.string ""]
      [maxLength "companyBusinessType" 200] f.companyBusinessType
    let companyAnnualRevenue ← joiNumber lib "companyAnnualRevenue" false [JsValue.null]
      (some 0) none f.companyAnnualRevenue
    let companyEmployeeCount ← joiNumber lib "companyEmployeeCount" false [JsValue.null]
      (some 0) none f.companyEmployeeCount
    let applicationType ← joiApplicationType "applicationType" f.applicationType
    let requestedAmount ← joiNumber lib "requestedAmount" true [] (some 0) none
      f.requestedAmount
    let loanDurationMonths ← joiNumber lib "loanDurationMonths" false [JsValue.null]
      (some 1) (some 360) f.loanDurationMonths
    let interestRateHope ← joiNumber lib "interestRateHope" false [JsValue.null]
      (some 0) (some 100) f.interestRateHope
    let collateralType ← joiString "collateralType" false [JsValue.string ""]
      [maxLength "collateralType" 200] f.collateralType
    let collateralValue ← joiNumber lib "collateralValue" false [JsValue.null]
      (some 0) none f.collateralValue
    let loanPurpose ← joiString "loanPurpose" true [] [maxLength "loanPurpose" 1000]
      f.loanPurpose
    let applicantName ← joiString "applicantName" true [] [maxLength "applicantName" 100]
      f.applicantName
    let applicantPosition ← joiString "applicantPosition" false [JsValue.string ""]
      [maxLength "applicantPosition" 100] f.applicantPosition
    let applicantBirthDate ← joiDate lib "applicantBirthDate" f.applicantBirthDate
    let applicantContact ← joiString "applicantContact" true []
      [maxLength "applicantContact" 50] f.applicantContact
    let applicantEmail ← joiString "applicantEmail" false
      [JsValue.string "", JsValue.null] [emailRule lib "applicantEmail"] f.applicantEmail
    match unknownKeys with
    | key :: _ => Except.error (quoted key ++ " is not allowed")
    | [] =>
      pure { companyName, businessRegistrationNumber, companyAddress, companyPhone,
             companyEstablishedYear, companyBusinessType, companyAnnualRevenue,
             companyEmployeeCount, applicationType, requestedAmount, loanDurationMonths,
             interestRateHope, collateralType, collateralValue, loanPurpose, applicantName,
             applicantPosition, applicantBirthDate, applicantContact, applicantEmail }

/-! ## `POST /api/loans` -/

/-- The fixed table `stages` of `initializeWorkflowStages`: id, name, title and estimated
time of the eight stages. -/
def stageTable : List (Nat × String × String × Nat) :=
  [ (1, "신규대출등록", "파일 업로드", 300),
    (2, "문서파싱", "AI 문서 분석", 600),
    (3, "후교정", "데이터 검증", 900),
    (4, "청킹임베딩", "벡터화 처리", 300),
    (5, "여신신청서생성", "AI 신청서 작성", 600),
    (6, "RM검토", "RM 승인", 1200),
    (7, "심사의견서생성", "AI 분석 보고서", 600),
    (8, "최종심사", "심사역 최종심사", 1800) ]

/-- Modelled from the spec: the table declaration of `workflow_stages`
(`database/schema.sql`) is not among the sources.  The stage insert names six columns; the
others take the column defaults, which the spec gives as status pending for a new stage
row; progress starts at 0, the least value of its range, and both timestamps are null. -/
def newStageRow (now : Nat) (loanId : String) (stage : Nat × String × String × Nat) :
    StageRow :=
  { loan_id := loanId, stage_id := stage.1, stage_name := stage.2.1,
    stage_title := stage.2.2.1, stage_description := stage.2.2.1 ++ " 단계",
    estimated_time := stage.2.2.2, status := Status.pending, progress := 0,
    started_at := none, completed_at := none, updated_at := now }

/-- One `INSERT INTO workflow_stages` of `initializeWorkflowStages`. -/
def insertStageQuery (now : Nat) (loanId : String) (stage : Nat × String × String × Nat)
    (db : Store) : Store :=
  { db with stages := db.stages ++ [newStageRow now loanId stage] }

/-- The function `initializeWorkflowStages`: the eight inserts in one transaction. -/
def initializeWorkflowStages (env : TxEnv) (now : Nat) (loanId : String) (db : Store) :
    TxResult :=
  executeTransaction env (stageTable.map (insertStageQuery now loanId)) db

/-- The helper `safeValue`: `undefined` becomes `null`. -/
def safeValue (v : JsValue) : JsValue :=
  if v = JsValue.undefined then JsValue.null else v

/-- The row built from `insertParams`. -/
def newLoanRow (now : Nat) (loanId : String) (value : LoanFields) : LoanRow :=
  { loan_id := loanId,
    profile :=
      [ safeValue value.companyName, safeValue value.businessRegistrationNumber,
        safeValue value.companyAddress, safeValue value.companyPhone,
        safeValue value.companyEstablishedYear, safeValue value.companyBusinessType,
        safeValue value.companyAnnualRevenue, safeValue value.companyEmployeeCount,
        if (safeValue value.applicationType).truthy then safeValue value.applicationType
        else JsValue.string "PF 대출",
        safeValue value.requestedAmount, safeValue value.loanDurationMonths,
        safeValue value.interestRateHope, safeValue value.collateralType,
        safeValue value.collateralValue, safeValue value.loanPurpose,
        safeValue value.applicantName, safeValue value.applicantPosition,
        safeValue value.applicantBirthDate, safeValue value.applicantContact,
        safeValue value.applicantEmail ],
    current_stage := 1,
    workflow_status := Status.pending,
    created_by := "web-user",
    updated_at := now }

/-- The statement `insertQuery` of the create handler. -/
def insertLoanQuery (now : Nat) (loanId : String) (value : LoanFields) (db : Store) : Store :=
  { db with loans := db.loans ++ [newLoanRow now loanId value] }

/-- The audit insert of the create handler. -/
def logCreateQuery (loanId : String) (db : Store) : Store :=
  { db with actions := db.actions ++
      [{ loan_id := loanId, user_id := "web-user", user_role := "applicant",
         action_type := "create", action_description := "신규 대출 신청 생성" }] }

/-- What the create handler does not decide: the id `generateLoanId()` returns (it is read
off the clock), and the outcome of the loan insert, of the stage transaction and of the
audit insert. -/
structure CreateEnv where
  loanId : String
  insertOk : Bool
  stagesTx : TxEnv
  logOk : Bool
  deriving DecidableEq, Repr

/-- The handler of `POST /api/loans`. -/
def createLoan (lib : JoiLib) (db : Store) (env : CreateEnv) (now : Nat)
    (body : CreateBody) : Response × Store :=
  match loanApplicationSchema lib body with
  | Except.error msg => (Response.fail 400 msg, db)
  | Except.ok value =>
    let loanId := env.loanId
    if !env.insertOk then
      (Response.fail 500 "Failed to create loan application", db)
    else
      let db1 := insertLoanQuery now loanId value db
      match initializeWorkflowStages env.stagesTx now loanId db1 with
      | TxResult.thrown => (Response.fail 500 "Internal server error", db1)
      | stagesResult =>
        let db2 := match stagesResult with
          | TxResult.success db' => db'
          | _ => db1
        let db3 := runWrite env.logOk (logCreateQuery loanId) db2
        (Response.okFor 201 loanId, db3)

/-- The store after the statements of a stage update, when all of them run: the stage
statement (only when a status is given), then the loan statement. -/
def stageUpdateEffect (now : Nat) (loanId : String) (stageId : Nat) (status : Option Status)
    (progress : Option Int) (db : Store) : Store :=
  updateLoanStageQuery now stageId status loanId
    (match status with
      | some st => updateStageRowQuery now st progress loanId stageId db
      | none => db)

/-! ## Sequences of requests -/

/-- One call of the advance handler: the loan id, what the database does and the time. -/
structure AdvanceCall where
  loanId : String
  env : AdvanceEnv
  now : Nat
  deriving DecidableEq, Repr

/-- The store after a sequence of advance calls, in order. -/
def advanceRun (db : Store) : List AdvanceCall → Store
  | [] => db
  | c :: cs => advanceRun (advanceStage db c.env c.now c.loanId).2 cs

/-! ## Sample data -/

/-- A stage row of the sample loan. -/
def demoStage (loanId : String) (n : Nat) (st : Status) (progress : Int) : StageRow :=
  { loan_id := loanId, stage_id := n, stage_name := "stage", stage_title := "title",
    stage_description := "title 단계", estimated_time := 300, status := st,
    progress := progress, started_at := none, completed_at := none, updated_at := 0 }

/-- A loan row with the given id, current stage and workflow status. -/
def demoLoan (loanId : String) (stage : Nat) (st : Status) : LoanRow :=
  { loan_id := loanId, profile := [], current_stage := stage, workflow_status := st,
    created_by := "web-user", updated_at := 0 }

/-- A store with one loan at stage 3: stages 1 and 2 completed, stage 3 processing, the
others pending. -/
def demoStore : Store :=
  { loans := [demoLoan "CL-1" 3 Status.processing],
    stages :=
      [ demoStage "CL-1" 1 Status.completed 100, demoStage "CL-1" 2 Status.completed 100,
        demoStage "CL-1" 3 Status.processing 0, demoStage "CL-1" 4 Status.pending 0,
        demoStage "CL-1" 5 Status.pending 0, demoStage "CL-1" 6 Status.pending 0,
        demoStage "CL-1" 7 Status.pending 0, demoStage "CL-1" 8 Status.pending 0 ],
    documents := [], actions := [] }

/-- The answer of a successful advance. -/
def advanceOk (loanId : String) (k : Nat) : Response :=
  { Response.okFor 200 loanId with previousStage := some k, currentStage := some (k + 1) }

/-- A store with one loan at the final stage. -/
def demoStoreFinal : Store :=
  { loans := [demoLoan "CL-8" 8 Status.processing],
    stages := [demoStage "CL-8" 7 Status.completed 100, demoStage "CL-8" 8 Status.processing 0],
    documents := [], actions := [] }

/-- An advance whose lookup statement errors. -/
def lookupFails : AdvanceEnv :=
  { lookupOk := false, completeOk := true, updateOk := true, startOk := true }

/-- A Joi library stand-in for the samples: no string converts to a number or a date. -/
def demoLib : JoiLib :=
  { parseNumber := fun _ => none, parseDate := fun _ => none, isEmail := fun _ => false,
    currentYear := 2024 }

/-- The request body of the example of the spec: the five required keys. -/
def demoBody : CreateBody :=
  CreateBody.object
    { companyName := JsValue.string "Acme Co",
      businessRegistrationNumber := JsValue.undefined,
      companyAddress := JsValue.undefined,
      companyPhone := JsValue.undefined,
      companyEstablishedYear := JsValue.undefined,
      companyBusinessType := JsValue.undefined,
      companyAnnualRevenue := JsValue.undefined,
      companyEmployeeCount := JsValue.undefined,
      applicationType := JsValue.undefined,
      requestedAmount := JsValue.number 1000000000,
      loanDurationMonths := JsValue.undefined,
      interestRateHope := JsValue.undefined,
      collateralType := JsValue.undefined,
      collateralValue := JsValue.undefined,
      loanPurpose := JsValue.string "facility",
      applicantName := JsValue.string "Kim",
      applicantPosition := JsValue.undefined,
      applicantBirthDate := JsValue.undefined,
      applicantContact := JsValue.string "010-1234-5678",
      applicantEmail := JsValue.undefined }
    []

/-- The value Joi returns for the sample body: the keys given, and the default
application type. -/
def demoValue : LoanFields :=
  { companyName := JsValue.string "Acme Co",
    businessRegistrationNumber := JsValue.undefined,
    companyAddress := JsValue.undefined,
    companyPhone := JsValue.undefined,
    companyEstablishedYear := JsValue.undefined,
    companyBusinessType := JsValue.undefined,
    companyAnnualRevenue := JsValue.undefined,
    companyEmployeeCount := JsValue.undefined,
    applicationType := JsValue.string "PF 대출",
    requestedAmount := JsValue.number 1000000000,
    loanDurationMonths := JsValue.undefined,
    interestRateHope := JsValue.undefined,
    collateralType := JsValue.undefined,
    collateralValue := JsValue.undefined,
    loanPurpose := JsValue.string "facility",
    applicantName := JsValue.string "Kim",
    applicantPosition := JsValue.undefined,
    applicantBirthDate := JsValue.undefined,
    applicantContact := JsValue.string "010-1234-5678",
    applicantEmail := JsValue.undefined }

/-- A creation in which every statement runs, with generated id `CL-20240615-0001`. -/
def demoCreateEnv : CreateEnv :=
  { loanId := "CL-20240615-0001", insertOk := true, stagesTx := TxEnv.allOk, logOk := true }

/-- The store after the sample creation on the empty store. -/
def demoCreated : Store :=
  (createLoan demoLib Store.empty demoCreateEnv 0 demoBody).2

/-- An advance in which the lookup runs, the write completing the current stage errors and
the two other writes run. -/
def completeFails : AdvanceEnv :=
  { lookupOk := true, completeOk := false, updateOk := true, startOk := true }

/-! ## Reachable stores -/

/-- The stores reachable from the empty store by requests to the four handlers, with any
database outcomes.  `Reachable lib true` allows every handler, `Reachable lib false` all but
the stage update.  A creation that stores a loan row does so under an id that no stored
loan row carries: the id is what identifies a loan. -/
inductive Reachable (lib : JoiLib) : Bool → Store → Prop
  | empty (u : Bool) : Reachable lib u Store.empty
  | create {u : Bool} {db : Store} (h : Reachable lib u db) (env : CreateEnv) (now : Nat)
      (body : CreateBody)
      (hfresh : (createLoan lib db env now body).2.loans ≠ db.loans →
        ∀ r ∈ db.loans, r.loan_id ≠ env.loanId) :
      Reachable lib u (createLoan lib db env now body).2
  | advance {u : Bool} {db : Store} (h : Reachable lib u db) (c : AdvanceCall) :
      Reachable lib u (advanceStage db c.env c.now c.loanId).2
  | upload {u : Bool} {db : Store} (h : Reachable lib u db) (env : UploadEnv) (now : Nat)
      (loanId : String) (files : List (UploadedFile × FileOutcome))
      (documentType : Option String) :
      Reachable lib u (uploadDocuments db env now loanId files documentType).2
  | updateStage {db : Store} (h : Reachable lib true db) (env : TxEnv) (now : Nat)
      (loanId : String) (body : StageUpdateBody) :
      Reachable lib true (updateStage db env now loanId body).2

/-- The stage ids of the stage rows of a loan, in table order. -/
def stageIdsOf (db : Store) (loanId : String) : List Nat :=
  (db.stages.filter (fun r => r.loan_id = loanId)).map (fun r => r.stage_id)

/-- What holds of every reachable store: loan ids are pairwise distinct, every stage row
belongs to a stored loan, the stage rows of a loan are none or those of the stages
1, ..., 8 in order, and a loan whose workflow status is completed is at stage 8 with every
stage row of stage 8 completed. -/
def StoreInv (db : Store) : Prop :=
  (db.loans.map (fun r => r.loan_id)).Nodup ∧
  (∀ s ∈ db.stages, ∃ l ∈ db.loans, l.loan_id = s.loan_id) ∧
  (∀ X : String, stageIdsOf db X = [] ∨ stageIdsOf db X = [1, 2, 3, 4, 5, 6, 7, 8]) ∧
  (∀ l ∈ db.loans, l.workflow_status = Status.completed →
    l.current_stage = 8 ∧
    ∀ s ∈ db.stages, s.loan_id = l.loan_id → s.stage_id = 8 → s.status = Status.completed)

/-- What holds in addition of every store reachable without stage updates: no stage row
is failed, and no stage row beyond the current stage of its loan is completed. -/
def ForwardInv (db : Store) : Prop :=
  (∀ s ∈ db.stages, s.status ≠ Status.failed) ∧
  (∀ l ∈ db.loans, ∀ s ∈ db.stages, s.loan_id = l.loan_id →
    l.current_stage < s.stage_id → s.status ≠ Status.completed)

/-- A creation whose loan insert runs and whose stage transaction is rolled back because
its third insert errors. -/
def stagesFailEnv : CreateEnv :=
  { loanId := "CL-20240615-0001", insertOk := true,
    stagesTx := { connectOk := true, beginOk := true, stmtOk := [true, true, false],
                  commitOk := true, rollbackOk := true },
    logOk := true }

/-- The stage update that finishes a loan: stage 8, status completed. -/
def finishBody : StageUpdateBody :=
  { stageId := JsValue.number 8, status := some Status.completed, progress := some 100 }

/-- The store after the sample creation with a failed stage transaction and the finishing
stage update. -/
def demoNoStages : Store :=
  (updateStage (createLoan demoLib Store.empty stagesFailEnv 0 demoBody).2 TxEnv.allOk 1
    "CL-20240615-0001" finishBody).2

/-- The store after the sample creation and the finishing stage update. -/
def demoFinished : Store :=
  (updateStage demoCreated TxEnv.allOk 1 "CL-20240615-0001" finishBody).2

/-- A stage update that puts stage 2 back to pending. -/
def resetBody : StageUpdateBody :=
  { stageId := JsValue.number 2, status := some Status.pending, progress := some 0 }

/-- A creation whose loan insert runs and whose stage transaction loses its connection:
the third insert errors and so does the rollback. -/
def stagesThrowEnv : CreateEnv :=
  { loanId := "CL-20240615-0001", insertOk := true,
    stagesTx := { connectOk := true, beginOk := true, stmtOk := [true, true, false],
                  commitOk := true, rollbackOk := false },
    logOk := true }

/-- The keys of the sample body. -/
def demoFields : LoanFields :=
  { companyName := JsValue.string "Acme Co",
    businessRegistrationNumber := JsValue.undefined,
    companyAddress := JsValue.undefined,
    companyPhone := JsValue.undefined,
    companyEstablishedYear := JsValue.undefined,
    companyBusinessType := JsValue.undefined,
    companyAnnualRevenue := JsValue.undefined,
    companyEmployeeCount := JsValue.undefined,
    applicationType := JsValue.undefined,
    requestedAmount := JsValue.number 1000000000,
    loanDurationMonths := JsValue.undefined,
    interestRateHope := JsValue.undefined,
    collateralType := JsValue.undefined,
    collateralValue := JsValue.undefined,
    loanPurpose := JsValue.string "facility",
    applicantName := JsValue.string "Kim",
    applicantPosition := JsValue.undefined,
    applicantBirthDate := JsValue.undefined,
    applicantContact := JsValue.string "010-1234-5678",
    applicantEmail := JsValue.undefined }

/-- The sample body without its `requestedAmount` key. -/
def bodyWithoutAmount : CreateBody :=
  CreateBody.object { demoFields with requestedAmount := JsValue.undefined } []

/-- The sample body with a business registration number. -/
def bodyWithRegistration (v : JsValue) : CreateBody :=
  CreateBody.object { demoFields with businessRegistrationNumber := v } []

/-! ## `GET /api/loans/:loanId/workflow` -/

/-- The integer nearest to `n / d`, the even one of the two when `n / d` is half-way
between them. -/
def roundTiesEven (n d : Nat) : Nat :=
  let f := n / d
  let r := n % d
  if 2 * r < d then f else if d < 2 * r then f + 1 else if f % 2 = 0 then f else f + 1

/-- The least `k ≥ k₀` with `d * 2 ^ 52 ≤ n * 2 ^ (k - k₀)`, found by doubling `n` at most
`fuel` times. -/
def significandShift : Nat → Nat → Nat → Nat → Nat
  | 0, _, _, k => k
  | fuel + 1, n, d, k =>
    if n < d * 2 ^ 52 then significandShift fuel (2 * n) d (k + 1) else k

/-- The number `n / d` as JavaScript holds it, for `0 ≤ n / d < 2 ^ 53`: the nearest
number with a significand of 53 bits, the one with an even significand at a tie.  The
result `(m, k)` stands for `m / 2 ^ k`.  The exponent range of the format (values below
`2 ^ (-1022)`) is not modelled. -/
def toDouble (n d : Nat) : Nat × Nat :=
  if n = 0 then (0, 0)
  else
    let k := significandShift (53 + d) n d 0
    (roundTiesEven (n * 2 ^ k) d, k)

/-- The function `Math.round` at `n / d`: the nearest integer, the larger one at a tie. -/
def mathRound (n d : Nat) : Nat :=
  (2 * n + d) / (2 * d)

/-- The expression `Math.round(totalStages > 0 ? (completedStages / totalStages) * 100 : 0)`:
the quotient is rounded to a double, its product by 100 is rounded to a double, and
`Math.round` is taken of that. -/
def overallProgressOf (completedStages totalStages : Nat) : Nat :=
  if totalStages > 0 then
    let quotient := toDouble completedStages totalStages
    let product := toDouble (quotient.1 * 100) (2 ^ quotient.2)
    mathRound product.1 (2 ^ product.2)
  else 0

/-- The integer `r` is `n / d` rounded to the nearest integer, halves upward:
`r - 1/2 ≤ n / d < r + 1/2`. -/
def NearestHalfUp (r n d : Nat) : Prop :=
  d * (2 * r) ≤ 2 * n + d ∧ 2 * n + d < d * (2 * r + 2)

instance instDecidableNearestHalfUp (r n d : Nat) : Decidable (NearestHalfUp r n d) :=
  inferInstanceAs (Decidable (d * (2 * r) ≤ 2 * n + d ∧ 2 * n + d < d * (2 * r + 2)))

/-- The rows returned by `SELECT * FROM workflow_stages WHERE loan_id = ? ORDER BY stage_id`. -/
def selectStages (db : Store) (loanId : String) : List StageRow :=
  (db.stages.filter (fun r => r.loan_id = loanId)).insertionSort
    (fun a b => a.stage_id ≤ b.stage_id)

/-- The number `stages.filter(stage => stage.status === 'completed').length`. -/
def completedCount (stages : List StageRow) : Nat :=
  (stages.filter (fun r => r.status = Status.completed)).length

/-- The `data` of the workflow answer; a stage is given by its id, status and progress. -/
structure WorkflowData where
  loanId : String
  currentStage : Nat
  workflowStatus : Status
  overallProgress : Nat
  completedStages : Nat
  totalStages : Nat
  stages : List (Nat × Status × Int)
  deriving DecidableEq, Repr

/-- The handler of `GET /:loanId/workflow`: the HTTP status and, on 200, the data.
`loanOk` and `stagesOk` are the outcomes of its two queries.  The column `stage_data`,
which no handler writes, is taken to be NULL in every row, so that `JSON.parse` is not
reached. -/
def getWorkflowStatus (db : Store) (loanOk stagesOk : Bool) (loanId : String) :
    Nat × Option WorkflowData :=
  if !loanOk || (selectLoan db loanId).isEmpty then (404, none)
  else if !stagesOk then (500, none)
  else
    match selectLoan db loanId with
    | [] => (404, none)
    | loan :: _ =>
      let stages := selectStages db loanId
      let completedStages := completedCount stages
      let totalStages := stages.length
      (200, some
        { loanId := loan.loan_id, currentStage := loan.current_stage,
          workflowStatus := loan.workflow_status,
          overallProgress := overallProgressOf completedStages totalStages,
          completedStages := completedStages, totalStages := totalStages,
          stages := stages.map (fun r => (r.stage_id, r.status, r.progress)) })

/-- A store in which the id `CL-40` has 40 stage rows (five rows for each stage id), the
first 23 of them completed. -/
def demoStore40 : Store :=
  { loans := [demoLoan "CL-40" 3 Status.processing],
    stages := (List.range 40).map (fun i =>
      demoStage "CL-40" (i % 8 + 1)
        (if i < 23 then Status.completed else Status.pending) 0),
    documents := [], actions := [] }

/-- A store with one loan at stage 4: three stages completed, the fourth processing at
progress 50. -/
def demoStoreHalf : Store :=
  { loans := [demoLoan "CL-1" 4 Status.processing],
    stages :=
      [ demoStage "CL-1" 1 Status.completed 100, demoStage "CL-1" 2 Status.completed 100,
        demoStage "CL-1" 3 Status.completed 100, demoStage "CL-1" 4 Status.processing 50,
        demoStage "CL-1" 5 Status.pending 0, demoStage "CL-1" 6 Status.pending 0,
        demoStage "CL-1" 7 Status.pending 0, demoStage "CL-1" 8 Status.pending 0 ],
    documents := [], actions := [] }

/-! ## The dashboard's progress figure (`calculateOverallProgress`) -/

/-- A finite number as JavaScript holds it, written `num / 2 ^ scale`.  The numbers held
are those of this form whose significand fits 53 bits. -/
structure JsDouble where
  num : Int
  scale : Nat
  deriving DecidableEq, Repr

/-- A whole number as JavaScript holds it (exact below `2 ^ 53` in absolute value). -/
def JsDouble.ofInt (n : Int) : JsDouble :=
  { num := n, scale := 0 }

/-- The least `s`, from the given one on, with `a < 2 ^ (53 + s)`, found in at most `fuel`
steps: the number of bits by which `a` exceeds a significand of 53 bits. -/
def excessBits : Nat → Nat → Nat → Nat
  | 0, _, s => s
  | fuel + 1, a, s => if a < 2 ^ (53 + s) then s else excessBits fuel a (s + 1)

/-- The result of an arithmetic operation whose exact value is `x`: the nearest number with
a significand of 53 bits, the one with an even significand at a tie.  The exponent range of
the format is not modelled: a sum of an array length times 100 and a finite number does not
overflow, and a quotient too small for the format lies below 1/2, where `Math.round` gives 0
with or without the underflow. -/
def roundToDouble (x : JsDouble) : JsDouble :=
  if x.num.natAbs < 2 ^ 53 then x
  else
    let s := excessBits x.num.natAbs x.num.natAbs 1
    let m := roundTiesEven x.num.natAbs (2 ^ s)
    { num := (if x.num < 0 then -1 else 1) * ((m * 2 ^ s : Nat) : Int), scale := x.scale }

/-- A stage of a workflow cached by the client, as far as the dashboard reads it: its
`id`, its `status` and its `progress`, a finite number (`none` when the property is absent,
null or not a number). -/
structure ClientStage where
  id : Nat
  status : String
  progress : Option JsDouble
  deriving DecidableEq, Repr

/-- A workflow cached by the client, as far as the dashboard reads it. -/
structure ClientWorkflow where
  currentStage : Nat
  stages : List ClientStage
  deriving DecidableEq, Repr

/-- The value of `x || 0` for a number `x` that may be absent: 0 when `x` is absent or is
itself 0. -/
def orZero : Option JsDouble → JsDouble
  | some p => if p.num = 0 then JsDouble.ofInt 0 else p
  | none => JsDouble.ofInt 0

/-- The value `Math.round(n / d)` for an integer `n` and a positive integer `d`: the
nearest integer, a half going toward positive infinity. -/
def mathRoundInt (n : Int) (d : Nat) : Int :=
  (2 * n + d) / (2 * d)

/-- The constant `completedStages` of `calculateOverallProgress`. -/
def ClientWorkflow.completedStages (workflow : ClientWorkflow) : Nat :=
  (workflow.stages.filter (fun s => s.status = "completed")).length

/-- The constant `currentProgress` of `calculateOverallProgress`:
`workflow.stages.find(s => s.id === workflow.currentStage)?.progress || 0`. -/
def ClientWorkflow.currentProgress (workflow : ClientWorkflow) : JsDouble :=
  orZero ((workflow.stages.find? (fun s => s.id = workflow.currentStage)).bind
    (fun s => s.progress))

/-- The exact value of `(completedStages * 100) + currentProgress`; the product is a whole
number below `2 ^ 53` and so exact. -/
def progressSum (completedStages : Nat) (currentProgress : JsDouble) : JsDouble :=
  { num := (completedStages : Int) * 100 * 2 ^ currentProgress.scale + currentProgress.num,
    scale := currentProgress.scale }

/-- The function `calculateOverallProgress` of the dashboard, in double arithmetic: the sum
is rounded to a double, its quotient by 8 is exact, and `Math.round` is taken of that. -/
def calculateOverallProgress (workflow : ClientWorkflow) : Int :=
  let sum := roundToDouble (progressSum workflow.completedStages workflow.currentProgress)
  mathRoundInt sum.num (2 ^ (sum.scale + 3))

/-- The integer `r` is `n / d` rounded to the nearest integer, halves upward, for an
integer `n`: `r - 1/2 ≤ n / d < r + 1/2`. -/
def NearestHalfUpInt (r n : Int) (d : Nat) : Prop :=
  (d : Int) * (2 * r) ≤ 2 * n + d ∧ 2 * n + d < (d : Int) * (2 * r + 2)

instance instDecidableNearestHalfUpInt (r n : Int) (d : Nat) :
    Decidable (NearestHalfUpInt r n d) :=
  inferInstanceAs
    (Decidable ((d : Int) * (2 * r) ≤ 2 * n + d ∧ 2 * n + d < (d : Int) * (2 * r + 2)))

/-- A cached workflow at stage 4: three stages completed, the fourth at progress 50. -/
def demoClientWorkflow : ClientWorkflow :=
  { currentStage := 4,
    stages :=
      [ { id := 1, status := "completed", progress := some (JsDouble.ofInt 100) },
        { id := 2, status := "completed", progress := some (JsDouble.ofInt 100) },
        { id := 3, status := "completed", progress := some (JsDouble.ofInt 100) },
        { id := 4, status := "processing", progress := some (JsDouble.ofInt 50) },
        { id := 5, status := "pending", progress := some (JsDouble.ofInt 0) },
        { id := 6, status := "pending", progress := some (JsDouble.ofInt 0) },
        { id := 7, status := "pending", progress := some (JsDouble.ofInt 0) },
        { id := 8, status := "pending", progress := some (JsDouble.ofInt 0) } ] }

/-- A cached workflow at stage 2 with stage 1 completed and the progress `p` in stage 2. -/
def workflowWithProgress (p : JsDouble) : ClientWorkflow :=
  { currentStage := 2,
    stages :=
      [ { id := 1, status := "completed", progress := some (JsDouble.ofInt 100) },
        { id := 2, status := "processing", progress := some p } ] }

/-! ## The upload middleware (`multer`) -/

/-- The alternatives of the pattern `allowedTypes`, in its order. -/
def allowedExtensions : List String :=
  ["pdf", "jpg", "jpeg", "png", "doc", "docx", "xls", "xlsx"]

/-- The form under which the flag `i` compares two characters.  Without the flag `u` it is
the upper-case mapping restricted so that no character outside ASCII is taken to one
inside; against the ASCII characters of `allowedTypes` only its value on ASCII matters. -/
def canonicalize (c : Char) : Char :=
  c.toUpper

/-- Whether `\.(pdf|jpg|jpeg|png|doc|docx|xls|xlsx)$` with the flag `i` matches from the
head of `rest`: a dot, one of the alternatives, then the end of the input. -/
def matchesHere (rest : List Char) : Bool :=
  match rest with
  | [] => false
  | c :: ext =>
    c = '.' && allowedExtensions.any (fun alt =>
      ext.map canonicalize = alt.toList.map canonicalize)

/-- The test `allowedTypes.test(name)`: the pattern matches from some position of the
name. -/
def allowedTypesTest (name : String) : Bool :=
  name.toList.tails.any matchesHere

/-- The `fileFilter` of the upload middleware: `cb(null, true)` is `Except.ok true` and
`cb(new Error(message), false)` is `Except.error message`. -/
def fileFilter (originalname : String) : Except String Bool :=
  if allowedTypesTest originalname then Except.ok true
  else Except.error "지원하지 않는 파일 형식입니다."

/-- A file part of a multipart request as the upload middleware meets it. -/
structure FilePart where
  fieldname : String
  originalname : String
  mimetype : String
  size : Nat
  deriving DecidableEq, Repr

/-- The errors with which the upload middleware ends a request before the handler runs:
the codes `LIMIT_FILE_SIZE`, `LIMIT_FILE_COUNT` and `LIMIT_UNEXPECTED_FILE` of multer, and
the error passed by `fileFilter`. -/
inductive UploadError
  | limitFileSize
  | limitFileCount
  | limitUnexpectedFile
  | rejected (message : String)
  deriving DecidableEq, Repr

/-- The limit `fileSize: 50 * 1024 * 1024`. -/
def fileSizeLimit : Nat :=
  50 * 1024 * 1024

/-- The limit `files: 10`, also the count given to `upload.array('documents', 10)`. -/
def filesLimit : Nat :=
  10

/-- What the middleware does with the file part at position `index` of the request: the
count of files, the field name, `fileFilter` and the size are checked in this order, and
the first check that fails ends the request; a part for which `fileFilter` answers
`false` without an error is left out of `req.files`.  The size check fails once the file
reaches the limit: a file of exactly `fileSizeLimit` bytes is refused. -/
def acceptPart (index : Nat) (part : FilePart) : Except UploadError (Option UploadedFile) :=
  if index ≥ filesLimit then Except.error UploadError.limitFileCount
  else if part.fieldname ≠ "documents" then Except.error UploadError.limitUnexpectedFile
  else
    match fileFilter part.originalname with
    | Except.error message => Except.error (UploadError.rejected message)
    | Except.ok false => Except.ok none
    | Except.ok true =>
      if part.size ≥ fileSizeLimit then Except.error UploadError.limitFileSize
      else Except.ok (some { originalname := part.originalname, size := part.size,
                             mimetype := part.mimetype })

/-- The middleware on the file parts from position `index` on.  Every part comes with the
way its handling by the handler would go, which is passed along with the accepted file. -/
def uploadArrayFrom : Nat → List (FilePart × FileOutcome) →
    Except UploadError (List (UploadedFile × FileOutcome))
  | _, [] => Except.ok []
  | index, part :: rest =>
    match acceptPart index part.1 with
    | Except.error err => Except.error err
    | Except.ok file =>
      match uploadArrayFrom (index + 1) rest with
      | Except.error err => Except.error err
      | Except.ok files => Except.ok ((file.map (fun f => (f, part.2))).toList ++ files)

/-- The middleware `upload.array('documents', 10)`: `req.files`, or the error handed to
`next`. -/
def uploadArray (parts : List (FilePart × FileOutcome)) :
    Except UploadError (List (UploadedFile × FileOutcome)) :=
  uploadArrayFrom 0 parts

/-- The error-handling middleware of `server.js` on an error of the upload middleware;
`devStack` is `err.stack` when `NODE_ENV` is `development`. -/
def errorMiddleware (devStack : Option String) (err : UploadError) : Response :=
  match err with
  | UploadError.limitFileSize => Response.fail 413 "FILE_TOO_LARGE"
  | UploadError.limitUnexpectedFile => Response.fail 400 "UNEXPECTED_FILE"
  | UploadError.limitFileCount => Response.fail 500 (devStack.getD "INTERNAL_SERVER_ERROR")
  | UploadError.rejected _ => Response.fail 500 (devStack.getD "INTERNAL_SERVER_ERROR")

/-- The route `POST /:loanId/documents`: the upload middleware, then the handler on
`req.files` or the error-handling middleware on the error. -/
def uploadRoute (db : Store) (env : UploadEnv) (now : Nat) (loanId : String)
    (parts : List (FilePart × FileOutcome)) (documentType : Option String)
    (devStack : Option String) : Response × Store :=
  match uploadArray parts with
  | Except.error err => (errorMiddleware devStack err, db)
  | Except.ok files => uploadDocuments db env now loanId files documentType

/-- A request with a valid file of 1000 bytes and a file one byte over 50MB, both of which
the object store and the metadata insert would take. -/
def mixedBatch : List (FilePart × FileOutcome) :=
  [ ({ fieldname := "documents", originalname := "plan.pdf", mimetype := "application/pdf",
       size := 1000 },
     FileOutcome.stored "bucket" "CL-1/other/plan.pdf" "https://s3/plan.pdf" true),
    ({ fieldname := "documents", originalname := "scan.pdf", mimetype := "application/pdf",
       size := 50 * 1024 * 1024 + 1 },
     FileOutcome.stored "bucket" "CL-1/other/scan.pdf" "https://s3/scan.pdf" true) ]

/-- Whether both the object-store upload and the metadata insert of a file went through. -/
def FileOutcome.succeeded : FileOutcome → Bool
  | FileOutcome.stored _ _ _ insertOk => insertOk
  | FileOutcome.storeFailed => false
  | FileOutcome.threw _ => false

/-- Whether the handling of a file threw. -/
def FileOutcome.thrown : FileOutcome → Bool
  | FileOutcome.threw _ => true
  | _ => false

/-- The document type used by the upload handler: `req.body.documentType || 'other'`. -/
def documentTypeOf (documentType : Option String) : String :=
  match documentType with
  | some t => if t != "" then t else "other"
  | none => "other"

/-- A store with one pending loan at stage 1 and its eight pending stage rows. -/
def pendingStore : Store :=
  { loans := [demoLoan "CL-1" 1 Status.pending],
    stages := (List.range 8).map (fun i => demoStage "CL-1" (i + 1) Status.pending 0),
    documents := [], actions := [] }

/-- A file of 1000 bytes. -/
def demoFile (name : String) : UploadedFile :=
  { originalname := name, size := 1000, mimetype := "application/pdf" }

/-! ## The client's upload (`APIService.uploadDocuments`) -/

/-- A file handed to the client's upload, as far as it is read: `file.name` and
`file.size`. -/
structure ClientFile where
  name : String
  size : Nat
  deriving DecidableEq, Repr

/-- An object literal of the client: its own properties in insertion order. -/
abbrev JsObject := List (String × JsValue)

/-- The value of `o[key]`. -/
def JsObject.prop (o : JsObject) (key : String) : JsValue :=
  match o.find? (fun p => p.1 = key) with
  | some p => p.2
  | none => JsValue.undefined

/-- The object after `o[key] = value`: an existing property keeps its place. -/
def JsObject.assign (o : JsObject) (key : String) (value : JsValue) : JsObject :=
  if o.any (fun p => p.1 = key) then
    o.map (fun p => if p.1 = key then (p.1, value) else p)
  else o ++ [(key, value)]

/-- The object `{ ...o, ...source }`: the properties of `source` are assigned in order. -/
def JsObject.spread (o : JsObject) (source : List (String × JsValue)) : JsObject :=
  source.foldl (fun acc p => JsObject.assign acc p.1 p.2) o

/-- How the storage request of one file ends: `makeRequest` returns a value, given by its
own enumerable properties (those a spread copies), or it throws an error with a message. -/
inductive RequestOutcome
  | resolved (properties : List (String × JsValue))
  | rejected (message : String)
  deriving DecidableEq, Repr

/-- Whether the request threw. -/
def RequestOutcome.threw : RequestOutcome → Bool
  | RequestOutcome.rejected _ => true
  | RequestOutcome.resolved _ => false

/-- The entry pushed on `results` for the file at position `i`. -/
def APIService.resultEntry (loanId : String) (documentTypes : List String) (i : Nat)
    (file : ClientFile) (outcome : RequestOutcome) : JsObject :=
  let documentType := match documentTypes.get? i with
    | some t => if t != "" then t else "other"
    | none => "other"
  let key := loanId ++ "/" ++ file.name
  match outcome with
  | RequestOutcome.resolved result =>
    JsObject.spread
      [ ("filename", JsValue.string file.name), ("key", JsValue.string key),
        ("type", JsValue.string documentType), ("size", JsValue.number (file.size : ℚ)),
        ("status", JsValue.string "completed") ] result
  | RequestOutcome.rejected message =>
    [ ("filename", JsValue.string file.name), ("key", JsValue.string key),
      ("type", JsValue.string documentType), ("size", JsValue.number (file.size : ℚ)),
      ("status", JsValue.string "failed"), ("error", JsValue.string message) ]

/-- The array `results` after the loop over the files from position `i` on. -/
def APIService.results (loanId : String) (documentTypes : List String) :
    Nat → List (ClientFile × RequestOutcome) → List JsObject
  | _, [] => []
  | i, f :: rest =>
    APIService.resultEntry loanId documentTypes i f.1 f.2 ::
      APIService.results loanId documentTypes (i + 1) rest

/-- What `APIService.uploadDocuments` returns: `success` and, of `data`, the loan id and
the two lists. -/
structure ClientUploadResult where
  success : Bool
  loanId : String
  uploadedFiles : List JsObject
  failedFiles : List JsObject
  deriving DecidableEq, Repr

/-- The method `APIService.uploadDocuments` on an array of files, each with the way its
storage request ends. -/
def APIService.uploadDocuments (loanId : String) (files : List (ClientFile × RequestOutcome))
    (documentTypes : List String) : ClientUploadResult :=
  let results := APIService.results loanId documentTypes 0 files
  { success := true, loanId := loanId,
    uploadedFiles := results.filter
      (fun r => JsObject.prop r "status" = JsValue.string "completed"),
    failedFiles := results.filter
      (fun r => JsObject.prop r "status" = JsValue.string "failed") }

/-! ## `DELETE /api/loans/:loanId` -/

/-- Outcome of the three statements of the delete handler. -/
structure DeleteEnv where
  documentsOk : Bool
  stagesOk : Bool
  loanOk : Bool
  deriving DecidableEq, Repr

/-- The statement `DELETE FROM uploaded_documents WHERE loan_id = ?`. -/
def deleteDocumentsQuery (loanId : String) (db : Store) : Store :=
  { db with documents := db.documents.filter (fun r => r.loan_id ≠ loanId) }

/-- The statement `DELETE FROM workflow_stages WHERE loan_id = ?`. -/
def deleteStagesQuery (loanId : String) (db : Store) : Store :=
  { db with stages := db.stages.filter (fun r => r.loan_id ≠ loanId) }

/-- The statement `DELETE FROM loan_applications WHERE loan_id = ?`. -/
def deleteLoanQuery (loanId : String) (db : Store) : Store :=
  { db with loans := db.loans.filter (fun r => r.loan_id ≠ loanId) }

/-- The handler of `DELETE /:loanId`.  The outcomes of the first two statements are not
read.  When the third statement errors, `executeQuery` answers without `data`, reading
`result.data.affectedRows` throws and the `catch` block answers 500. -/
def deleteLoan (db : Store) (env : DeleteEnv) (loanId : String) : Response × Store :=
  let db1 := runWrite env.documentsOk (deleteDocumentsQuery loanId) db
  let db2 := runWrite env.stagesOk (deleteStagesQuery loanId) db1
  if !env.loanOk then
    (Response.fail 500 "Internal server error", db2)
  else
    let affectedRows := (selectLoan db2 loanId).length
    let db3 := deleteLoanQuery loanId db2
    if affectedRows = 0 then
      (Response.fail 404 "대출 신청을 찾을 수 없습니다.", db3)
    else
      (Response.okFor 200 loanId, db3)

/-! ## The calls of `executeTransaction` on its connection -/

/-- A call on the connection obtained by `executeTransaction`. -/
inductive ConnectionCall
  | beginTransaction
  | execute (index : Nat)
  | commit
  | rollback
  | release
  deriving DecidableEq, Repr

/-- The `execute` calls of the loop over the queries, from the query at position `index`
on with `count` queries left, and whether all of them ran: the loop ends at the first
statement that errors. -/
def statementCalls : List Bool → Nat → Nat → List ConnectionCall × Bool
  | _, _, 0 => ([], true)
  | oks, index, count + 1 =>
    if oks.headD true then
      ((ConnectionCall.execute index :: (statementCalls oks.tail (index + 1) count).1),
        (statementCalls oks.tail (index + 1) count).2)
    else ([ConnectionCall.execute index], false)

/-- The calls of the `try` block of `executeTransaction` on `count` queries, and whether
the block ran to its end. -/
def tryCalls (env : TxEnv) (count : Nat) : List ConnectionCall × Bool :=
  if !env.beginOk then ([ConnectionCall.beginTransaction], false)
  else if (statementCalls env.stmtOk 0 count).2 then
    (ConnectionCall.beginTransaction :: (statementCalls env.stmtOk 0 count).1 ++
      [ConnectionCall.commit], env.commitOk)
  else (ConnectionCall.beginTransaction :: (statementCalls env.stmtOk 0 count).1, false)

/-- The calls `executeTransaction` makes on its connection, in order, for `count` queries:
the `try` block, `rollback` in the `catch` block when the `try` block threw, and `release`
in the `finally` block.  Without a connection nothing is called. -/
def connectionCalls (env : TxEnv) (count : Nat) : List ConnectionCall :=
  if !env.connectOk then []
  else
    (tryCalls env count).1 ++
      (if (tryCalls env count).2 then [] else [ConnectionCall.rollback]) ++
      [ConnectionCall.release]

/-- The number of entries pushed on `results`: one for every `execute` that ran. -/
def resultCount (env : TxEnv) (count : Nat) : Nat :=
  if (statementCalls env.stmtOk 0 count).2 then
    (statementCalls env.stmtOk 0 count).1.length
  else (statementCalls env.stmtOk 0 count).1.length - 1

/-- The store after a transaction on the store `db`. -/
def TxResult.storeAfter (result : TxResult) (db : Store) : Store :=
  match result with
  | TxResult.success db' => db'
  | _ => db

/-! ## The stage rows of a loan along its advances -/

/-- The stage id, status and progress of the stage rows of a loan, in table order. -/
def stageShape (db : Store) (loanId : String) : List (Nat × Status × Int) :=
  (db.stages.filter (fun r => r.loan_id = loanId)).map
    (fun r => (r.stage_id, r.status, r.progress))

/-- The stage rows of a loan after `n` advances, as the claim gives them: the stages
1, ..., n completed with progress 100, the stage n + 1 processing when `n ≥ 1` and pending
when `n = 0`, the later stages pending; progress is 0 outside the completed stages. -/
def shapeAfter (n : Nat) : List (Nat × Status × Int) :=
  (List.range 8).map (fun i =>
    (i + 1,
      if i < n then Status.completed
      else if i = n ∧ 1 ≤ n then Status.processing
      else Status.pending,
      if i < n then 100 else 0))

/-- The advance calls on one loan in which every statement runs, at the given times. -/
def successfulAdvances (loanId : String) (times : List Nat) : List AdvanceCall :=
  times.map (fun t => { loanId := loanId, env := AdvanceEnv.allOk, now := t })

/-- What holds of every store reachable without stage updates: no loan is completed and no
stage row of the final stage, or beyond, is completed. -/
def NoFinish (db : Store) : Prop :=
  (∀ l ∈ db.loans, l.workflow_status ≠ Status.completed) ∧
  (∀ s ∈ db.stages, s.status = Status.completed → s.stage_id < 8)

/-! ## The client's workflow cache (`WorkflowManager`) -/

/-- A sub-task of a stage. -/
structure StageTask where
  name : String
  completed : Bool
  deriving DecidableEq, Repr

/-- A stage of a cached workflow: its id and name, the fields the manager writes and its
tasks.  The fixed display fields (title, description, estimated time, page, icon) are left
out. -/
structure WorkflowStage where
  id : Nat
  name : String
  status : String
  progress : Int
  startTime : Option Nat
  endTime : Option Nat
  tasks : List StageTask
  deriving DecidableEq, Repr

/-- A cached workflow, as far as the manager's stage functions read and write it. -/
structure Workflow where
  loanId : String
  currentStage : Nat
  status : String
  stages : List WorkflowStage
  updatedAt : Nat
  deriving DecidableEq, Repr

/-- The manager, as far as its stage functions read and write it: the current loan (`none`
when `currentLoan` is null).  The map `workflows` holds the same objects and is not
modelled. -/
structure WorkflowManager where
  currentLoan : Option Workflow
  deriving DecidableEq, Repr

/-- A stage of `initializeStages`: pending, progress 0, no times, no task completed. -/
def initialStage (id : Nat) (name : String) (tasks : List String) : WorkflowStage :=
  { id := id, name := name, status := "pending", progress := 0, startTime := none,
    endTime := none, tasks := tasks.map (fun t => { name := t, completed := false }) }

/-- The function `initializeStages`. -/
def initializeStages : List WorkflowStage :=
  [ initialStage 1 "신규대출등록" ["기본 정보 입력", "문서 업로드", "파일 검증"],
    initialStage 2 "문서파싱" ["문서 분류", "텍스트 추출", "구조 분석", "신뢰도 계산"],
    initialStage 3 "후교정" ["추출 데이터 검토", "오류 수정", "데이터 검증"],
    initialStage 4 "청킹임베딩" ["문서 청킹", "벡터 임베딩", "벡터스토어 저장"],
    initialStage 5 "여신신청서생성" ["기본 정보 생성", "재무 분석", "위험 평가", "신청서 완성"],
    initialStage 6 "RM검토" ["신청서 검토", "내용 수정", "최종 승인"],
    initialStage 7 "심사의견서생성"
      ["종합 리스크 분석", "승인 권고사항 도출", "심사포인트 정리", "심사의견서 생성"],
    initialStage 8 "최종심사"
      ["여신승인신청서 검토", "AI 심사의견서 검토", "최종 가부 결정", "심사의견 작성"] ]

/-- The function `createNewWorkflow`, as far as the cache goes: the new workflow under the
generated id, which becomes the current loan. -/
def WorkflowManager.createNewWorkflow (_m : WorkflowManager) (loanId : String) (now : Nat) :
    Workflow × WorkflowManager :=
  let workflow : Workflow :=
    { loanId := loanId, currentStage := 1, status := "pending", stages := initializeStages,
      updatedAt := now }
  (workflow, { currentLoan := some workflow })

/-- An array after an assignment to the element that `find(p)` returns: the first element
that satisfies `p` is replaced by its image under `f`. -/
def modifyFound {α : Type} (p : α → Bool) (f : α → α) : List α → List α
  | [] => []
  | a :: l => if p a then f a :: l else a :: modifyFound p f l

/-- The function `startStage`. -/
def WorkflowManager.startStage (m : WorkflowManager) (now : Nat) (stageId : Nat) :
    Bool × WorkflowManager :=
  match m.currentLoan with
  | none => (false, m)
  | some loan =>
    match loan.stages.find? (fun s => s.id = stageId) with
    | none => (false, m)
    | some _ =>
      (true,
        { currentLoan := some
            ({ loan with
               stages := modifyFound (fun s => s.id = stageId)
                 (fun s => { s with status := "processing", startTime := some now,
                                    progress := 0 }) loan.stages,
               currentStage := stageId, status := "processing", updatedAt := now }) })

/-- The changes `completeStage` makes to the stage it found. -/
def completedStage (now : Nat) (stage : WorkflowStage) : WorkflowStage :=
  { stage with status := "completed", progress := 100, endTime := some now,
               tasks := stage.tasks.map (fun t => { t with completed := true }) }

/-- The function `completeStage`. -/
def WorkflowManager.completeStage (m : WorkflowManager) (now : Nat) (stageId : Nat) :
    Bool × WorkflowManager :=
  match m.currentLoan with
  | none => (false, m)
  | some loan =>
    match loan.stages.find? (fun s => s.id = stageId) with
    | none => (false, m)
    | some _ =>
      let stages := modifyFound (fun s => s.id = stageId) (completedStage now) loan.stages
      if stageId < 8 then
        (true,
          { currentLoan := some
              ({ loan with stages := stages, updatedAt := now,
                           currentStage := stageId + 1 }) })
      else
        (true,
          { currentLoan := some
              ({ loan with stages := stages, updatedAt := now, status := "completed" }) })

/-- The function `updateStageProgress`; `progress` is a whole percentage and `taskName` is
`none` when the argument is absent, null or empty. -/
def WorkflowManager.updateStageProgress (m : WorkflowManager) (now : Nat) (stageId : Nat)
    (progress : Int) (taskName : Option String) : Bool × WorkflowManager :=
  match m.currentLoan with
  | none => (false, m)
  | some loan =>
    match loan.stages.find? (fun s => s.id = stageId) with
    | none => (false, m)
    | some _ =>
      (true,
        { currentLoan := some
            ({ loan with
               stages := modifyFound (fun s => s.id = stageId)
                 (fun s =>
                   { s with
                     progress := min 100 (max 0 progress),
                     tasks := match taskName with
                       | some name =>
                         if name != "" then
                           modifyFound (fun t => t.name = name)
                             (fun t => { t with completed := true }) s.tasks
                         else s.tasks
                       | none => s.tasks })
                 loan.stages,
               updatedAt := now }) })

/-- One call of a stage function of the manager. -/
inductive ClientCall
  | start (now stageId : Nat)
  | complete (now stageId : Nat)
  | progress (now stageId : Nat) (progress : Int) (taskName : Option String)
  deriving DecidableEq, Repr

/-- The manager after one call. -/
def WorkflowManager.call (m : WorkflowManager) : ClientCall → WorkflowManager
  | ClientCall.start now stageId => (m.startStage now stageId).2
  | ClientCall.complete now stageId => (m.completeStage now stageId).2
  | ClientCall.progress now stageId progress taskName =>
    (m.updateStageProgress now stageId progress taskName).2

/-- The manager after a sequence of calls, in order. -/
def WorkflowManager.run (m : WorkflowManager) (calls : List ClientCall) : WorkflowManager :=
  calls.foldl WorkflowManager.call m

/-- The workflow as the dashboard reads it. -/
def Workflow.toDashboard (w : Workflow) : ClientWorkflow :=
  { currentStage := w.currentStage,
    stages := w.stages.map (fun s =>
      { id := s.id, status := s.status, progress := some (JsDouble.ofInt s.progress) }) }

/-- The calls that complete the eight stages in order, at time 0. -/
def completeAll : List ClientCall :=
  (List.range 8).map (fun i => ClientCall.complete 0 (i + 1))

/-- What holds of the current loan after `createNewWorkflow` and any calls of the stage
functions: the stages are those of the ids 1, ..., 8 in order, every progress is between 0
and 100, the current stage is between 1 and 8, and a workflow of status completed has its
stage 8 completed. -/
def ClientInv (w : Workflow) : Prop :=
  w.stages.map (fun s => s.id) = [1, 2, 3, 4, 5, 6, 7, 8] ∧
  (∀ s ∈ w.stages, 0 ≤ s.progress ∧ s.progress ≤ 100) ∧
  (1 ≤ w.currentStage ∧ w.currentStage ≤ 8) ∧
  (w.status = "completed" → ∀ s ∈ w.stages, s.id = 8 → s.status = "completed")

/-! ## The client's copy against the server's rows -/

/-- The name of a status value, as the client writes it. -/
def Status.name : Status → String
  | Status.pending => "pending"
  | Status.processing => "processing"
  | Status.completed => "completed"
  | Status.failed => "failed"

/-- What the client's copy and the server's rows of a loan are compared on: the current
stage, the loan-level status and, for every stage in order, its id, status and progress. -/
structure LoanView where
  currentStage : Nat
  status : String
  stages : List (Nat × String × Int)
  deriving DecidableEq, Repr

/-- The view of a cached workflow. -/
def Workflow.view (w : Workflow) : LoanView :=
  { currentStage := w.currentStage, status := w.status,
    stages := w.stages.map (fun s => (s.id, s.status, s.progress)) }

/-- The view of the rows the server holds for a loan id (`none` when it holds no loan row
of that id). -/
def serverView (db : Store) (loanId : String) : Option LoanView :=
  match selectLoan db loanId with
  | [] => none
  | row :: _ =>
    some { currentStage := row.current_stage, status := row.workflow_status.name,
           stages := (stageShape db loanId).map (fun v => (v.1, v.2.1.name, v.2.2)) }

/-- A manager whose current loan is a workflow just created. -/
def freshManager : WorkflowManager :=
  (({ currentLoan := none } : WorkflowManager).createNewWorkflow "CL-20240615-0001" 0).2

/-! ## The client's file checks (`validateFileType`, `validateFileSize`) -/

/-- A file as the client's checks read it: `file.name`, `file.type` and `file.size`. -/
structure BrowserFile where
  name : String
  type : String
  size : Nat
  deriving DecidableEq, Repr

/-- The list `allowedTypes` of `validateFileType`. -/
def clientAllowedTypes : List String :=
  [ "application/pdf", "image/jpeg", "image/jpg", "image/png", "application/msword",
    "application/vnd.openxmlformats-officedocument.wordprocessingml.document",
    "application/vnd.ms-excel",
    "application/vnd.openxmlformats-officedocument.spreadsheetml.sheet" ]

/-- The list `allowedExtensions` of `validateFileType`. -/
def clientAllowedExtensions : List String :=
  ["pdf", "jpg", "jpeg", "png", "doc", "docx", "xls", "xlsx"]

/-- The expression `file.name.split('.').pop().toLowerCase()`: what follows the last dot of
the name (the whole name when it has no dot), in lower case.  Outside ASCII `toLowerCase`
yields none of the letters of the allowed extensions, so the mapping on ASCII is all that
the comparison with them sees. -/
def clientExtension (name : String) : List Char :=
  ((name.toList.reverse.takeWhile (fun c => c ≠ '.')).reverse).map Char.toLower

/-- The function `validateFileType`. -/
def validateFileType (file : BrowserFile) : Bool :=
  clientAllowedTypes.contains file.type ||
    clientAllowedExtensions.any (fun e => e.toList = clientExtension file.name)

/-- The function `validateFileSize`. -/
def validateFileSize (file : BrowserFile) : Bool :=
  file.size ≤ 50 * 1024 * 1024

/-- The file part under which the client's upload sends a file to the server. -/
def BrowserFile.toPart (file : BrowserFile) : FilePart :=
  { fieldname := "documents", originalname := file.name, mimetype := file.type,
    size := file.size }

/-! ## Theorems -/

theorem advanceStage_allOk (db : Store) (now : Nat) (loanId : String) (loan : LoanRow)
    (rest : List LoanRow) (hsel : selectLoan db loanId = loan :: rest)
    (h8 : loan.current_stage < 8) :
    advanceStage db AdvanceEnv.allOk now loanId =
      (advanceOk loanId loan.current_stage,
        startNextStageQuery now loanId (loan.current_stage + 1)
          (updateLoanQuery now (loan.current_stage + 1) loanId
            (completeCurrentStageQuery now loanId loan.current_stage db))) := by
  have h : ¬ loan.current_stage ≥ 8 := by omega
  simp [advanceStage, AdvanceEnv.allOk, hsel, h, runWrite, advanceOk]

/-- C1: advancing an existing loan from stage k (1 ≤ k < 8) with the lookup and the three
writes succeeding answers 200; row by row in table order, every stage row keeps its key,
the rows of stage k of that loan become completed with progress 100, the rows of stage k+1
become processing with progress 0 and every other stage row is unchanged; every loan row
with that id gets current_stage k+1 and workflow_status processing and every other loan row
is unchanged; documents and audit rows are unchanged. -/
theorem advanceStage_postcondition (db : Store) (env : AdvanceEnv) (now : Nat)
    (loanId : String) (loan : LoanRow) (rest : List LoanRow) (k : Nat)
    (hsel : selectLoan db loanId = loan :: rest) (hk : loan.current_stage = k)
    (h1 : 1 ≤ k) (h8 : k < 8) (hlookup : env.lookupOk = true)
    (hcomplete : env.completeOk = true) (hupdate : env.updateOk = true)
    (hstart : env.startOk = true) :
    (advanceStage db env now loanId).1.code = 200 ∧
    (advanceStage db env now loanId).1.success = true ∧
    (advanceStage db env now loanId).1.currentStage = some (k + 1) ∧
    List.Forall₂ (fun r r' : StageRow =>
        r'.loan_id = r.loan_id ∧ r'.stage_id = r.stage_id ∧
        (r.loan_id = loanId ∧ r.stage_id = k →
          r'.status = Status.completed ∧ r'.progress = 100) ∧
        (r.loan_id = loanId ∧ r.stage_id = k + 1 →
          r'.status = Status.processing ∧ r'.progress = 0) ∧
        (¬ (r.loan_id = loanId ∧ (r.stage_id = k ∨ r.stage_id = k + 1)) → r' = r))
      db.stages (advanceStage db env now loanId).2.stages ∧
    List.Forall₂ (fun r r' : LoanRow =>
        r'.loan_id = r.loan_id ∧
        (r.loan_id = loanId →
          r'.current_stage = k + 1 ∧ r'.workflow_status = Status.processing) ∧
        (r.loan_id ≠ loanId → r' = r))
      db.loans (advanceStage db env now loanId).2.loans ∧
    (∃ r' ∈ (advanceStage db env now loanId).2.loans, r'.loan_id = loanId) ∧
    (advanceStage db env now loanId).2.documents = db.documents ∧
    (advanceStage db env now loanId).2.actions = db.actions := by
  have henv : env = AdvanceEnv.allOk := by
    cases env; simp_all [AdvanceEnv.allOk]
  subst henv
  subst hk
  rw [advanceStage_allOk db now loanId loan rest hsel h8]
  refine ⟨rfl, rfl, rfl, ?_, ?_, ?_, rfl, rfl⟩
  · simp only [startNextStageQuery, updateLoanQuery, completeCurrentStageQuery, List.map_map]
    rw [List.forall₂_map_right_iff, List.forall₂_same]
    intro r _
    by_cases hid : r.loan_id = loanId
    · by_cases hs : r.stage_id = loan.current_stage
      · have : ¬ loan.current_stage = loan.current_stage + 1 := by omega
        simp [hid, hs, this]
      · by_cases hs' : r.stage_id = loan.current_stage + 1
        · simp [hid, hs, hs']
        · simp [hid, hs, hs']
    · simp [hid]
  · simp only [startNextStageQuery, updateLoanQuery, completeCurrentStageQuery]
    rw [List.forall₂_map_right_iff, List.forall₂_same]
    intro r _
    by_cases hid : r.loan_id = loanId
    · simp [hid]
    · simp [hid]
  · have hmem : loan ∈ selectLoan db loanId := by rw [hsel]; exact List.mem_cons_self _ _
    simp only [selectLoan, List.mem_filter, decide_eq_true_eq] at hmem
    simp only [startNextStageQuery, updateLoanQuery, completeCurrentStageQuery]
    exact ⟨_, List.mem_map_of_mem _ hmem.1, by simp [hmem.2]⟩

theorem advanceStage_postcondition_witness :
    selectLoan demoStore "CL-1" = [demoLoan "CL-1" 3 Status.processing] ∧
    (advanceStage demoStore AdvanceEnv.allOk 50 "CL-1").1.code = 200 ∧
    (advanceStage demoStore AdvanceEnv.allOk 50 "CL-1").1.currentStage = some 4 :=
  have h := advanceStage_postcondition demoStore AdvanceEnv.allOk 50 "CL-1"
    (demoLoan "CL-1" 3 Status.processing) [] 3 (by decide) rfl (by decide) (by decide)
    rfl rfl rfl rfl
  ⟨by decide, h.1, h.2.2.1⟩

/-- C2, as stated, fails: for a loan at stage 8 whose lookup statement errors the answer is
404, not 400. -/
theorem advanceStage_final_not_always_400 :
    selectLoan demoStoreFinal "CL-8" = [demoLoan "CL-8" 8 Status.processing] ∧
    (advanceStage demoStoreFinal lookupFails 50 "CL-8").1.code = 404 ∧
    (advanceStage demoStoreFinal lookupFails 50 "CL-8").1.code ≠ 400 := by
  decide

/-- C2 (amended): advancing a loan whose current stage is 8 or more always fails and leaves
the store as it was; the answer is 400 when the lookup statement runs and 404 when it
errors. -/
theorem advanceStage_final_stage (db : Store) (env : AdvanceEnv) (now : Nat)
    (loanId : String) (loan : LoanRow) (rest : List LoanRow)
    (hsel : selectLoan db loanId = loan :: rest) (h8 : 8 ≤ loan.current_stage) :
    (advanceStage db env now loanId).2 = db ∧
    (advanceStage db env now loanId).1.success = false ∧
    (env.lookupOk = true → (advanceStage db env now loanId).1.code = 400) ∧
    (env.lookupOk = false → (advanceStage db env now loanId).1.code = 404) := by
  cases hl : env.lookupOk <;> simp [advanceStage, hl, hsel, h8, Response.fail]

theorem advanceStage_final_stage_witness :
    (advanceStage demoStoreFinal AdvanceEnv.allOk 50 "CL-8").2 = demoStoreFinal ∧
    (advanceStage demoStoreFinal AdvanceEnv.allOk 50 "CL-8").1.code = 400 :=
  have h := advanceStage_final_stage demoStoreFinal AdvanceEnv.allOk 50 "CL-8"
    (demoLoan "CL-8" 8 Status.processing) [] (by decide) (by decide)
  ⟨h.1, h.2.2.1 rfl⟩

/-- C3, as stated, fails: with a stored loan at stage 3 and a lookup statement that errors,
no write fails and the answer is 404 although a loan has the id. -/
theorem advanceStage_404_with_stored_loan :
    (∃ r ∈ demoStore.loans, r.loan_id = "CL-1") ∧
    (advanceStage demoStore lookupFails 50 "CL-1").1.code = 404 := by
  decide

/-- C3 (amended): when the lookup and the three writes run, the advance answers 404 exactly
when no loan row has the id, 400 exactly when the loan read has current stage 8 or more,
and 200 in every other case; on 404 and on 400 the store is unchanged. -/
theorem advanceStage_failure_cases (db : Store) (env : AdvanceEnv) (now : Nat)
    (loanId : String) (hlookup : env.lookupOk = true) (hcomplete : env.completeOk = true)
    (hupdate : env.updateOk = true) (hstart : env.startOk = true) :
    ((advanceStage db env now loanId).1.code = 404 ↔ ∀ r ∈ db.loans, r.loan_id ≠ loanId) ∧
    ((advanceStage db env now loanId).1.code = 400 ↔
      ∃ loan, (selectLoan db loanId).head? = some loan ∧ 8 ≤ loan.current_stage) ∧
    ((advanceStage db env now loanId).1.code ≠ 404 →
      (advanceStage db env now loanId).1.code ≠ 400 →
      (advanceStage db env now loanId).1.code = 200 ∧
      (advanceStage db env now loanId).1.success = true) ∧
    ((advanceStage db env now loanId).1.code = 404 ∨
      (advanceStage db env now loanId).1.code = 400 →
      (advanceStage db env now loanId).2 = db) := by
  have hnone : (∀ r ∈ db.loans, r.loan_id ≠ loanId) ↔ selectLoan db loanId = [] := by
    simp [selectLoan, List.filter_eq_nil_iff]
  rw [hnone]
  cases hsel : selectLoan db loanId with
  | nil => simp [advanceStage, hlookup, hsel, Response.fail]
  | cons loan rest =>
    by_cases h8 : 8 ≤ loan.current_stage
    · simp [advanceStage, hlookup, hsel, h8, Response.fail]
    · simp [advanceStage, hlookup, hcomplete, hupdate, hstart, hsel, h8, Response.okFor]

theorem advanceStage_failure_cases_witness :
    ((advanceStage demoStore AdvanceEnv.allOk 50 "CL-404").1.code = 404 ↔
      ∀ r ∈ demoStore.loans, r.loan_id ≠ "CL-404") ∧
    (advanceStage demoStore AdvanceEnv.allOk 50 "CL-404").1.code = 404 :=
  ⟨(advanceStage_failure_cases demoStore AdvanceEnv.allOk 50 "CL-404" rfl rfl rfl rfl).1,
    by decide⟩

/-! ### Loan rows under the advance -/

theorem selectLoan_map (db db' : Store) (f : LoanRow → LoanRow) (X : String)
    (hf : ∀ r, (f r).loan_id = r.loan_id) (h : db'.loans = db.loans.map f) :
    selectLoan db' X = (selectLoan db X).map f := by
  simp only [selectLoan, h, List.filter_map]
  congr 1
  apply List.filter_congr
  intro r _
  simp [hf r]

theorem selectLoan_of_loans_eq (db db' : Store) (X : String) (h : db'.loans = db.loans) :
    selectLoan db' X = selectLoan db X := by
  simp [selectLoan, h]

theorem selectLoan_updateLoanQuery_ne (db : Store) (now n : Nat) (id X : String)
    (hne : id ≠ X) : selectLoan (updateLoanQuery now n id db) X = selectLoan db X := by
  simp only [selectLoan, updateLoanQuery, List.filter_map]
  rw [List.map_congr_left, List.map_id']
  · apply List.filter_congr
    intro r _
    by_cases h : r.loan_id = id <;> simp [h]
  · intro r hr
    have hX : r.loan_id = X := by
      have := (List.mem_filter.mp hr).2
      by_cases h : r.loan_id = id
      · simp [h] at this; exact absurd this hne
      · simpa [h] using this
    have : ¬ r.loan_id = id := fun h => hne (h ▸ hX)
    simp [this]

theorem selectLoan_updateLoanQuery_self (db : Store) (now n : Nat) (X : String) :
    selectLoan (updateLoanQuery now n X db) X =
      (selectLoan db X).map (fun r =>
        { r with current_stage := n, workflow_status := Status.processing,
                 updated_at := now }) := by
  simp only [selectLoan, updateLoanQuery, List.filter_map]
  have h1 : db.loans.filter ((fun r : LoanRow => decide (r.loan_id = X)) ∘ fun r =>
      if r.loan_id = X then
        { r with current_stage := n, workflow_status := Status.processing, updated_at := now }
      else r) = db.loans.filter (fun r => decide (r.loan_id = X)) := by
    apply List.filter_congr
    intro r _
    by_cases h : r.loan_id = X <;> simp [h]
  rw [h1]
  apply List.map_congr_left
  intro r hr
  have := (List.mem_filter.mp hr).2
  simp only [decide_eq_true_eq] at this
  simp [this]

/-- The advance when the lookup finds a loan below stage 8: the three writes are issued,
each taking effect when it runs, and the answer is 200 when all ran and 500 otherwise. -/
theorem advanceStage_writes (db : Store) (env : AdvanceEnv) (now : Nat) (id : String)
    (loan : LoanRow) (rest : List LoanRow) (hl : env.lookupOk = true)
    (hsel : selectLoan db id = loan :: rest) (h8 : ¬ 8 ≤ loan.current_stage) :
    (advanceStage db env now id).2 =
      runWrite env.startOk (startNextStageQuery now id (loan.current_stage + 1))
        (runWrite env.updateOk (updateLoanQuery now (loan.current_stage + 1) id)
          (runWrite env.completeOk (completeCurrentStageQuery now id loan.current_stage) db)) ∧
    (advanceStage db env now id).1.code =
      if env.completeOk && env.updateOk && env.startOk then 200 else 500 := by
  cases hc : env.completeOk <;> cases hu : env.updateOk <;> cases hs : env.startOk <;>
    simp [advanceStage, hl, hsel, h8, hc, hu, hs, Response.fail, Response.okFor]

/-- The advance when the lookup errors, finds no loan, or finds a loan at stage 8 or more:
nothing is written, and the answer is 404, 404 and 400. -/
theorem advanceStage_rejects (db : Store) (env : AdvanceEnv) (now : Nat) (id : String)
    (h : env.lookupOk = false ∨ selectLoan db id = [] ∨
      ∃ loan rest, selectLoan db id = loan :: rest ∧ 8 ≤ loan.current_stage) :
    (advanceStage db env now id).2 = db ∧
    ((advanceStage db env now id).1.code = 404 ∨ (advanceStage db env now id).1.code = 400) := by
  cases hl : env.lookupOk
  · simp [advanceStage, hl, Response.fail]
  · rcases h with h | h | ⟨loan, rest, hsel, h8⟩
    · simp [hl] at h
    · simp [advanceStage, hl, h, Response.fail]
    · simp [advanceStage, hl, hsel, h8, Response.fail]

/-- Every advance is of one of the two kinds. -/
theorem advanceStage_cases (db : Store) (env : AdvanceEnv) (id : String) :
    (env.lookupOk = false ∨ selectLoan db id = [] ∨
      ∃ loan rest, selectLoan db id = loan :: rest ∧ 8 ≤ loan.current_stage) ∨
    (env.lookupOk = true ∧
      ∃ loan rest, selectLoan db id = loan :: rest ∧ ¬ 8 ≤ loan.current_stage) := by
  cases hl : env.lookupOk
  · simp
  · cases hsel : selectLoan db id with
    | nil => simp
    | cons loan rest =>
      by_cases h8 : 8 ≤ loan.current_stage
      · exact Or.inl (Or.inr (Or.inr ⟨loan, rest, rfl, h8⟩))
      · exact Or.inr ⟨rfl, loan, rest, rfl, h8⟩

/-- The loan rows of another id are the same after an advance. -/
theorem selectLoan_advanceStage_ne (db : Store) (env : AdvanceEnv) (now : Nat)
    (id X : String) (hne : id ≠ X) :
    selectLoan (advanceStage db env now id).2 X = selectLoan db X := by
  rcases advanceStage_cases db env id with h | ⟨hl, loan, rest, hsel, h8⟩
  · rw [(advanceStage_rejects db env now id h).1]
  · rw [(advanceStage_writes db env now id loan rest hl hsel h8).1]
    cases env.completeOk <;> cases env.updateOk <;> cases env.startOk <;>
      simp only [runWrite, if_true, if_false, Bool.false_eq_true] <;>
      first
      | rfl
      | exact selectLoan_updateLoanQuery_ne _ _ _ _ _ hne

/-- The loan row of the advanced id: it moves one stage up, to processing, when the lookup
runs, finds it below stage 8 and the loan update runs; it is as before otherwise. -/
theorem selectLoan_advanceStage_self (db : Store) (env : AdvanceEnv) (now : Nat)
    (X : String) (row : LoanRow) (hsel : selectLoan db X = [row]) :
    selectLoan (advanceStage db env now X).2 X =
      [if env.lookupOk = true ∧ ¬ 8 ≤ row.current_stage ∧ env.updateOk = true then
        { row with current_stage := row.current_stage + 1,
                   workflow_status := Status.processing, updated_at := now }
       else row] := by
  rcases advanceStage_cases db env X with h | ⟨hl, loan, rest, hsel', h8⟩
  · rw [(advanceStage_rejects db env now X h).1, hsel]
    rcases h with h | h | ⟨loan, rest, hsel', h8⟩
    · simp [h]
    · simp [h] at hsel
    · rw [hsel] at hsel'
      have : row = loan := by simpa using (List.cons.inj hsel').1
      simp [this, h8]
  · rw [hsel] at hsel'
    have hrow : loan = row := by simpa using (List.cons.inj hsel').1.symm
    subst hrow
    rw [(advanceStage_writes db env now X loan rest hl (hsel ▸ hsel') h8).1]
    cases hu : env.updateOk
    · have : selectLoan (runWrite env.startOk (startNextStageQuery now X (loan.current_stage + 1))
          (runWrite false (updateLoanQuery now (loan.current_stage + 1) X)
            (runWrite env.completeOk (completeCurrentStageQuery now X loan.current_stage) db))) X
          = selectLoan db X := by
        cases env.completeOk <;> cases env.startOk <;> rfl
      rw [this, hsel]
      simp
    · have : selectLoan (runWrite env.startOk (startNextStageQuery now X (loan.current_stage + 1))
          (runWrite true (updateLoanQuery now (loan.current_stage + 1) X)
            (runWrite env.completeOk (completeCurrentStageQuery now X loan.current_stage) db))) X
          = selectLoan (updateLoanQuery now (loan.current_stage + 1) X db) X := by
        cases env.completeOk <;> cases env.startOk <;> rfl
      rw [this, selectLoan_updateLoanQuery_self, hsel]
      simp [hl, h8]

/-! ### The create handler -/

theorem runStatements_insertStages (now : Nat) (id : String) :
    ∀ (l : List (Nat × String × String × Nat)) (oks : List Bool) (db db' : Store),
      runStatements oks (l.map (insertStageQuery now id)) db = some db' →
      db' = { db with stages := db.stages ++ l.map (newStageRow now id) }
  | [], _, db, db', h => by
    simp only [List.map_nil, runStatements, Option.some.injEq] at h
    simp [← h]
  | st :: l, oks, db, db', h => by
    simp only [List.map_cons, runStatements] at h
    split at h
    · have := runStatements_insertStages now id l _ _ _ h
      rw [this]
      simp [insertStageQuery]
    · exact absurd h (by simp)

/-- A transaction succeeds exactly when the connection, the begin, every statement and the
commit run; its result is then the store after the statements. -/
theorem executeTransaction_success_iff (env : TxEnv) (qs : List (Store → Store))
    (db db' : Store) :
    executeTransaction env qs db = TxResult.success db' ↔
      env.connectOk = true ∧ env.beginOk = true ∧
      runStatements env.stmtOk qs db = some db' ∧ env.commitOk = true := by
  unfold executeTransaction
  cases env.connectOk <;> cases env.beginOk <;> cases env.commitOk <;>
    cases env.rollbackOk <;> cases runStatements env.stmtOk qs db <;> simp

/-- A transaction that does not succeed leaves `failure` or `thrown`. -/
theorem executeTransaction_cases (env : TxEnv) (qs : List (Store → Store)) (db : Store) :
    (∃ db', executeTransaction env qs db = TxResult.success db') ∨
    executeTransaction env qs db = TxResult.failure ∨
    executeTransaction env qs db = TxResult.thrown := by
  cases h : executeTransaction env qs db with
  | success db' => exact Or.inl ⟨db', rfl⟩
  | failure => exact Or.inr (Or.inl rfl)
  | thrown => exact Or.inr (Or.inr rfl)

/-- A stage initialisation that succeeds appends the eight rows of the stage table, in
order, and changes nothing else. -/
theorem initializeWorkflowStages_success (env : TxEnv) (now : Nat) (id : String)
    (db db' : Store) (h : initializeWorkflowStages env now id db = TxResult.success db') :
    db' = { db with stages := db.stages ++ stageTable.map (newStageRow now id) } :=
  runStatements_insertStages now id _ _ _ _
    ((executeTransaction_success_iff env _ db db').mp h).2.2.1

/-- A creation answered 201: the body validated, the loan insert ran, the answer carries
the generated id, one loan row was appended, and the stage rows are either as before (the
stage transaction failed) or extended by the eight rows of the stage table. -/
theorem createLoan_created (lib : JoiLib) (db : Store) (env : CreateEnv) (now : Nat)
    (body : CreateBody) (h : (createLoan lib db env now body).1.code = 201) :
    ∃ value, loanApplicationSchema lib body = Except.ok value ∧ env.insertOk = true ∧
      (createLoan lib db env now body).1 = Response.okFor 201 env.loanId ∧
      (createLoan lib db env now body).2.loans = db.loans ++ [newLoanRow now env.loanId value] ∧
      (((∀ db', initializeWorkflowStages env.stagesTx now env.loanId
            (insertLoanQuery now env.loanId value db) ≠ TxResult.success db') ∧
          (createLoan lib db env now body).2.stages = db.stages) ∨
        ((∃ db', initializeWorkflowStages env.stagesTx now env.loanId
            (insertLoanQuery now env.loanId value db) = TxResult.success db') ∧
          (createLoan lib db env now body).2.stages =
            db.stages ++ stageTable.map (newStageRow now env.loanId))) ∧
      (createLoan lib db env now body).2.documents = db.documents := by
  cases hv : loanApplicationSchema lib body with
  | error msg => simp [createLoan, hv, Response.fail] at h
  | ok value =>
    cases hi : env.insertOk with
    | false => simp [createLoan, hv, hi, Response.fail] at h
    | true =>
      refine ⟨value, rfl, rfl, ?_⟩
      cases ht : initializeWorkflowStages env.stagesTx now env.loanId
          (insertLoanQuery now env.loanId value db) with
      | thrown => simp [createLoan, hv, hi, ht, Response.fail] at h
      | failure =>
        simp only [createLoan, hv, hi, ht]
        cases env.logOk <;> simp [runWrite, insertLoanQuery, logCreateQuery]
      | success db' =>
        have := initializeWorkflowStages_success _ _ _ _ _ ht
        subst this
        simp only [createLoan, hv, hi, ht]
        cases env.logOk <;> simp [runWrite, insertLoanQuery, logCreateQuery]

/-- C4: the code at a failing input.  On the loan created by the sample request, an
advance whose first write errors while the loan update runs is answered 500, so it fails,
and yet the loan's current stage has gone from 1 to 2: the three writes are not one
transaction. -/
theorem failed_advance_raises_current_stage :
    (createLoan demoLib Store.empty demoCreateEnv 0 demoBody).1.code = 201 ∧
    (selectLoan demoCreated "CL-20240615-0001").map (fun r => r.current_stage) = [1] ∧
    (advanceStage demoCreated completeFails 1 "CL-20240615-0001").1.success = false ∧
    (advanceStage demoCreated completeFails 1 "CL-20240615-0001").1.code = 500 ∧
    (selectLoan (advanceStage demoCreated completeFails 1 "CL-20240615-0001").2
      "CL-20240615-0001").map (fun r => r.current_stage) = [2] := by
  decide

theorem advanceRun_append (db : Store) (calls : List AdvanceCall) (c : AdvanceCall) :
    advanceRun db (calls ++ [c]) =
      (advanceStage (advanceRun db calls) c.env c.now c.loanId).2 := by
  induction calls generalizing db with
  | nil => rfl
  | cons d ds ih => simp [advanceRun, ih]

/-- One advance, seen from a loan held by exactly one row: the row stays the only one with
its id, its current stage stays in [1,8], and it is raised by 1 by a call answered 200 on
this id, unchanged by a call on another id or answered 404 or 400, and unchanged or raised
by 1 in every case. -/
theorem advanceStage_step (db : Store) (c : AdvanceCall) (X : String) (row : LoanRow)
    (hsel : selectLoan db X = [row]) (h1 : 1 ≤ row.current_stage)
    (h8 : row.current_stage ≤ 8) :
    ∃ row', selectLoan (advanceStage db c.env c.now c.loanId).2 X = [row'] ∧
      1 ≤ row'.current_stage ∧ row'.current_stage ≤ 8 ∧
      ((advanceStage db c.env c.now c.loanId).1.code = 200 → c.loanId = X →
        row'.current_stage = row.current_stage + 1) ∧
      (c.loanId ≠ X → row'.current_stage = row.current_stage) ∧
      ((advanceStage db c.env c.now c.loanId).1.code = 404 ∨
        (advanceStage db c.env c.now c.loanId).1.code = 400 →
        row'.current_stage = row.current_stage) ∧
      row.current_stage ≤ row'.current_stage ∧
      row'.current_stage ≤ row.current_stage + 1 := by
  by_cases hid : c.loanId = X
  · rw [hid]
    refine ⟨_, selectLoan_advanceStage_self db c.env c.now X row hsel, ?_⟩
    rcases advanceStage_cases db c.env X with h | ⟨hl, loan, rest, hsel', hlt⟩
    · have hcode := (advanceStage_rejects db c.env c.now X h).2
      have hnot : ¬ (c.env.lookupOk = true ∧ ¬ 8 ≤ row.current_stage ∧
          c.env.updateOk = true) := by
        rcases h with h | h | ⟨loan, rest, hsel', hge⟩
        · simp [h]
        · simp [h] at hsel
        · rw [hsel] at hsel'
          have : row = loan := by simpa using (List.cons.inj hsel').1
          simp [this, hge]
      rw [if_neg hnot]
      refine ⟨h1, h8, ?_, fun h => absurd rfl h, fun _ => rfl, le_refl _, by omega⟩
      intro h200
      rcases hcode with hc | hc <;> rw [hc] at h200 <;> exact absurd h200 (by decide)
    · rw [hsel] at hsel'
      have hrow : row = loan := by simpa using (List.cons.inj hsel').1
      subst hrow
      have hcode := (advanceStage_writes db c.env c.now X row rest hl (hsel ▸ hsel') hlt).2
      rw [hcode]
      cases hu : c.env.updateOk <;> cases hc : c.env.completeOk <;>
        cases hs : c.env.startOk <;> simp [hl, hlt] <;> omega
  · rw [selectLoan_advanceStage_ne db c.env c.now c.loanId X hid, hsel]
    exact ⟨row, rfl, h1, h8, fun _ h => absurd h hid, fun _ => rfl, fun _ => rfl,
      le_refl _, by omega⟩

/-- Along a sequence of advances a loan held by exactly one row keeps exactly one row,
with its current stage in [1,8]. -/
theorem advanceRun_invariant (X : String) :
    ∀ (calls : List AdvanceCall) (db : Store) (row : LoanRow),
      selectLoan db X = [row] → 1 ≤ row.current_stage → row.current_stage ≤ 8 →
      ∃ row', selectLoan (advanceRun db calls) X = [row'] ∧
        1 ≤ row'.current_stage ∧ row'.current_stage ≤ 8
  | [], _, row, hsel, h1, h8 => ⟨row, hsel, h1, h8⟩
  | c :: cs, db, row, hsel, h1, h8 => by
    obtain ⟨row', hsel', h1', h8', _⟩ := advanceStage_step db c X row hsel h1 h8
    exact advanceRun_invariant X cs _ row' hsel' h1' h8'

/-- The loan row of a creation answered 201 whose generated id was not in use: it is the
only row with that id, at stage 1 and pending. -/
theorem selectLoan_createLoan (lib : JoiLib) (db : Store) (env : CreateEnv) (now : Nat)
    (body : CreateBody) (h : (createLoan lib db env now body).1.code = 201)
    (hfresh : ∀ r ∈ db.loans, r.loan_id ≠ env.loanId) :
    ∃ row, selectLoan (createLoan lib db env now body).2 env.loanId = [row] ∧
      row.current_stage = 1 ∧ row.workflow_status = Status.pending := by
  obtain ⟨value, _, _, _, hloans, _⟩ := createLoan_created lib db env now body h
  refine ⟨newLoanRow now env.loanId value, ?_, rfl, rfl⟩
  have hnil : db.loans.filter (fun r => decide (r.loan_id = env.loanId)) = [] := by
    simpa [List.filter_eq_nil_iff] using hfresh
  simp [selectLoan, hloans, List.filter_append, hnil, newLoanRow]

/-- The current stage along advances: for a loan created by a request answered 201 under
an id not in use, and then any sequence of advances (on any ids, with any database
outcomes), the loan keeps one row and its current stage is in [1,8] before and after every
further advance; an advance of this loan answered 200 raises it by exactly 1; an advance
answered 404 or 400, or aimed at another id, leaves it unchanged; and every advance, also
one answered 500, leaves it unchanged or raises it by 1. -/
theorem current_stage_under_advances (lib : JoiLib) (db : Store) (env : CreateEnv)
    (now : Nat) (body : CreateBody)
    (hcreated : (createLoan lib db env now body).1.code = 201)
    (hfresh : ∀ r ∈ db.loans, r.loan_id ≠ env.loanId)
    (calls : List AdvanceCall) (c : AdvanceCall) :
    ∃ row row',
      selectLoan (advanceRun (createLoan lib db env now body).2 calls) env.loanId = [row] ∧
      1 ≤ row.current_stage ∧ row.current_stage ≤ 8 ∧
      selectLoan (advanceRun (createLoan lib db env now body).2 (calls ++ [c])) env.loanId
        = [row'] ∧
      1 ≤ row'.current_stage ∧ row'.current_stage ≤ 8 ∧
      ((advanceStage (advanceRun (createLoan lib db env now body).2 calls)
          c.env c.now c.loanId).1.code = 200 → c.loanId = env.loanId →
        row'.current_stage = row.current_stage + 1) ∧
      (c.loanId ≠ env.loanId → row'.current_stage = row.current_stage) ∧
      ((advanceStage (advanceRun (createLoan lib db env now body).2 calls)
          c.env c.now c.loanId).1.code = 404 ∨
        (advanceStage (advanceRun (createLoan lib db env now body).2 calls)
          c.env c.now c.loanId).1.code = 400 →
        row'.current_stage = row.current_stage) ∧
      row.current_stage ≤ row'.current_stage ∧
      row'.current_stage ≤ row.current_stage + 1 := by
  obtain ⟨row0, hsel0, hst0, _⟩ := selectLoan_createLoan lib db env now body hcreated hfresh
  obtain ⟨row, hsel, h1, h8⟩ := advanceRun_invariant env.loanId calls _ row0 hsel0
    (by omega) (by omega)
  obtain ⟨row', hsel', hrest⟩ := advanceStage_step _ c env.loanId row hsel h1 h8
  rw [← advanceRun_append] at hsel'
  exact ⟨row, row', hsel, h1, h8, hsel', hrest⟩

theorem current_stage_under_advances_witness :
    ∃ row row',
      selectLoan (advanceRun (createLoan demoLib Store.empty demoCreateEnv 0 demoBody).2 [])
        "CL-20240615-0001" = [row] ∧
      1 ≤ row.current_stage ∧ row.current_stage ≤ 8 ∧
      selectLoan (advanceRun (createLoan demoLib Store.empty demoCreateEnv 0 demoBody).2
        ([] ++ [{ loanId := "CL-20240615-0001", env := AdvanceEnv.allOk, now := 1 }]))
        "CL-20240615-0001" = [row'] ∧
      row.current_stage ≤ row'.current_stage :=
  have ⟨row, row', h⟩ := current_stage_under_advances demoLib Store.empty demoCreateEnv 0
    demoBody (by decide) (by decide) []
    { loanId := "CL-20240615-0001", env := AdvanceEnv.allOk, now := 1 }
  ⟨row, row', h.1, h.2.1, h.2.2.1, h.2.2.2.1, h.2.2.2.2.2.2.2.2.2.1⟩

/-! ### The stage update -/

/-- The validation of `stageId` passes exactly for the numbers 1, 2, ..., 8. -/
theorem stageId_valid_iff (v : JsValue) :
    (v.truthy && jsIncludes [1, 2, 3, 4, 5, 6, 7, 8] v) = true ↔
      ∃ n : Nat, 1 ≤ n ∧ n ≤ 8 ∧ v = JsValue.number (n : ℚ) := by
  constructor
  · intro h
    cases v with
    | number q =>
      simp only [JsValue.truthy, jsIncludes, Bool.and_eq_true, List.any_eq_true,
        decide_eq_true_eq] at h
      obtain ⟨_, n, hn, hq⟩ := h
      refine ⟨n, ?_, ?_, by rw [hq]⟩ <;> simp at hn <;> omega
    | _ => simp [JsValue.truthy, jsIncludes] at h
  · rintro ⟨n, h1, h8, rfl⟩
    have hn : n = 1 ∨ n = 2 ∨ n = 3 ∨ n = 4 ∨ n = 5 ∨ n = 6 ∨ n = 7 ∨ n = 8 := by omega
    rcases hn with rfl | rfl | rfl | rfl | rfl | rfl | rfl | rfl <;>
      simp [JsValue.truthy, jsIncludes]

theorem toStageId_number (n : Nat) : (JsValue.number (n : ℚ)).toStageId = n := by
  simp [JsValue.toStageId]

/-- The statement list of a stage update, when every statement runs. -/
theorem runStatements_updateQueries (oks : List Bool) (now : Nat) (id : String) (n : Nat)
    (status : Option Status) (progress : Option Int) (db db' : Store)
    (h : runStatements oks (updateQueries now id n status progress) db = some db') :
    db' = stageUpdateEffect now id n status progress db := by
  cases status with
  | none =>
    simp only [updateQueries, List.nil_append, runStatements] at h
    split at h
    · simpa [stageUpdateEffect] using h.symm
    · exact absurd h (by simp)
  | some st =>
    simp only [updateQueries, List.singleton_append, runStatements] at h
    split at h
    · split at h
      · simpa [stageUpdateEffect] using h.symm
      · exact absurd h (by simp)
    · exact absurd h (by simp)

/-- The stage update once validation has passed with stage id `n`. -/
theorem updateStage_valid (db : Store) (env : TxEnv) (now : Nat) (id : String)
    (body : StageUpdateBody) (n : Nat) (h1 : 1 ≤ n) (h8 : n ≤ 8)
    (hn : body.stageId = JsValue.number (n : ℚ)) :
    updateStage db env now id body =
      match executeTransaction env (updateQueries now id n body.status body.progress) db with
      | TxResult.thrown => (Response.fail 500 "Internal server error", db)
      | TxResult.failure => (Response.fail 500 "Failed to update workflow stage", db)
      | TxResult.success db' => (Response.okFor 200 id, db') := by
  have hv := (stageId_valid_iff body.stageId).mpr ⟨n, h1, h8, hn⟩
  have hcond : (!body.stageId.truthy || !jsIncludes [1, 2, 3, 4, 5, 6, 7, 8] body.stageId)
      = false := by
    simp only [Bool.and_eq_true] at hv
    simp [hv.1, hv.2]
  simp only [updateStage, hcond, Bool.false_eq_true, if_false]
  rw [hn, toStageId_number]

/-- The stage update when validation fails: 400 and no write. -/
theorem updateStage_invalid (db : Store) (env : TxEnv) (now : Nat) (id : String)
    (body : StageUpdateBody)
    (hn : ¬ ∃ n : Nat, 1 ≤ n ∧ n ≤ 8 ∧ body.stageId = JsValue.number (n : ℚ)) :
    updateStage db env now id body =
      (Response.fail 400 "유효하지 않은 단계 ID입니다.", db) := by
  have hv := mt (stageId_valid_iff body.stageId).mp hn
  have hcond : (!body.stageId.truthy || !jsIncludes [1, 2, 3, 4, 5, 6, 7, 8] body.stageId)
      = true := by
    cases h1 : body.stageId.truthy <;>
      cases h2 : jsIncludes [1, 2, 3, 4, 5, 6, 7, 8] body.stageId <;> simp_all
  simp only [updateStage, hcond, if_true]

/-- A stage update answered 200: the stage id is one of 1, ..., 8, and the store is the one
left by the loan statement after the stage statement (issued only when a status is given). -/
theorem updateStage_ok (db : Store) (env : TxEnv) (now : Nat) (id : String)
    (body : StageUpdateBody) (h : (updateStage db env now id body).1.code = 200) :
    ∃ n : Nat, 1 ≤ n ∧ n ≤ 8 ∧ body.stageId = JsValue.number (n : ℚ) ∧
      (updateStage db env now id body).2 =
        stageUpdateEffect now id n body.status body.progress db := by
  by_cases hv : ∃ n : Nat, 1 ≤ n ∧ n ≤ 8 ∧ body.stageId = JsValue.number (n : ℚ)
  · obtain ⟨n, h1, h8, hn⟩ := hv
    refine ⟨n, h1, h8, hn, ?_⟩
    rw [updateStage_valid db env now id body n h1 h8 hn] at h ⊢
    rcases executeTransaction_cases env
        (updateQueries now id n body.status body.progress) db with ⟨db', ht⟩ | ht | ht
    · have hrun := ((executeTransaction_success_iff _ _ _ _).mp ht).2.2.1
      rw [ht]
      exact runStatements_updateQueries _ _ _ _ _ _ _ _ hrun
    · rw [ht] at h
      exact absurd h (by simp [Response.fail])
    · rw [ht] at h
      exact absurd h (by simp [Response.fail])
  · rw [updateStage_invalid db env now id body hv] at h
    exact absurd h (by simp [Response.fail])

/-- A stage update not answered 200 leaves the store as it was. -/
theorem updateStage_not_ok (db : Store) (env : TxEnv) (now : Nat) (id : String)
    (body : StageUpdateBody) (h : (updateStage db env now id body).1.code ≠ 200) :
    (updateStage db env now id body).2 = db := by
  by_cases hv : ∃ n : Nat, 1 ≤ n ∧ n ≤ 8 ∧ body.stageId = JsValue.number (n : ℚ)
  · obtain ⟨n, h1, h8, hn⟩ := hv
    rw [updateStage_valid db env now id body n h1 h8 hn] at h ⊢
    rcases executeTransaction_cases env
        (updateQueries now id n body.status body.progress) db with ⟨db', ht⟩ | ht | ht
    · rw [ht] at h
      exact absurd rfl h
    · rw [ht]
    · rw [ht]
  · rw [updateStage_invalid db env now id body hv]

/-! ### Loan rows under the stage update and the upload -/

/-- Selecting the rows of id `X` after a statement that rewrites the rows of id `id` by
`g`, which keeps the id. -/
theorem selectLoan_mapIf (db db' : Store) (id X : String) (g : LoanRow → LoanRow)
    (hg : ∀ r, (g r).loan_id = r.loan_id)
    (h : db'.loans = db.loans.map (fun r => if r.loan_id = id then g r else r)) :
    selectLoan db' X = if id = X then (selectLoan db X).map g else selectLoan db X := by
  have hf : ∀ r : LoanRow, (if r.loan_id = id then g r else r).loan_id = r.loan_id := by
    intro r
    by_cases hr : r.loan_id = id <;> simp [hr, hg]
  rw [selectLoan_map db db' _ X hf h]
  by_cases hid : id = X
  · subst hid
    rw [if_pos rfl]
    apply List.map_congr_left
    intro r hr
    have := (List.mem_filter.mp hr).2
    simp only [decide_eq_true_eq] at this
    simp [this]
  · rw [if_neg hid]
    conv_rhs => rw [← List.map_id (selectLoan db X)]
    apply List.map_congr_left
    intro r hr
    have := (List.mem_filter.mp hr).2
    simp only [decide_eq_true_eq] at this
    have hne : ¬ r.loan_id = id := fun h => hid (h ▸ this)
    simp [hne]

/-- The loan rows of id `X` after the statements of a stage update on `id`. -/
theorem selectLoan_stageUpdateEffect (db : Store) (now : Nat) (id X : String) (n : Nat)
    (status : Option Status) (progress : Option Int) :
    selectLoan (stageUpdateEffect now id n status progress db) X =
      if id = X then
        (selectLoan db X).map (fun r =>
          { r with current_stage := n,
                   workflow_status :=
                     if n = 8 ∧ status = some Status.completed then Status.completed
                     else Status.processing,
                   updated_at := now })
      else selectLoan db X := by
  have hdb : ∀ db1 : Store, db1.loans = db.loans →
      selectLoan (updateLoanStageQuery now n status id db1) X =
        if id = X then
          (selectLoan db X).map (fun r =>
            { r with current_stage := n,
                     workflow_status :=
                       if n = 8 ∧ status = some Status.completed then Status.completed
                       else Status.processing,
                     updated_at := now })
        else selectLoan db X := by
    intro db1 h1
    exact selectLoan_mapIf db (updateLoanStageQuery now n status id db1) id X
      (fun r =>
        { r with current_stage := n,
                 workflow_status :=
                   if n = 8 ∧ status = some Status.completed then Status.completed
                   else Status.processing,
                 updated_at := now })
      (fun _ => rfl) (by simp [updateLoanStageQuery, h1])
  cases status with
  | none => exact hdb db rfl
  | some st => exact hdb _ rfl

/-- The upload loop writes document rows only. -/
theorem uploadLoop_tables (id dt : String) :
    ∀ (files : List (UploadedFile × FileOutcome)) (acc : List UploadEntry × Store),
      (files.foldl (fun acc f => uploadOne id dt f.1 f.2 acc) acc).2.loans = acc.2.loans ∧
      (files.foldl (fun acc f => uploadOne id dt f.1 f.2 acc) acc).2.stages = acc.2.stages ∧
      (files.foldl (fun acc f => uploadOne id dt f.1 f.2 acc) acc).2.actions = acc.2.actions
  | [], _ => ⟨rfl, rfl, rfl⟩
  | f :: fs, acc => by
    have ih := uploadLoop_tables id dt fs (uploadOne id dt f.1 f.2 acc)
    have h1 : (uploadOne id dt f.1 f.2 acc).2.loans = acc.2.loans ∧
        (uploadOne id dt f.1 f.2 acc).2.stages = acc.2.stages ∧
        (uploadOne id dt f.1 f.2 acc).2.actions = acc.2.actions := by
      unfold uploadOne
      split
      · exact ⟨rfl, rfl, rfl⟩
      · exact ⟨rfl, rfl, rfl⟩
      · split <;> exact ⟨rfl, rfl, rfl⟩
    simp only [List.foldl_cons]
    exact ⟨ih.1.trans h1.1, ih.2.1.trans h1.2.1, ih.2.2.trans h1.2.2⟩

/-- The tables after an upload: stage and audit rows are as before, and the loan rows are
as before or have the pending rows of the uploaded id moved to processing. -/
theorem uploadDocuments_tables (db : Store) (env : UploadEnv) (now : Nat) (id : String)
    (files : List (UploadedFile × FileOutcome)) (dt : Option String) :
    (uploadDocuments db env now id files dt).2.stages = db.stages ∧
    (uploadDocuments db env now id files dt).2.actions = db.actions ∧
    ((uploadDocuments db env now id files dt).2.loans = db.loans ∨
      (uploadDocuments db env now id files dt).2.loans = (flipPendingQuery now id db).loans) := by
  unfold uploadDocuments
  split
  · exact ⟨rfl, rfl, Or.inl rfl⟩
  · split
    · exact ⟨rfl, rfl, Or.inl rfl⟩
    · obtain ⟨hl, hs, ha⟩ := uploadLoop_tables id
        (match dt with
          | some t => if (t != "") = true then t else "other"
          | none => "other") files ([], db)
      cases env.flipOk
      · exact ⟨hs, ha, Or.inl hl⟩
      · refine ⟨hs, ha, Or.inr ?_⟩
        simp only [runWrite, if_true, flipPendingQuery]
        rw [hl]

/-- The loan row of id `X`, held by one row, after an upload: it keeps its current stage,
and its workflow status is as before or moved from pending to processing. -/
theorem selectLoan_uploadDocuments (db : Store) (env : UploadEnv) (now : Nat) (id : String)
    (files : List (UploadedFile × FileOutcome)) (dt : Option String) (X : String)
    (row : LoanRow) (hsel : selectLoan db X = [row]) :
    ∃ row', selectLoan (uploadDocuments db env now id files dt).2 X = [row'] ∧
      row'.current_stage = row.current_stage ∧
      (row'.workflow_status = row.workflow_status ∨
        (row.workflow_status = Status.pending ∧
          row'.workflow_status = Status.processing)) := by
  rcases (uploadDocuments_tables db env now id files dt).2.2 with h | h
  · exact ⟨row, by rw [selectLoan_of_loans_eq _ _ _ h, hsel], rfl, Or.inl rfl⟩
  · have hflip := selectLoan_mapIf db (uploadDocuments db env now id files dt).2 id X
      (fun r => if r.workflow_status = Status.pending then
        { r with workflow_status := Status.processing, updated_at := now } else r)
      (fun r => by by_cases hp : r.workflow_status = Status.pending <;> simp [hp])
      (by
        rw [h]
        simp only [flipPendingQuery]
        apply List.map_congr_left
        intro r _
        by_cases h1 : r.loan_id = id <;> by_cases h2 : r.workflow_status = Status.pending <;>
          simp [h1, h2])
    rw [hflip, hsel]
    by_cases hid : id = X
    · by_cases hp : row.workflow_status = Status.pending
      · exact ⟨{ row with workflow_status := Status.processing, updated_at := now },
          by simp [hid, hp], rfl, Or.inr ⟨hp, rfl⟩⟩
      · exact ⟨row, by simp [hid, hp], rfl, Or.inl rfl⟩
    · exact ⟨row, by simp [hid], rfl, Or.inl rfl⟩

/-- C5, as stated, fails: the loan created by the sample request is advanced to stage 2,
and a stage update with stageId 1, answered 200, then puts its current stage back to 1. -/
theorem updateStage_lowers_current_stage :
    (selectLoan (advanceStage demoCreated AdvanceEnv.allOk 1 "CL-20240615-0001").2
      "CL-20240615-0001").map (fun r => r.current_stage) = [2] ∧
    (updateStage (advanceStage demoCreated AdvanceEnv.allOk 1 "CL-20240615-0001").2
      TxEnv.allOk 2 "CL-20240615-0001"
      { stageId := JsValue.number 1, status := some Status.processing,
        progress := some 0 }).1.code = 200 ∧
    (selectLoan (updateStage (advanceStage demoCreated AdvanceEnv.allOk 1
        "CL-20240615-0001").2 TxEnv.allOk 2 "CL-20240615-0001"
      { stageId := JsValue.number 1, status := some Status.processing,
        progress := some 0 }).2 "CL-20240615-0001").map (fun r => r.current_stage) = [1] := by
  decide

/-- C5 (amended): for a loan held by one row, the current stage is never smaller after an
advance (of any loan, with any database outcome) and is the same after a document upload;
a stage update answered 200 on this loan sets it to the stageId of the request, whatever
it was, and any other stage update leaves it unchanged. -/
theorem current_stage_per_operation (db : Store) (X : String) (row : LoanRow)
    (hsel : selectLoan db X = [row]) :
    (∀ c : AdvanceCall, ∃ row',
      selectLoan (advanceStage db c.env c.now c.loanId).2 X = [row'] ∧
      row.current_stage ≤ row'.current_stage) ∧
    (∀ (env : UploadEnv) (now : Nat) (id : String)
        (files : List (UploadedFile × FileOutcome)) (dt : Option String), ∃ row',
      selectLoan (uploadDocuments db env now id files dt).2 X = [row'] ∧
      row'.current_stage = row.current_stage) ∧
    (∀ (env : TxEnv) (now : Nat) (id : String) (body : StageUpdateBody), ∃ row',
      selectLoan (updateStage db env now id body).2 X = [row'] ∧
      ((updateStage db env now id body).1.code = 200 → id = X →
        body.stageId = JsValue.number (row'.current_stage : ℚ)) ∧
      ((updateStage db env now id body).1.code ≠ 200 ∨ id ≠ X →
        row'.current_stage = row.current_stage)) := by
  refine ⟨?_, ?_, ?_⟩
  · intro c
    by_cases hid : c.loanId = X
    · rw [hid, selectLoan_advanceStage_self db c.env c.now X row hsel]
      refine ⟨_, rfl, ?_⟩
      split
      · exact Nat.le_succ _
      · exact le_refl _
    · rw [selectLoan_advanceStage_ne db c.env c.now c.loanId X hid]
      exact ⟨row, hsel, le_refl _⟩
  · intro env now id files dt
    obtain ⟨row', h, hcs, _⟩ := selectLoan_uploadDocuments db env now id files dt X row hsel
    exact ⟨row', h, hcs⟩
  · intro env now id body
    by_cases hok : (updateStage db env now id body).1.code = 200
    · obtain ⟨n, _, _, hn, hstore⟩ := updateStage_ok db env now id body hok
      rw [hstore, selectLoan_stageUpdateEffect, hsel]
      by_cases hid : id = X
      · refine ⟨_, by rw [if_pos hid]; rfl, fun _ _ => hn, ?_⟩
        rintro (h | h)
        · exact absurd hok h
        · exact absurd hid h
      · exact ⟨row, by rw [if_neg hid], fun _ h => absurd h hid, fun _ => rfl⟩
    · rw [updateStage_not_ok db env now id body hok]
      exact ⟨row, hsel, fun h => absurd h hok, fun _ => rfl⟩

theorem current_stage_per_operation_witness :
    ∃ row', selectLoan (advanceStage demoStore AdvanceEnv.allOk 50 "CL-1").2 "CL-1" = [row'] ∧
      (demoLoan "CL-1" 3 Status.processing).current_stage ≤ row'.current_stage :=
  (current_stage_per_operation demoStore "CL-1" (demoLoan "CL-1" 3 Status.processing)
    (by decide)).1 { loanId := "CL-1", env := AdvanceEnv.allOk, now := 50 }

/-- C8: the stage update answers 400 exactly when stageId is not one of the numbers
1, 2, ..., 8; it then writes nothing; every stageId among 1, ..., 8 passes validation; and
an absent or null stageId, 0, 9, a fraction, the string "3", a boolean and an object are
all answered 400. -/
theorem updateStage_validation (db : Store) (env : TxEnv) (now : Nat) (id : String)
    (body : StageUpdateBody) :
    ((updateStage db env now id body).1.code = 400 ↔
      ¬ ∃ n : Nat, 1 ≤ n ∧ n ≤ 8 ∧ body.stageId = JsValue.number (n : ℚ)) ∧
    ((updateStage db env now id body).1.code = 400 →
      (updateStage db env now id body).2 = db ∧
      (updateStage db env now id body).1.success = false) ∧
    (∀ n : Nat, 1 ≤ n → n ≤ 8 → body.stageId = JsValue.number (n : ℚ) →
      (updateStage db env now id body).1.code = 200 ∨
      (updateStage db env now id body).1.code = 500) ∧
    (∀ v ∈ [JsValue.undefined, JsValue.null, JsValue.number 0, JsValue.number 9,
        JsValue.number (5 / 2), JsValue.number (-1), JsValue.string "3", JsValue.bool true,
        JsValue.object],
      (updateStage db env now id
        { stageId := v, status := body.status, progress := body.progress }).1.code = 400) := by
  have hvalid : ∀ b : StageUpdateBody,
      (∃ n : Nat, 1 ≤ n ∧ n ≤ 8 ∧ b.stageId = JsValue.number (n : ℚ)) →
      (updateStage db env now id b).1.code = 200 ∨
      (updateStage db env now id b).1.code = 500 := by
    rintro b ⟨n, h1, h8, hn⟩
    rw [updateStage_valid db env now id b n h1 h8 hn]
    rcases executeTransaction_cases env
        (updateQueries now id n b.status b.progress) db with ⟨db', ht⟩ | ht | ht <;>
      rw [ht] <;> simp [Response.fail, Response.okFor]
  have hinvalid : ∀ b : StageUpdateBody,
      (¬ ∃ n : Nat, 1 ≤ n ∧ n ≤ 8 ∧ b.stageId = JsValue.number (n : ℚ)) →
      (updateStage db env now id b).1.code = 400 ∧ (updateStage db env now id b).2 = db ∧
      (updateStage db env now id b).1.success = false := by
    intro b hb
    rw [updateStage_invalid db env now id b hb]
    exact ⟨rfl, rfl, rfl⟩
  refine ⟨⟨?_, fun h => (hinvalid body h).1⟩, ?_, ?_, ?_⟩
  · intro h400 hex
    rcases hvalid body hex with h | h <;> rw [h] at h400 <;> exact absurd h400 (by decide)
  · intro h400
    by_cases hex : ∃ n : Nat, 1 ≤ n ∧ n ≤ 8 ∧ body.stageId = JsValue.number (n : ℚ)
    · rcases hvalid body hex with h | h <;> rw [h] at h400 <;> exact absurd h400 (by decide)
    · exact (hinvalid body hex).2
  · intro n h1 h8 hn
    exact hvalid body ⟨n, h1, h8, hn⟩
  · intro v hv
    apply (hinvalid _ _).1
    apply mt (stageId_valid_iff v).mpr
    simp only [List.mem_cons, List.mem_singleton, List.not_mem_nil, or_false] at hv
    rcases hv with rfl | rfl | rfl | rfl | rfl | rfl | rfl | rfl | rfl <;>
      simp [JsValue.truthy, jsIncludes] <;> norm_num

theorem updateStage_validation_witness :
    (updateStage demoStore TxEnv.allOk 60 "CL-1"
      { stageId := JsValue.string "3", status := some Status.completed,
        progress := some 100 }).1.code = 400 ∧
    (updateStage demoStore TxEnv.allOk 60 "CL-1"
      { stageId := JsValue.string "3", status := some Status.completed,
        progress := some 100 }).2 = demoStore :=
  have h := updateStage_validation demoStore TxEnv.allOk 60 "CL-1"
    { stageId := JsValue.string "3", status := some Status.completed, progress := some 100 }
  ⟨by decide, (h.2.1 (by decide)).1⟩

/-- C9: a stage update answered 200 has a stageId n among 1, ..., 8 and, row by row in
table order: every loan row with the id gets current_stage n, whatever it was, and
workflow_status completed exactly when n = 8 and the status given is completed,
processing otherwise; the other loan rows are unchanged; when a status is given the stage
rows of that loan with stage id n get that status (and the progress given, if any) and
every other stage row is unchanged; when no status is given no stage row changes;
documents and audit rows are unchanged. -/
theorem updateStage_effect (db : Store) (env : TxEnv) (now : Nat) (id : String)
    (body : StageUpdateBody) (hok : (updateStage db env now id body).1.code = 200) :
    ∃ n : Nat, 1 ≤ n ∧ n ≤ 8 ∧ body.stageId = JsValue.number (n : ℚ) ∧
      List.Forall₂ (fun r r' : LoanRow =>
          r'.loan_id = r.loan_id ∧
          (r.loan_id = id →
            r'.current_stage = n ∧
            (r'.workflow_status = Status.completed ↔
              n = 8 ∧ body.status = some Status.completed) ∧
            (¬ (n = 8 ∧ body.status = some Status.completed) →
              r'.workflow_status = Status.processing)) ∧
          (r.loan_id ≠ id → r' = r))
        db.loans (updateStage db env now id body).2.loans ∧
      List.Forall₂ (fun r r' : StageRow =>
          r'.loan_id = r.loan_id ∧ r'.stage_id = r.stage_id ∧
          (¬ (r.loan_id = id ∧ r.stage_id = n) → r' = r) ∧
          (body.status = none → r' = r) ∧
          (∀ st, body.status = some st → r.loan_id = id ∧ r.stage_id = n →
            r'.status = st ∧ r'.progress = body.progress.getD r.progress))
        db.stages (updateStage db env now id body).2.stages ∧
      (updateStage db env now id body).2.documents = db.documents ∧
      (updateStage db env now id body).2.actions = db.actions := by
  obtain ⟨n, h1, h8, hn, hstore⟩ := updateStage_ok db env now id body hok
  refine ⟨n, h1, h8, hn, ?_⟩
  rw [hstore]
  cases hst : body.status with
  | none =>
    refine ⟨?_, ?_, rfl, rfl⟩
    · simp only [stageUpdateEffect, updateLoanStageQuery]
      rw [List.forall₂_map_right_iff, List.forall₂_same]
      intro r _
      by_cases hid : r.loan_id = id <;> simp [hid]
    · simp only [stageUpdateEffect, updateLoanStageQuery]
      rw [List.forall₂_same]
      intro r _
      simp
  | some st =>
    refine ⟨?_, ?_, rfl, rfl⟩
    · simp only [stageUpdateEffect, updateLoanStageQuery, updateStageRowQuery]
      rw [List.forall₂_map_right_iff, List.forall₂_same]
      intro r _
      by_cases hid : r.loan_id = id
      · by_cases hc : n = 8 ∧ st = Status.completed
        · simp [hid, hc]
        · simp only [hid, if_true, true_and, Option.some.injEq, if_neg hc, ne_eq,
            not_true_eq_false, false_implies, and_true, forall_const]
          exact ⟨⟨fun h => absurd h (by decide), fun h => absurd h hc⟩, fun _ => trivial⟩
      · simp [hid]
    · simp only [stageUpdateEffect, updateLoanStageQuery, updateStageRowQuery]
      rw [List.forall₂_map_right_iff, List.forall₂_same]
      intro r _
      by_cases hk : r.loan_id = id ∧ r.stage_id = n
      · simp [hk]
      · simp [hk]

theorem updateStage_effect_witness :
    (updateStage demoStoreFinal TxEnv.allOk 60 "CL-8"
      { stageId := JsValue.number 8, status := some Status.completed,
        progress := some 100 }).1.code = 200 ∧
    ∃ n : Nat, 1 ≤ n ∧ n ≤ 8 ∧ JsValue.number 8 = JsValue.number (n : ℚ) :=
  have h := updateStage_effect demoStoreFinal TxEnv.allOk 60 "CL-8"
    { stageId := JsValue.number 8, status := some Status.completed, progress := some 100 }
    (by decide)
  ⟨by decide, h.elim fun n hn => ⟨n, hn.1, hn.2.1, hn.2.2.1⟩⟩

/-- Statements whose outcomes are all `true` run to the end. -/
theorem runStatements_all_ok :
    ∀ (qs : List (Store → Store)) (oks : List Bool) (db : Store),
      (∀ ok ∈ oks.take qs.length, ok = true) →
      runStatements oks qs db = some (qs.foldl (fun d q => q d) db)
  | [], _, _, _ => rfl
  | q :: qs, [], db, _ => by
    simp only [runStatements, List.headD_nil, if_true, List.tail_nil, List.foldl_cons]
    exact runStatements_all_ok qs [] (q db) (by simp)
  | q :: qs, ok :: oks, db, h => by
    have hok : ok = true := h ok (by simp)
    simp only [runStatements, List.headD_cons, hok, if_true, List.tail_cons, List.foldl_cons]
    exact runStatements_all_ok qs oks (q db) (fun o ho => h o (by simp [ho]))

/-- C10, as stated, fails: the sample request passes validation and the stage transaction
would run, but the loan insert errors; the answer is 500 and no row is stored. -/
theorem createLoan_insert_failure :
    (loanApplicationSchema demoLib demoBody).toBool = true ∧
    (createLoan demoLib Store.empty
      { loanId := "CL-20240615-0001", insertOk := false, stagesTx := TxEnv.allOk,
        logOk := true } 0 demoBody).1.code = 500 ∧
    (createLoan demoLib Store.empty
      { loanId := "CL-20240615-0001", insertOk := false, stagesTx := TxEnv.allOk,
        logOk := true } 0 demoBody).2 = Store.empty := by
  decide

/-- C10 (amended): when the body passes validation, the loan insert runs, the stage
transaction runs to its commit, and no stored loan or stage row carries the generated id,
the creation answers 201 with the generated id; the loan table gains exactly one row, the
only one with that id, at current_stage 1 and workflow_status pending; the stage table
gains exactly the rows of that loan, whose stage ids are 1, 2, ..., 8 in this order, all of
them pending with progress 0. -/
theorem createLoan_postcondition (lib : JoiLib) (db : Store) (env : CreateEnv) (now : Nat)
    (body : CreateBody) (value : LoanFields)
    (hvalid : loanApplicationSchema lib body = Except.ok value)
    (hinsert : env.insertOk = true)
    (hconnect : env.stagesTx.connectOk = true) (hbegin : env.stagesTx.beginOk = true)
    (hstmts : ∀ ok ∈ env.stagesTx.stmtOk.take 8, ok = true)
    (hcommit : env.stagesTx.commitOk = true)
    (hfreshLoans : ∀ r ∈ db.loans, r.loan_id ≠ env.loanId)
    (hfreshStages : ∀ r ∈ db.stages, r.loan_id ≠ env.loanId) :
    (createLoan lib db env now body).1.code = 201 ∧
    (createLoan lib db env now body).1.success = true ∧
    (createLoan lib db env now body).1.loanId = some env.loanId ∧
    (∃ row, (createLoan lib db env now body).2.loans = db.loans ++ [row] ∧
      selectLoan (createLoan lib db env now body).2 env.loanId = [row] ∧
      row.current_stage = 1 ∧ row.workflow_status = Status.pending) ∧
    (∃ rows, (createLoan lib db env now body).2.stages = db.stages ++ rows ∧
      (createLoan lib db env now body).2.stages.filter (fun r => r.loan_id = env.loanId)
        = rows ∧
      rows.map (fun r => r.stage_id) = [1, 2, 3, 4, 5, 6, 7, 8] ∧
      ∀ r ∈ rows, r.status = Status.pending ∧ r.progress = 0) := by
  have hrun := runStatements_all_ok (stageTable.map (insertStageQuery now env.loanId))
    env.stagesTx.stmtOk (insertLoanQuery now env.loanId value db)
    (by simpa [stageTable] using hstmts)
  have htx : initializeWorkflowStages env.stagesTx now env.loanId
      (insertLoanQuery now env.loanId value db) =
      TxResult.success ((stageTable.map (insertStageQuery now env.loanId)).foldl
        (fun d q => q d) (insertLoanQuery now env.loanId value db)) :=
    (executeTransaction_success_iff _ _ _ _).mpr ⟨hconnect, hbegin, hrun, hcommit⟩
  have h201 : (createLoan lib db env now body).1.code = 201 := by
    simp only [createLoan, hvalid, hinsert, htx]
    rfl
  obtain ⟨value', hv', _, hresp, hloans, hstages, _⟩ :=
    createLoan_created lib db env now body h201
  have hval : value' = value := by
    rw [hvalid] at hv'
    exact (Except.ok.inj hv').symm
  subst hval
  refine ⟨h201, by rw [hresp]; rfl, by rw [hresp]; rfl, ?_, ?_⟩
  · obtain ⟨row, hsel, hcs, hws⟩ :=
      selectLoan_createLoan lib db env now body h201 hfreshLoans
    refine ⟨newLoanRow now env.loanId value', hloans, ?_, rfl, rfl⟩
    have hnil : db.loans.filter (fun r => decide (r.loan_id = env.loanId)) = [] := by
      simpa [List.filter_eq_nil_iff] using hfreshLoans
    simp [selectLoan, hloans, List.filter_append, hnil, newLoanRow]
  · rcases hstages with ⟨hno, _⟩ | ⟨_, hst⟩
    · exact absurd htx (hno _)
    · refine ⟨stageTable.map (newStageRow now env.loanId), hst, ?_, ?_, ?_⟩
      · have hnil : db.stages.filter (fun r => decide (r.loan_id = env.loanId)) = [] := by
          simpa [List.filter_eq_nil_iff] using hfreshStages
        rw [hst, List.filter_append, hnil, List.nil_append]
        simp [stageTable, newStageRow]
      · simp [stageTable, newStageRow]
      · intro r hr
        simp only [List.mem_map] at hr
        obtain ⟨st, _, rfl⟩ := hr
        exact ⟨rfl, rfl⟩

theorem createLoan_postcondition_witness :
    (createLoan demoLib Store.empty demoCreateEnv 0 demoBody).1.code = 201 ∧
    (createLoan demoLib Store.empty demoCreateEnv 0 demoBody).1.loanId =
      some "CL-20240615-0001" :=
  have h := createLoan_postcondition demoLib Store.empty demoCreateEnv 0 demoBody
    demoValue rfl rfl rfl rfl (by decide) rfl (by decide) (by decide)
  ⟨h.1, h.2.2.1⟩

/-! ### Rows before and after a request -/

theorem forall₂_mem_right {α β : Type} {R : α → β → Prop} :
    ∀ {l : List α} {l' : List β}, List.Forall₂ R l l' → ∀ b ∈ l', ∃ a ∈ l, R a b
  | _, _, List.Forall₂.nil, b, hb => absurd hb (List.not_mem_nil b)
  | _, _, List.Forall₂.cons (a := a) hab htl, b, hb => by
    rcases List.mem_cons.mp hb with rfl | hb'
    · exact ⟨a, List.mem_cons_self _ _, hab⟩
    · obtain ⟨a', ha', hr⟩ := forall₂_mem_right htl b hb'
      exact ⟨a', List.mem_cons_of_mem _ ha', hr⟩

theorem forall₂_map_eq {α β γ : Type} {R : α → β → Prop} (f : α → γ) (g : β → γ)
    (hfg : ∀ a b, R a b → f a = g b) :
    ∀ {l : List α} {l' : List β}, List.Forall₂ R l l' → l.map f = l'.map g
  | _, _, List.Forall₂.nil => rfl
  | _, _, List.Forall₂.cons hab htl => by
    simp only [List.map_cons, hfg _ _ hab, forall₂_map_eq f g hfg htl]

theorem forall₂_filter_map_eq {α β γ : Type} {R : α → β → Prop} (p : α → Bool)
    (q : β → Bool) (f : α → γ) (g : β → γ) (hpq : ∀ a b, R a b → p a = q b)
    (hfg : ∀ a b, R a b → f a = g b) :
    ∀ {l : List α} {l' : List β}, List.Forall₂ R l l' →
      (l.filter p).map f = (l'.filter q).map g
  | _, _, List.Forall₂.nil => rfl
  | _, _, List.Forall₂.cons (a := a) (b := b) hab htl => by
    have ih := forall₂_filter_map_eq p q f g hpq hfg htl
    have h1 := hpq _ _ hab
    cases hq : q b
    · rw [List.filter_cons_of_neg (by simp [h1, hq]), List.filter_cons_of_neg (by simp [hq])]
      exact ih
    · rw [List.filter_cons_of_pos (by simp [h1, hq]), List.filter_cons_of_pos (by simp [hq])]
      simp only [List.map_cons, hfg _ _ hab, ih]

/-- An advance leaves the store as it was, or it found a loan below stage 8 and then, row
by row: a loan row is unchanged or is a row of the id now at the next stage and
processing; a stage row is unchanged, or is the row of the current stage of that loan, now
completed, or the row of its next stage, now processing. -/
theorem advanceStage_rows (db : Store) (env : AdvanceEnv) (now : Nat) (id : String) :
    (advanceStage db env now id).2 = db ∨
    ∃ loan rest, selectLoan db id = loan :: rest ∧ loan.current_stage < 8 ∧
      List.Forall₂ (fun l l' : LoanRow =>
          l'.loan_id = l.loan_id ∧
          (l' = l ∨ (l.loan_id = id ∧ l'.current_stage = loan.current_stage + 1 ∧
            l'.workflow_status = Status.processing)))
        db.loans (advanceStage db env now id).2.loans ∧
      List.Forall₂ (fun s s' : StageRow =>
          s'.loan_id = s.loan_id ∧ s'.stage_id = s.stage_id ∧
          (s' = s ∨
            (s.loan_id = id ∧ s.stage_id = loan.current_stage ∧
              s'.status = Status.completed) ∨
            (s.loan_id = id ∧ s.stage_id = loan.current_stage + 1 ∧
              s'.status = Status.processing)))
        db.stages (advanceStage db env now id).2.stages := by
  rcases advanceStage_cases db env id with h | ⟨hl, loan, rest, hsel, h8⟩
  · exact Or.inl (advanceStage_rejects db env now id h).1
  · refine Or.inr ⟨loan, rest, hsel, by omega, ?_⟩
    rw [(advanceStage_writes db env now id loan rest hl hsel h8).1]
    constructor
    · cases env.completeOk <;> cases env.updateOk <;> cases env.startOk <;>
        simp only [runWrite, if_true, if_false, Bool.false_eq_true, startNextStageQuery,
          updateLoanQuery, completeCurrentStageQuery] <;>
        first
        | (rw [List.forall₂_map_right_iff, List.forall₂_same]
           intro l _
           by_cases hid : l.loan_id = id <;> simp [hid])
        | (rw [List.forall₂_same]
           intro l _
           simp)
    · have hne : ¬ loan.current_stage = loan.current_stage + 1 := by omega
      cases env.completeOk <;> cases env.updateOk <;> cases env.startOk <;>
        simp only [runWrite, if_true, if_false, Bool.false_eq_true, startNextStageQuery,
          updateLoanQuery, completeCurrentStageQuery, List.map_map] <;>
        first
        | (rw [List.forall₂_map_right_iff, List.forall₂_same]
           intro s _
           by_cases hid : s.loan_id = id <;>
             by_cases hk : s.stage_id = loan.current_stage <;>
             by_cases hk' : s.stage_id = loan.current_stage + 1 <;>
             simp [hid, hk, hk', hne])
        | (rw [List.forall₂_same]
           intro s _
           simp)

/-- A stage update leaves the store as it was, or it was answered 200 with a stage id n
among 1, ..., 8 and then, row by row: the loan rows of the id are now at stage n with the
recomputed workflow status and the others are unchanged; a stage row is unchanged or is the row of
stage n of that loan, now with the status given. -/
theorem updateStage_rows (db : Store) (env : TxEnv) (now : Nat) (id : String)
    (body : StageUpdateBody) :
    (updateStage db env now id body).2 = db ∨
    ∃ n : Nat, 1 ≤ n ∧ n ≤ 8 ∧
      List.Forall₂ (fun l l' : LoanRow =>
          l'.loan_id = l.loan_id ∧
          (l.loan_id ≠ id → l' = l) ∧
          (l.loan_id = id → l'.current_stage = n ∧
            l'.workflow_status =
              if n = 8 ∧ body.status = some Status.completed then Status.completed
              else Status.processing))
        db.loans (updateStage db env now id body).2.loans ∧
      List.Forall₂ (fun s s' : StageRow =>
          s'.loan_id = s.loan_id ∧ s'.stage_id = s.stage_id ∧
          (s' = s ∨ (s.loan_id = id ∧ s.stage_id = n ∧
            ∃ st, body.status = some st ∧ s'.status = st)))
        db.stages (updateStage db env now id body).2.stages ∧
      (∀ st, body.status = some st →
        ∀ s' ∈ (updateStage db env now id body).2.stages,
          s'.loan_id = id → s'.stage_id = n → s'.status = st) := by
  by_cases hok : (updateStage db env now id body).1.code = 200
  · obtain ⟨n, h1, h8, _, hstore⟩ := updateStage_ok db env now id body hok
    refine Or.inr ⟨n, h1, h8, ?_⟩
    rw [hstore]
    cases hst : body.status with
    | none =>
      refine ⟨?_, ?_, fun st h => absurd h (by simp)⟩
      · simp only [stageUpdateEffect, updateLoanStageQuery]
        rw [List.forall₂_map_right_iff, List.forall₂_same]
        intro l _
        by_cases hid : l.loan_id = id <;> simp [hid]
      · simp only [stageUpdateEffect, updateLoanStageQuery]
        rw [List.forall₂_same]
        intro s _
        simp
    | some st =>
      refine ⟨?_, ?_, ?_⟩
      · simp only [stageUpdateEffect, updateLoanStageQuery, updateStageRowQuery]
        rw [List.forall₂_map_right_iff, List.forall₂_same]
        intro l _
        by_cases hid : l.loan_id = id <;> simp [hid]
      · simp only [stageUpdateEffect, updateLoanStageQuery, updateStageRowQuery]
        rw [List.forall₂_map_right_iff, List.forall₂_same]
        intro s _
        by_cases hk : s.loan_id = id ∧ s.stage_id = n
        · simp [hk]
        · simp [hk]
      · intro st' hst' s' hs' hid hn
        simp only [Option.some.injEq] at hst'
        subst hst'
        simp only [stageUpdateEffect, updateLoanStageQuery, updateStageRowQuery,
          List.mem_map] at hs'
        obtain ⟨s, _, rfl⟩ := hs'
        by_cases hk : s.loan_id = id ∧ s.stage_id = n
        · simp [hk]
        · rw [if_neg hk] at hid hn
          exact absurd ⟨hid, hn⟩ hk
  · exact Or.inl (updateStage_not_ok db env now id body hok)

/-- An upload leaves the stage rows as they were, and a loan row is unchanged or went from
pending to processing, at the same stage. -/
theorem uploadDocuments_rows (db : Store) (env : UploadEnv) (now : Nat) (id : String)
    (files : List (UploadedFile × FileOutcome)) (dt : Option String) :
    (uploadDocuments db env now id files dt).2.stages = db.stages ∧
    List.Forall₂ (fun l l' : LoanRow =>
        l'.loan_id = l.loan_id ∧ l'.current_stage = l.current_stage ∧
        (l' = l ∨ (l.workflow_status = Status.pending ∧
          l'.workflow_status = Status.processing)))
      db.loans (uploadDocuments db env now id files dt).2.loans := by
  obtain ⟨hs, _, hl⟩ := uploadDocuments_tables db env now id files dt
  refine ⟨hs, ?_⟩
  rcases hl with hl | hl
  · rw [hl, List.forall₂_same]
    intro l _
    simp
  · rw [hl]
    simp only [flipPendingQuery]
    rw [List.forall₂_map_right_iff, List.forall₂_same]
    intro l _
    by_cases hk : l.loan_id = id ∧ l.workflow_status = Status.pending
    · simp [hk]
    · simp [hk]

/-- A creation leaves the store as it was, or it appended one loan row, pending at stage
1 under the generated id, and either no stage row or the eight stage rows of that id. -/
theorem createLoan_store (lib : JoiLib) (db : Store) (env : CreateEnv) (now : Nat)
    (body : CreateBody) :
    (createLoan lib db env now body).2 = db ∨
    ∃ value,
      (createLoan lib db env now body).2.loans = db.loans ++ [newLoanRow now env.loanId value] ∧
      ((createLoan lib db env now body).2.stages = db.stages ∨
        (createLoan lib db env now body).2.stages =
          db.stages ++ stageTable.map (newStageRow now env.loanId)) := by
  cases hv : loanApplicationSchema lib body with
  | error msg => exact Or.inl (by simp [createLoan, hv])
  | ok value =>
    cases hi : env.insertOk with
    | false => exact Or.inl (by simp [createLoan, hv, hi])
    | true =>
      refine Or.inr ⟨value, ?_⟩
      cases ht : initializeWorkflowStages env.stagesTx now env.loanId
          (insertLoanQuery now env.loanId value db) with
      | thrown =>
        simp only [createLoan, hv, hi, ht]
        simp [insertLoanQuery]
      | failure =>
        simp only [createLoan, hv, hi, ht]
        cases env.logOk <;> simp [runWrite, insertLoanQuery, logCreateQuery]
      | success db' =>
        have := initializeWorkflowStages_success _ _ _ _ _ ht
        subst this
        simp only [createLoan, hv, hi, ht]
        cases env.logOk <;> simp [runWrite, insertLoanQuery, logCreateQuery]

/-! ### The invariant of reachable stores -/

theorem loan_unique (db : Store) (hnd : (db.loans.map (fun r => r.loan_id)).Nodup)
    (l₁ l₂ : LoanRow) (h₁ : l₁ ∈ db.loans) (h₂ : l₂ ∈ db.loans)
    (h : l₁.loan_id = l₂.loan_id) : l₁ = l₂ :=
  List.inj_on_of_nodup_map hnd h₁ h₂ h

theorem selectLoan_head_mem (db : Store) (id : String) (loan : LoanRow)
    (rest : List LoanRow) (hsel : selectLoan db id = loan :: rest) :
    loan ∈ db.loans ∧ loan.loan_id = id := by
  have hmem : loan ∈ selectLoan db id := by rw [hsel]; exact List.mem_cons_self _ _
  simpa [selectLoan] using hmem

/-- Requests that keep the key of every row keep the first three parts of the invariant. -/
theorem storeInv_keys (db db' : Store) (hinv : StoreInv db)
    (hL : List.Forall₂ (fun l l' : LoanRow => l'.loan_id = l.loan_id) db.loans db'.loans)
    (hS : List.Forall₂ (fun s s' : StageRow =>
      s'.loan_id = s.loan_id ∧ s'.stage_id = s.stage_id) db.stages db'.stages) :
    (db'.loans.map (fun r => r.loan_id)).Nodup ∧
    (∀ s ∈ db'.stages, ∃ l ∈ db'.loans, l.loan_id = s.loan_id) ∧
    (∀ X : String, stageIdsOf db' X = [] ∨ stageIdsOf db' X = [1, 2, 3, 4, 5, 6, 7, 8]) := by
  obtain ⟨hnd, hb, hc, _⟩ := hinv
  have hids : db.loans.map (fun r => r.loan_id) = db'.loans.map (fun r => r.loan_id) :=
    forall₂_map_eq _ _ (fun _ _ h => h.symm) hL
  refine ⟨hids ▸ hnd, ?_, ?_⟩
  · intro s' hs'
    obtain ⟨s, hs, hk, _⟩ := forall₂_mem_right hS s' hs'
    obtain ⟨l, hl, hls⟩ := hb s hs
    have : l.loan_id ∈ db'.loans.map (fun r => r.loan_id) := by
      rw [← hids]
      exact List.mem_map_of_mem _ hl
    obtain ⟨l', hl', hll'⟩ := List.mem_map.mp this
    exact ⟨l', hl', by rw [hll', hls, hk]⟩
  · intro X
    have : stageIdsOf db X = stageIdsOf db' X := by
      unfold stageIdsOf
      apply forall₂_filter_map_eq _ _ _ _ _ _ hS
      · intro a b h
        simp [h.1]
      · intro a b h
        exact h.2.symm
    rw [← this]
    exact hc X

theorem storeInv_advanceStage (db : Store) (env : AdvanceEnv) (now : Nat) (id : String)
    (hinv : StoreInv db) : StoreInv (advanceStage db env now id).2 := by
  rcases advanceStage_rows db env now id with h | ⟨loan, rest, hsel, h8, hL, hS⟩
  · rw [h]; exact hinv
  · obtain ⟨ha, hb, hc⟩ := storeInv_keys db _ hinv
      (hL.imp (fun _ _ h => h.1)) (hS.imp (fun _ _ h => ⟨h.1, h.2.1⟩))
    refine ⟨ha, hb, hc, ?_⟩
    obtain ⟨hnd, _, _, hd⟩ := hinv
    obtain ⟨hloan, hloanid⟩ := selectLoan_head_mem db id loan rest hsel
    intro l' hl' hcomp
    obtain ⟨l, hl, hid, hrel⟩ := forall₂_mem_right hL l' hl'
    rcases hrel with rfl | ⟨_, _, hproc⟩
    · obtain ⟨hcs, hrows⟩ := hd l' hl hcomp
      have hne : l'.loan_id ≠ id := by
        intro hlid
        have := loan_unique db hnd l' loan hl hloan (hlid.trans hloanid.symm)
        rw [this] at hcs
        omega
      refine ⟨hcs, ?_⟩
      intro s' hs' hsid hs8
      obtain ⟨s, hs, hk1, hk2, hrel⟩ := forall₂_mem_right hS s' hs'
      rcases hrel with rfl | ⟨hsi, _⟩ | ⟨hsi, _⟩
      · exact hrows s' hs hsid hs8
      · exact absurd (hsid.symm.trans (hk1.trans hsi)) hne
      · exact absurd (hsid.symm.trans (hk1.trans hsi)) hne
    · rw [hproc] at hcomp
      exact absurd hcomp (by decide)

theorem storeInv_updateStage (db : Store) (env : TxEnv) (now : Nat) (id : String)
    (body : StageUpdateBody) (hinv : StoreInv db) :
    StoreInv (updateStage db env now id body).2 := by
  rcases updateStage_rows db env now id body with h | ⟨n, _, _, hL, hS, hset⟩
  · rw [h]; exact hinv
  · obtain ⟨ha, hb, hc⟩ := storeInv_keys db _ hinv
      (hL.imp (fun _ _ h => h.1)) (hS.imp (fun _ _ h => ⟨h.1, h.2.1⟩))
    refine ⟨ha, hb, hc, ?_⟩
    obtain ⟨_, _, _, hd⟩ := hinv
    intro l' hl' hcomp
    obtain ⟨l, hl, hid, hother, hself⟩ := forall₂_mem_right hL l' hl'
    by_cases hlid : l.loan_id = id
    · obtain ⟨hcs, hws⟩ := hself hlid
      rw [hws] at hcomp
      by_cases hcond : n = 8 ∧ body.status = some Status.completed
      · refine ⟨by rw [hcs]; exact hcond.1, ?_⟩
        intro s' hs' hsid hs8
        exact hset Status.completed hcond.2 s' hs' (hsid.trans (hid.trans hlid))
          (hs8.trans hcond.1.symm)
      · rw [if_neg hcond] at hcomp
        exact absurd hcomp (by decide)
    · have hll : l' = l := hother hlid
      subst hll
      obtain ⟨hcs, hrows⟩ := hd l' hl hcomp
      refine ⟨hcs, ?_⟩
      intro s' hs' hsid hs8
      obtain ⟨s, hs, hk1, hk2, hrel⟩ := forall₂_mem_right hS s' hs'
      rcases hrel with rfl | ⟨hsi, _⟩
      · exact hrows s' hs hsid hs8
      · exact absurd (hsid.symm.trans (hk1.trans hsi)) hlid

theorem storeInv_uploadDocuments (db : Store) (env : UploadEnv) (now : Nat) (id : String)
    (files : List (UploadedFile × FileOutcome)) (dt : Option String) (hinv : StoreInv db) :
    StoreInv (uploadDocuments db env now id files dt).2 := by
  obtain ⟨hS, hL⟩ := uploadDocuments_rows db env now id files dt
  obtain ⟨ha, hb, hc⟩ := storeInv_keys db _ hinv (hL.imp (fun _ _ h => h.1))
    (by rw [hS, List.forall₂_same]; intro s _; exact ⟨rfl, rfl⟩)
  refine ⟨ha, hb, hc, ?_⟩
  obtain ⟨_, _, _, hd⟩ := hinv
  intro l' hl' hcomp
  obtain ⟨l, hl, _, _, hrel⟩ := forall₂_mem_right hL l' hl'
  rcases hrel with rfl | ⟨_, hproc⟩
  · rw [hS]
    exact hd l' hl hcomp
  · rw [hproc] at hcomp
    exact absurd hcomp (by decide)

theorem stageIdsOf_new_rows (now : Nat) (X Y : String) :
    ((stageTable.map (newStageRow now X)).filter (fun r => r.loan_id = Y)).map
      (fun r => r.stage_id) = if X = Y then [1, 2, 3, 4, 5, 6, 7, 8] else [] := by
  by_cases h : X = Y <;> simp [stageTable, newStageRow, h]

theorem storeInv_createLoan (lib : JoiLib) (db : Store) (env : CreateEnv) (now : Nat)
    (body : CreateBody) (hinv : StoreInv db)
    (hfresh : (createLoan lib db env now body).2.loans ≠ db.loans →
      ∀ r ∈ db.loans, r.loan_id ≠ env.loanId) :
    StoreInv (createLoan lib db env now body).2 := by
  rcases createLoan_store lib db env now body with h | ⟨value, hloans, hstages⟩
  · rw [h]; exact hinv
  · have hfr : ∀ r ∈ db.loans, r.loan_id ≠ env.loanId :=
      hfresh (by rw [hloans]; simp)
    obtain ⟨hnd, hb, hc, hd⟩ := hinv
    have hnoStage : ∀ s ∈ db.stages, s.loan_id ≠ env.loanId := by
      intro s hs hsid
      obtain ⟨l, hl, hls⟩ := hb s hs
      exact hfr l hl (hls.trans hsid)
    have hold : stageIdsOf db env.loanId = [] := by
      simp only [stageIdsOf, List.map_eq_nil_iff, List.filter_eq_nil_iff, decide_eq_true_eq]
      exact hnoStage
    have hmemNew : ∀ s ∈ stageTable.map (newStageRow now env.loanId),
        s.loan_id = env.loanId ∧ s.status = Status.pending := by
      intro s hs
      obtain ⟨st, _, rfl⟩ := List.mem_map.mp hs
      exact ⟨rfl, rfl⟩
    refine ⟨?_, ?_, ?_, ?_⟩
    · rw [hloans, List.map_append, List.nodup_append]
      refine ⟨hnd, by simp, ?_⟩
      intro a ha ha'
      simp only [List.map_cons, List.map_nil, List.mem_singleton] at ha'
      obtain ⟨l, hl, rfl⟩ := List.mem_map.mp ha
      exact hfr l hl ha'
    · intro s hs
      have hcase : s ∈ db.stages ∨ s ∈ stageTable.map (newStageRow now env.loanId) := by
        rcases hstages with h | h <;> rw [h] at hs
        · exact Or.inl hs
        · exact List.mem_append.mp hs
      rcases hcase with h | h
      · obtain ⟨l, hl, hls⟩ := hb s h
        exact ⟨l, by rw [hloans]; exact List.mem_append_left _ hl, hls⟩
      · exact ⟨newLoanRow now env.loanId value, by rw [hloans]; simp,
          (hmemNew s h).1.symm⟩
    · intro X
      rcases hstages with h | h
      · have : stageIdsOf (createLoan lib db env now body).2 X = stageIdsOf db X := by
          simp [stageIdsOf, h]
        rw [this]; exact hc X
      · have : stageIdsOf (createLoan lib db env now body).2 X =
            stageIdsOf db X ++ if env.loanId = X then [1, 2, 3, 4, 5, 6, 7, 8] else [] := by
          simp only [stageIdsOf, h, List.filter_append, List.map_append]
          rw [stageIdsOf_new_rows]
        rw [this]
        by_cases hX : env.loanId = X
        · subst hX
          rw [hold]
          simp
        · simp only [hX, if_false, List.append_nil]
          exact hc X
    · intro l hl hcomp
      rw [hloans] at hl
      rcases List.mem_append.mp hl with hl | hl
      · obtain ⟨hcs, hrows⟩ := hd l hl hcomp
        refine ⟨hcs, ?_⟩
        intro s hs hsid hs8
        have hcase : s ∈ db.stages ∨ s ∈ stageTable.map (newStageRow now env.loanId) := by
          rcases hstages with h | h <;> rw [h] at hs
          · exact Or.inl hs
          · exact List.mem_append.mp hs
        rcases hcase with h | h
        · exact hrows s h hsid hs8
        · exact absurd ((hmemNew s h).1.symm.trans hsid).symm (hfr l hl)
      · simp only [List.mem_singleton] at hl
        rw [hl] at hcomp
        exact absurd hcomp (by simp [newLoanRow])

/-- Every reachable store satisfies the invariant. -/
theorem reachable_storeInv (lib : JoiLib) (u : Bool) (db : Store) (h : Reachable lib u db) :
    StoreInv db := by
  induction h with
  | empty u =>
    refine ⟨by simp [Store.empty], ?_, ?_, ?_⟩
    · intro s hs; simp [Store.empty] at hs
    · intro X; exact Or.inl (by simp [stageIdsOf, Store.empty])
    · intro l hl; simp [Store.empty] at hl
  | create _ env now body hfresh ih => exact storeInv_createLoan lib _ env now body ih hfresh
  | advance _ c ih => exact storeInv_advanceStage _ c.env c.now c.loanId ih
  | upload _ env now id files dt ih => exact storeInv_uploadDocuments _ env now id files dt ih
  | updateStage _ env now id body ih => exact storeInv_updateStage _ env now id body ih

/-- C6, as stated, fails: a creation whose stage transaction fails is answered 201 and
leaves the loan without stage rows; a stage update with stageId 8 and status completed,
answered 200, then makes the loan completed at stage 8, and the loan has no stage-8 row. -/
theorem completed_loan_without_stage_rows :
    Reachable demoLib true demoNoStages ∧
    (createLoan demoLib Store.empty stagesFailEnv 0 demoBody).1.code = 201 ∧
    (updateStage (createLoan demoLib Store.empty stagesFailEnv 0 demoBody).2 TxEnv.allOk 1
      "CL-20240615-0001" finishBody).1.code = 200 ∧
    demoNoStages.loans.map (fun r => (r.loan_id, r.current_stage, r.workflow_status)) =
      [("CL-20240615-0001", 8, Status.completed)] ∧
    ¬ ∃ s ∈ demoNoStages.stages, s.loan_id = "CL-20240615-0001" ∧ s.stage_id = 8 ∧
      s.status = Status.completed :=
  ⟨Reachable.updateStage
      (Reachable.create (Reachable.empty true) stagesFailEnv 0 demoBody
        (fun _ r hr => absurd hr (List.not_mem_nil r)))
      TxEnv.allOk 1 "CL-20240615-0001" finishBody,
    by decide, by decide, by decide, by decide⟩

/-- C6 (amended): in every store reachable from the empty store through creations (each
under an id not in use), advances, stage updates and document uploads, with any database
outcomes, a loan whose workflow_status is completed has current_stage 8, every stage-8 row
it has is completed, and its stage rows are either none (its stage initialisation failed)
or exactly those of the stages 1, ..., 8, so that it then has exactly one stage-8 row. -/
theorem completed_loan_invariant (lib : JoiLib) (db : Store)
    (h : Reachable lib true db) (l : LoanRow) (hl : l ∈ db.loans)
    (hcompleted : l.workflow_status = Status.completed) :
    l.current_stage = 8 ∧
    (∀ s ∈ db.stages, s.loan_id = l.loan_id → s.stage_id = 8 →
      s.status = Status.completed) ∧
    (stageIdsOf db l.loan_id = [] ∨
      stageIdsOf db l.loan_id = [1, 2, 3, 4, 5, 6, 7, 8]) := by
  obtain ⟨_, _, hc, hd⟩ := reachable_storeInv lib true db h
  exact ⟨(hd l hl hcompleted).1, (hd l hl hcompleted).2, hc l.loan_id⟩

theorem completed_loan_invariant_witness :
    demoFinished.loans.map (fun r => (r.current_stage, r.workflow_status)) =
      [(8, Status.completed)] ∧
    stageIdsOf demoFinished "CL-20240615-0001" = [1, 2, 3, 4, 5, 6, 7, 8] ∧
    ∀ l ∈ demoFinished.loans, l.workflow_status = Status.completed →
      l.current_stage = 8 ∧
      (∀ s ∈ demoFinished.stages, s.loan_id = l.loan_id → s.stage_id = 8 →
        s.status = Status.completed) ∧
      (stageIdsOf demoFinished l.loan_id = [] ∨
        stageIdsOf demoFinished l.loan_id = [1, 2, 3, 4, 5, 6, 7, 8]) :=
  ⟨by decide, by decide, fun l hl hc =>
    completed_loan_invariant demoLib demoFinished
      (Reachable.updateStage
        (Reachable.create (Reachable.empty true) demoCreateEnv 0 demoBody
          (fun _ r hr => absurd hr (List.not_mem_nil r)))
        TxEnv.allOk 1 "CL-20240615-0001" finishBody)
      l hl hc⟩

/-! ### Stage statuses without stage updates -/

theorem forwardInv_advanceStage (db : Store) (env : AdvanceEnv) (now : Nat) (id : String)
    (hinv : StoreInv db) (hfw : ForwardInv db) :
    ForwardInv (advanceStage db env now id).2 := by
  rcases advanceStage_rows db env now id with h | ⟨loan, rest, hsel, h8, hL, hS⟩
  · rw [h]; exact hfw
  · obtain ⟨hnd, _, _, _⟩ := hinv
    obtain ⟨he, hf⟩ := hfw
    obtain ⟨hloan, hloanid⟩ := selectLoan_head_mem db id loan rest hsel
    constructor
    · intro s' hs'
      obtain ⟨s, hs, _, _, hrel⟩ := forall₂_mem_right hS s' hs'
      rcases hrel with rfl | ⟨_, _, hst⟩ | ⟨_, _, hst⟩
      · exact he s' hs
      · rw [hst]; decide
      · rw [hst]; decide
    · intro l' hl' s' hs' hsid hlt
      obtain ⟨l, hl, hlid, hlrel⟩ := forall₂_mem_right hL l' hl'
      obtain ⟨s, hs, hk1, hk2, hsrel⟩ := forall₂_mem_right hS s' hs'
      have hle : l.current_stage ≤ l'.current_stage := by
        rcases hlrel with rfl | ⟨hli, hcs, _⟩
        · exact le_refl _
        · have := loan_unique db hnd l loan hl hloan (hli.trans hloanid.symm)
          rw [hcs, this]
          omega
      rcases hsrel with rfl | ⟨hsi, hsk, _⟩ | ⟨_, _, hst⟩
      · exact hf l hl s' hs (hsid.trans hlid) (by omega)
      · have hli : l.loan_id = id := by rw [← hlid, ← hsid, hk1, hsi]
        have := loan_unique db hnd l loan hl hloan (hli.trans hloanid.symm)
        rw [this] at hle
        omega
      · rw [hst]; decide

theorem forwardInv_uploadDocuments (db : Store) (env : UploadEnv) (now : Nat) (id : String)
    (files : List (UploadedFile × FileOutcome)) (dt : Option String) (hfw : ForwardInv db) :
    ForwardInv (uploadDocuments db env now id files dt).2 := by
  obtain ⟨hS, hL⟩ := uploadDocuments_rows db env now id files dt
  obtain ⟨he, hf⟩ := hfw
  refine ⟨by rw [hS]; exact he, ?_⟩
  intro l' hl' s' hs' hsid hlt
  rw [hS] at hs'
  obtain ⟨l, hl, hlid, hcs, _⟩ := forall₂_mem_right hL l' hl'
  exact hf l hl s' hs' (hsid.trans hlid) (by omega)

theorem forwardInv_createLoan (lib : JoiLib) (db : Store) (env : CreateEnv) (now : Nat)
    (body : CreateBody) (hinv : StoreInv db) (hfw : ForwardInv db)
    (hfresh : (createLoan lib db env now body).2.loans ≠ db.loans →
      ∀ r ∈ db.loans, r.loan_id ≠ env.loanId) :
    ForwardInv (createLoan lib db env now body).2 := by
  rcases createLoan_store lib db env now body with h | ⟨value, hloans, hstages⟩
  · rw [h]; exact hfw
  · have hfr : ∀ r ∈ db.loans, r.loan_id ≠ env.loanId :=
      hfresh (by rw [hloans]; simp)
    obtain ⟨_, hb, _, _⟩ := hinv
    obtain ⟨he, hf⟩ := hfw
    have hcase : ∀ s ∈ (createLoan lib db env now body).2.stages,
        s ∈ db.stages ∨ (s.loan_id = env.loanId ∧ s.status = Status.pending) := by
      intro s hs
      rcases hstages with h | h <;> rw [h] at hs
      · exact Or.inl hs
      · rcases List.mem_append.mp hs with hs | hs
        · exact Or.inl hs
        · obtain ⟨st, _, rfl⟩ := List.mem_map.mp hs
          exact Or.inr ⟨rfl, rfl⟩
    constructor
    · intro s hs
      rcases hcase s hs with h | ⟨_, h⟩
      · exact he s h
      · rw [h]; decide
    · intro l hl s hs hsid hlt
      rcases hcase s hs with h | ⟨_, h⟩
      · rw [hloans] at hl
        rcases List.mem_append.mp hl with hl | hl
        · exact hf l hl s h hsid hlt
        · simp only [List.mem_singleton] at hl
          obtain ⟨l₀, hl₀, hl₀s⟩ := hb s h
          have : l.loan_id = env.loanId := by rw [hl]; rfl
          exact absurd (hl₀s.trans (hsid.trans this)) (hfr l₀ hl₀)
      · rw [h]; decide

/-- Every store reachable without stage updates satisfies the additional invariant. -/
theorem reachable_forwardInv (lib : JoiLib) (u : Bool) (db : Store)
    (h : Reachable lib u db) (hu : u = false) : ForwardInv db := by
  induction h with
  | empty u =>
    exact ⟨by intro s hs; simp [Store.empty] at hs, by intro l hl; simp [Store.empty] at hl⟩
  | create hr env now body hfresh ih =>
    exact forwardInv_createLoan lib _ env now body (reachable_storeInv lib _ _ hr) (ih hu)
      hfresh
  | advance hr c ih =>
    exact forwardInv_advanceStage _ c.env c.now c.loanId (reachable_storeInv lib _ _ hr)
      (ih hu)
  | upload _ env now id files dt ih =>
    exact forwardInv_uploadDocuments _ env now id files dt (ih hu)
  | updateStage _ env now id body _ => exact absurd hu (by decide)

/-- C7, as stated, fails: on the loan created by the sample request, the first advance
takes the stage-1 row from pending directly to completed (and the stage-2 row to
processing), and a stage update with status pending, answered 200, then takes the stage-2
row back from processing to pending. -/
theorem stage_status_skips_and_moves_back :
    (demoCreated.stages.filter (fun r => r.stage_id = 1)).map (fun r => r.status)
      = [Status.pending] ∧
    (advanceStage demoCreated AdvanceEnv.allOk 1 "CL-20240615-0001").1.code = 200 ∧
    ((advanceStage demoCreated AdvanceEnv.allOk 1 "CL-20240615-0001").2.stages.filter
      (fun r => r.stage_id = 1)).map (fun r => r.status) = [Status.completed] ∧
    ((advanceStage demoCreated AdvanceEnv.allOk 1 "CL-20240615-0001").2.stages.filter
      (fun r => r.stage_id = 2)).map (fun r => r.status) = [Status.processing] ∧
    (updateStage (advanceStage demoCreated AdvanceEnv.allOk 1 "CL-20240615-0001").2
      TxEnv.allOk 2 "CL-20240615-0001" resetBody).1.code = 200 ∧
    ((updateStage (advanceStage demoCreated AdvanceEnv.allOk 1 "CL-20240615-0001").2
      TxEnv.allOk 2 "CL-20240615-0001" resetBody).2.stages.filter
      (fun r => r.stage_id = 2)).map (fun r => r.status) = [Status.pending] := by
  decide

/-- C7 (amended): in every store reachable through creations, advances and document
uploads (no stage update), a stage row's status never moves backward and never becomes
failed: an advance leaves it, or takes it from pending to processing, from processing to
completed or from pending to completed; a document upload changes no stage row; a creation
only appends pending rows.  A stage update answered 200 with a status writes that status
into the addressed row whatever the previous one, in any store, so it can skip states and
move backward. -/
theorem stage_status_moves (lib : JoiLib) (db : Store) (h : Reachable lib false db) :
    (∀ c : AdvanceCall,
      List.Forall₂ (fun s s' : StageRow =>
          s'.loan_id = s.loan_id ∧ s'.stage_id = s.stage_id ∧
          (s'.status = s.status ∨
            (s.status = Status.pending ∧ s'.status = Status.processing) ∨
            (s.status = Status.processing ∧ s'.status = Status.completed) ∨
            (s.status = Status.pending ∧ s'.status = Status.completed)))
        db.stages (advanceStage db c.env c.now c.loanId).2.stages) ∧
    (∀ (env : UploadEnv) (now : Nat) (id : String)
        (files : List (UploadedFile × FileOutcome)) (dt : Option String),
      (uploadDocuments db env now id files dt).2.stages = db.stages) ∧
    (∀ (env : CreateEnv) (now : Nat) (body : CreateBody), ∃ rows,
      (createLoan lib db env now body).2.stages = db.stages ++ rows ∧
      ∀ r ∈ rows, r.status = Status.pending) ∧
    (∀ (db₀ : Store) (env : TxEnv) (now : Nat) (id : String) (body : StageUpdateBody)
        (n : Nat) (st : Status),
      (updateStage db₀ env now id body).1.code = 200 →
      body.stageId = JsValue.number (n : ℚ) → body.status = some st →
      ∀ s' ∈ (updateStage db₀ env now id body).2.stages,
        s'.loan_id = id → s'.stage_id = n → s'.status = st) := by
  have hinv := reachable_storeInv lib false db h
  obtain ⟨he, hf⟩ := reachable_forwardInv lib false db h rfl
  refine ⟨?_, ?_, ?_, ?_⟩
  · intro c
    rcases advanceStage_rows db c.env c.now c.loanId with h' | ⟨loan, rest, hsel, h8, _, hS⟩
    · rw [h', List.forall₂_same]
      intro s _
      exact ⟨rfl, rfl, Or.inl rfl⟩
    · obtain ⟨hloan, hloanid⟩ := selectLoan_head_mem db c.loanId loan rest hsel
      have hmem : List.Forall₂ (fun s s' : StageRow => s ∈ db.stages)
          db.stages (advanceStage db c.env c.now c.loanId).2.stages := by
        exact List.forall₂_iff_zip.mpr ⟨hS.length_eq, fun {a b} hab =>
          (List.of_mem_zip hab).1⟩
      have hboth := List.forall₂_iff_zip.mpr ⟨hS.length_eq, fun {a b} hab =>
        (⟨(List.forall₂_iff_zip.mp hS).2 hab, (List.forall₂_iff_zip.mp hmem).2 hab⟩ :
          _ ∧ a ∈ db.stages)⟩
      refine hboth.imp ?_
      rintro s s' ⟨⟨hk1, hk2, hrel⟩, hs⟩
      refine ⟨hk1, hk2, ?_⟩
      have hnf := he s hs
      rcases hrel with rfl | ⟨_, _, hst⟩ | ⟨hsi, hsk, hst⟩
      · exact Or.inl rfl
      · rw [hst]
        cases hs0 : s.status
        · exact Or.inr (Or.inr (Or.inr ⟨rfl, rfl⟩))
        · exact Or.inr (Or.inr (Or.inl ⟨rfl, rfl⟩))
        · exact Or.inl rfl
        · exact absurd hs0 hnf
      · have hnc := hf loan hloan s hs (hsi.trans hloanid.symm) (by omega)
        rw [hst]
        cases hs0 : s.status
        · exact Or.inr (Or.inl ⟨rfl, rfl⟩)
        · exact Or.inl rfl
        · exact absurd hs0 hnc
        · exact absurd hs0 hnf
  · intro env now id files dt
    exact (uploadDocuments_rows db env now id files dt).1
  · intro env now body
    rcases createLoan_store lib db env now body with h' | ⟨value, _, hst | hst⟩
    · exact ⟨[], by rw [h']; simp, by simp⟩
    · exact ⟨[], by rw [hst]; simp, by simp⟩
    · refine ⟨_, hst, ?_⟩
      intro r hr
      obtain ⟨st, _, rfl⟩ := List.mem_map.mp hr
      rfl
  · intro db₀ env now id body n st hok hn hst s' hs' hid hsn
    obtain ⟨m, _, _, hm, hstore⟩ := updateStage_ok db₀ env now id body hok
    have hmn : m = n := by
      rw [hn] at hm
      have := JsValue.number.inj hm
      exact_mod_cast this.symm
    subst hmn
    rw [hstore, hst] at hs'
    simp only [stageUpdateEffect, updateLoanStageQuery, updateStageRowQuery,
      List.mem_map] at hs'
    obtain ⟨s, _, rfl⟩ := hs'
    by_cases hk : s.loan_id = id ∧ s.stage_id = m
    · simp [hk]
    · rw [if_neg hk] at hid hsn
      exact absurd ⟨hid, hsn⟩ hk

theorem stage_status_moves_witness :
    List.Forall₂ (fun s s' : StageRow =>
        s'.loan_id = s.loan_id ∧ s'.stage_id = s.stage_id ∧
        (s'.status = s.status ∨
          (s.status = Status.pending ∧ s'.status = Status.processing) ∨
          (s.status = Status.processing ∧ s'.status = Status.completed) ∨
          (s.status = Status.pending ∧ s'.status = Status.completed)))
      demoCreated.stages
      (advanceStage demoCreated AdvanceEnv.allOk 1 "CL-20240615-0001").2.stages :=
  (stage_status_moves demoLib demoCreated
    (Reachable.create (Reachable.empty false) demoCreateEnv 0 demoBody
      (fun _ r hr => absurd hr (List.not_mem_nil r)))).1
    { loanId := "CL-20240615-0001", env := AdvanceEnv.allOk, now := 1 }

/-! ### Creation with a failing stage transaction -/

/-- A statement that errors ends the loop over the queries of a transaction. -/
theorem runStatements_none_of_false :
    ∀ (qs : List (Store → Store)) (oks : List Bool) (db : Store),
      (∃ ok ∈ oks.take qs.length, ok = false) → runStatements oks qs db = none
  | [], _, _, h => by simp at h
  | q :: qs, [], db, h => by simp at h
  | q :: qs, ok :: oks, db, h => by
    cases hok : ok
    · simp [runStatements]
    · simp only [runStatements, List.headD_cons, hok, if_true, List.tail_cons]
      apply runStatements_none_of_false qs oks (q db)
      obtain ⟨o, ho, hof⟩ := h
      simp only [List.length_cons, List.take_succ_cons, List.mem_cons] at ho
      rcases ho with rfl | ho
      · rw [hok] at hof; exact absurd hof (by decide)
      · exact ⟨o, ho, hof⟩

/-- A transaction that obtained its connection and in which the begin, a statement or the
commit errors: `failure` when the rollback runs, `thrown` when the rollback errors too. -/
theorem executeTransaction_failed (env : TxEnv) (qs : List (Store → Store)) (db : Store)
    (hconnect : env.connectOk = true)
    (hfail : env.beginOk = false ∨ (∃ ok ∈ env.stmtOk.take qs.length, ok = false) ∨
      env.commitOk = false) :
    executeTransaction env qs db =
      if env.rollbackOk then TxResult.failure else TxResult.thrown := by
  unfold executeTransaction
  rcases hfail with h | h | h
  · simp [hconnect, h]
  · have := runStatements_none_of_false qs env.stmtOk db h
    cases env.beginOk <;> simp [hconnect, this]
  · cases env.beginOk <;> cases hr : runStatements env.stmtOk qs db <;>
      simp [hconnect, h, hr]

/-- C11, as stated, fails: the sample request is valid and its loan insert runs; the third
stage insert errors and the rollback errors too (the connection is lost), so
`executeTransaction` throws: the loan row stays, no stage row exists, and the answer is
500, not 201. -/
theorem createLoan_stage_failure_500 :
    (loanApplicationSchema demoLib demoBody).toBool = true ∧
    (createLoan demoLib Store.empty stagesThrowEnv 0 demoBody).1.code = 500 ∧
    (createLoan demoLib Store.empty stagesThrowEnv 0 demoBody).2.loans.map
      (fun r => r.loan_id) = ["CL-20240615-0001"] ∧
    (createLoan demoLib Store.empty stagesThrowEnv 0 demoBody).2.stages = [] := by
  decide

/-- C11 (amended): for a valid create request whose loan insert runs and whose stage
transaction fails (its begin, one of the eight inserts or its commit errors), under an id
that no stored stage row carries: the loan row is stored, the stage table is as before and
holds no row of that loan.  The answer is 201 with the generated id when the rollback runs
(`executeTransaction` reports `success: false`) and 500 when the rollback errors too
(`executeTransaction` throws). -/
theorem createLoan_stage_failure (lib : JoiLib) (db : Store) (env : CreateEnv) (now : Nat)
    (body : CreateBody) (value : LoanFields)
    (hvalid : loanApplicationSchema lib body = Except.ok value)
    (hinsert : env.insertOk = true)
    (hconnect : env.stagesTx.connectOk = true)
    (hfail : env.stagesTx.beginOk = false ∨
      (∃ ok ∈ env.stagesTx.stmtOk.take 8, ok = false) ∨ env.stagesTx.commitOk = false)
    (hfreshStages : ∀ r ∈ db.stages, r.loan_id ≠ env.loanId) :
    (createLoan lib db env now body).2.loans = db.loans ++ [newLoanRow now env.loanId value] ∧
    (createLoan lib db env now body).2.stages = db.stages ∧
    (createLoan lib db env now body).2.stages.filter (fun r => r.loan_id = env.loanId) = [] ∧
    (env.stagesTx.rollbackOk = true →
      (createLoan lib db env now body).1.code = 201 ∧
      (createLoan lib db env now body).1.success = true ∧
      (createLoan lib db env now body).1.loanId = some env.loanId) ∧
    (env.stagesTx.rollbackOk = false →
      (createLoan lib db env now body).1.code = 500) := by
  have htx := executeTransaction_failed env.stagesTx
    (stageTable.map (insertStageQuery now env.loanId))
    (insertLoanQuery now env.loanId value db) hconnect (by simpa [stageTable] using hfail)
  have hnil : db.stages.filter (fun r => decide (r.loan_id = env.loanId)) = [] := by
    simpa [List.filter_eq_nil_iff] using hfreshStages
  cases hr : env.stagesTx.rollbackOk
  · rw [hr] at htx
    simp only [Bool.false_eq_true, if_false] at htx
    have hc : createLoan lib db env now body =
        (Response.fail 500 "Internal server error", insertLoanQuery now env.loanId value db) := by
      simp only [createLoan, hvalid, hinsert, initializeWorkflowStages, htx]
      rfl
    rw [hc]
    exact ⟨rfl, rfl, hnil, fun h => absurd h (by decide), fun _ => rfl⟩
  · rw [hr] at htx
    simp only [if_true] at htx
    have hc : createLoan lib db env now body =
        (Response.okFor 201 env.loanId,
          runWrite env.logOk (logCreateQuery env.loanId)
            (insertLoanQuery now env.loanId value db)) := by
      simp only [createLoan, hvalid, hinsert, initializeWorkflowStages, htx]
      rfl
    rw [hc]
    cases env.logOk <;>
      exact ⟨rfl, rfl, hnil, fun _ => ⟨rfl, rfl, rfl⟩, fun h => absurd h (by decide)⟩

theorem createLoan_stage_failure_witness :
    (createLoan demoLib Store.empty stagesFailEnv 0 demoBody).1.code = 201 ∧
    (createLoan demoLib Store.empty stagesFailEnv 0 demoBody).2.stages = [] ∧
    (createLoan demoLib Store.empty stagesFailEnv 0 demoBody).2.loans.map
      (fun r => r.loan_id) = ["CL-20240615-0001"] :=
  have h := createLoan_stage_failure demoLib Store.empty stagesFailEnv 0 demoBody demoValue
    rfl rfl rfl (Or.inr (Or.inl ⟨false, by decide, rfl⟩)) (by decide)
  ⟨(h.2.2.2.1 rfl).1, h.2.1, by decide⟩

/-! ### Validation of the create request -/

theorem except_bind_error {ε α β : Type} (x : Except ε α) (f : α → Except ε β)
    (h : ∀ a, x = Except.ok a → ∃ e, f a = Except.error e) :
    ∃ e, (x >>= f) = Except.error e := by
  cases x with
  | error e => exact ⟨e, rfl⟩
  | ok a => exact h a rfl

theorem except_bind_of_error {ε α β : Type} (x : Except ε α) (f : α → Except ε β)
    (h : ∃ e, x = Except.error e) : ∃ e, (x >>= f) = Except.error e := by
  obtain ⟨e, rfl⟩ := h
  exact ⟨e, rfl⟩

/-- A body in which a required key is absent does not validate. -/
theorem loanApplicationSchema_required (lib : JoiLib) (f : LoanFields)
    (unknownKeys : List String)
    (h : f.companyName = JsValue.undefined ∨ f.requestedAmount = JsValue.undefined ∨
      f.loanPurpose = JsValue.undefined ∨ f.applicantName = JsValue.undefined ∨
      f.applicantContact = JsValue.undefined) :
    ∃ msg, loanApplicationSchema lib (CreateBody.object f unknownKeys) = Except.error msg := by
  simp only [loanApplicationSchema]
  rcases h with h | h | h | h | h <;> rw [h] <;>
    repeat
      first
      | exact except_bind_of_error _ _ ⟨_, by simp [joiString, joiNumber]; rfl⟩
      | refine except_bind_error _ _ (fun _ _ => ?_)

/-- C12: a create request whose body lacks at least one of companyName, requestedAmount,
loanPurpose, applicantName and applicantContact is answered 400 with the validation
message, and the store (loan, stage, document and audit rows) is as before. -/
theorem createLoan_required_missing (lib : JoiLib) (db : Store) (env : CreateEnv)
    (now : Nat) (f : LoanFields) (unknownKeys : List String)
    (h : f.companyName = JsValue.undefined ∨ f.requestedAmount = JsValue.undefined ∨
      f.loanPurpose = JsValue.undefined ∨ f.applicantName = JsValue.undefined ∨
      f.applicantContact = JsValue.undefined) :
    (createLoan lib db env now (CreateBody.object f unknownKeys)).1.code = 400 ∧
    (createLoan lib db env now (CreateBody.object f unknownKeys)).1.success = false ∧
    (createLoan lib db env now (CreateBody.object f unknownKeys)).1.error.isSome = true ∧
    (createLoan lib db env now (CreateBody.object f unknownKeys)).2 = db := by
  obtain ⟨msg, hmsg⟩ := loanApplicationSchema_required lib f unknownKeys h
  have hc : createLoan lib db env now (CreateBody.object f unknownKeys) =
      (Response.fail 400 msg, db) := by
    simp only [createLoan, hmsg]
  rw [hc]
  exact ⟨rfl, rfl, rfl, rfl⟩

theorem createLoan_required_missing_witness :
    (createLoan demoLib demoStore demoCreateEnv 0 bodyWithoutAmount).1 =
      Response.fail 400 (quoted "requestedAmount" ++ " is required") ∧
    (createLoan demoLib demoStore demoCreateEnv 0 bodyWithoutAmount).2 = demoStore :=
  have h := createLoan_required_missing demoLib demoStore demoCreateEnv 0
    { demoFields with requestedAmount := JsValue.undefined }
    [] (Or.inr (Or.inl rfl))
  ⟨by decide, h.2.2.2⟩

/-- The schema of `businessRegistrationNumber` accepts every string, whether or not it
matches the pattern: the second alternative, `Joi.string().allow('', null)`, is a string
schema. -/
theorem joiRegistrationNumber_string (key s : String) :
    joiRegistrationNumber key (JsValue.string s) = Except.ok (JsValue.string s) := by
  by_cases hs : s = ""
  · subst hs
    simp [joiRegistrationNumber, joiString]
  · by_cases hp : matchesRegistrationPattern s = true
    · simp [joiRegistrationNumber, joiString, hs, hp]
    · simp [joiRegistrationNumber, joiString, hs, hp]

/-- C13: the code at a failing input.  The string `abc` does not match the pattern
NNN-NN-NNNNN, yet the schema of `businessRegistrationNumber` accepts it and the create
request carrying it is answered 201; a number in its place is rejected, and a value of the
pattern is accepted. -/
theorem registration_pattern_not_enforced :
    matchesRegistrationPattern "abc" = false ∧
    joiRegistrationNumber "businessRegistrationNumber" (JsValue.string "abc") =
      Except.ok (JsValue.string "abc") ∧
    (createLoan demoLib Store.empty demoCreateEnv 0
      (bodyWithRegistration (JsValue.string "abc"))).1.code = 201 ∧
    (createLoan demoLib Store.empty demoCreateEnv 0
      (bodyWithRegistration (JsValue.number 1234567890))).1.code = 400 ∧
    matchesRegistrationPattern "123-45-67890" = true ∧
    (createLoan demoLib Store.empty demoCreateEnv 0
      (bodyWithRegistration (JsValue.string "123-45-67890"))).1.code = 201 :=
  ⟨by decide, joiRegistrationNumber_string _ _, by decide, by decide, by decide, by decide⟩

/-! ### The server's overall progress -/

set_option maxRecDepth 100000 in
/-- For fewer than 40 rows the double arithmetic loses nothing: the value reported is
`100 * c / t` rounded to the nearest integer, halves upward. -/
theorem overallProgressOf_small (t : Nat) (ht : t < 40) (h0 : 0 < t) (c : Nat) (hc : c ≤ t) :
    NearestHalfUp (overallProgressOf c t) (100 * c) t := by
  have key : ∀ t' : Fin 40, ∀ c' : Fin 40, c'.val ≤ t'.val → 0 < t'.val →
      NearestHalfUp (overallProgressOf c'.val t'.val) (100 * c'.val) t'.val := by
    decide
  exact key ⟨t, ht⟩ ⟨c, by omega⟩ hc h0

theorem completedCount_le (stages : List StageRow) : completedCount stages ≤ stages.length :=
  List.length_filter_le _ _

/-- The workflow answer when both queries run and the loan is found. -/
theorem getWorkflowStatus_found (db : Store) (loanId : String) (loan : LoanRow)
    (rest : List LoanRow) (hsel : selectLoan db loanId = loan :: rest) :
    getWorkflowStatus db true true loanId =
      (200, some
        { loanId := loan.loan_id, currentStage := loan.current_stage,
          workflowStatus := loan.workflow_status,
          overallProgress := overallProgressOf (completedCount (selectStages db loanId))
            (selectStages db loanId).length,
          completedStages := completedCount (selectStages db loanId),
          totalStages := (selectStages db loanId).length,
          stages := (selectStages db loanId).map
            (fun r => (r.stage_id, r.status, r.progress)) }) := by
  simp [getWorkflowStatus, hsel]

/-- C14, as stated, fails: with 23 of 40 stage rows completed the answer reports 57, while
`100 * 23 / 40 = 57.5` rounds half up to 58.  The double `23 / 40` lies just below 0.575,
and so does its product by 100 below 57.5. -/
theorem overallProgress_23_of_40 :
    (getWorkflowStatus demoStore40 true true "CL-40").1 = 200 ∧
    (getWorkflowStatus demoStore40 true true "CL-40").2.map
      (fun d => (d.completedStages, d.totalStages, d.overallProgress)) = some (23, 40, 57) ∧
    NearestHalfUp 58 (100 * 23) 40 ∧
    ¬ NearestHalfUp 57 (100 * 23) 40 := by
  decide

/-- C14 (amended): when both queries run and the loan is found, the answer is 200 and
reports `overallProgress = Math.round((c / t) * 100)` computed on doubles, for `c` rows in
status completed out of the `t` stage rows of the loan, whatever the progress fields of the
rows; it is 0 when `t = 0`, and for fewer than 40 rows, in particular for the 8 stage rows
of a loan, it is `100 * c / t` rounded to the nearest integer, halves upward. -/
theorem getWorkflowStatus_overallProgress (db : Store) (loanId : String) (loan : LoanRow)
    (rest : List LoanRow) (hsel : selectLoan db loanId = loan :: rest) :
    ∃ d, getWorkflowStatus db true true loanId = (200, some d) ∧
      d.totalStages = (selectStages db loanId).length ∧
      d.completedStages = completedCount (selectStages db loanId) ∧
      d.completedStages ≤ d.totalStages ∧
      d.overallProgress = overallProgressOf d.completedStages d.totalStages ∧
      (d.totalStages = 0 → d.overallProgress = 0) ∧
      (0 < d.totalStages → d.totalStages < 40 →
        NearestHalfUp d.overallProgress (100 * d.completedStages) d.totalStages) := by
  refine ⟨_, getWorkflowStatus_found db loanId loan rest hsel, rfl, rfl,
    completedCount_le _, rfl, ?_, ?_⟩
  · intro h
    simp only at h
    simp [h, overallProgressOf]
  · intro h0 h40
    exact overallProgressOf_small _ h40 h0 _ (completedCount_le _)

theorem getWorkflowStatus_overallProgress_witness :
    ∃ d, getWorkflowStatus demoStoreHalf true true "CL-1" = (200, some d) ∧
      d.totalStages = 8 ∧ d.completedStages = 3 ∧ d.overallProgress = 38 :=
  have ⟨d, h⟩ := getWorkflowStatus_overallProgress demoStoreHalf "CL-1"
    (demoLoan "CL-1" 4 Status.processing) [] (by decide)
  ⟨d, h.1, by rw [h.2.1]; decide, by rw [h.2.2.1]; decide,
    by rw [h.2.2.2.2.1, h.2.1, h.2.2.1]; decide⟩

/-! ### The dashboard's progress figure -/

/-- A value whose numerator fits 53 bits is a double: no rounding takes place. -/
theorem roundToDouble_exact (x : JsDouble) (h : x.num.natAbs < 2 ^ 53) :
    roundToDouble x = x := by
  unfold roundToDouble
  rw [if_pos h]

theorem roundToDouble_scale (x : JsDouble) : (roundToDouble x).scale = x.scale := by
  unfold roundToDouble
  split <;> rfl

/-- The bits in excess never reach past the leading bit of `a`. -/
theorem excessBits_lower :
    ∀ (fuel a s : Nat), 2 ^ (52 + s) ≤ a → 2 ^ (52 + excessBits fuel a s) ≤ a
  | 0, _, _, h => h
  | fuel + 1, a, s, h => by
    unfold excessBits
    split
    · exact h
    · rename_i hlt
      apply excessBits_lower fuel a (s + 1)
      have : 52 + (s + 1) = 53 + s := by omega
      rw [this]
      omega

/-- With enough steps the search ends at a number of bits that leaves a significand of at
most 53 bits. -/
theorem excessBits_upper :
    ∀ (fuel a s : Nat), a < 2 ^ (53 + s + fuel) → a < 2 ^ (53 + excessBits fuel a s)
  | 0, _, _, h => h
  | fuel + 1, a, s, h => by
    unfold excessBits
    split
    · assumption
    · apply excessBits_upper fuel a (s + 1)
      have : 53 + (s + 1) + fuel = 53 + s + (fuel + 1) := by omega
      rw [this]
      exact h

/-- The steps allowed in `roundToDouble` are enough: the significand left has 53 bits. -/
theorem excessBits_bounds (a : Nat) (h : 2 ^ 53 ≤ a) :
    2 ^ (52 + excessBits a a 1) ≤ a ∧ a < 2 ^ (53 + excessBits a a 1) := by
  refine ⟨excessBits_lower a a 1 h, excessBits_upper a a 1 ?_⟩
  calc a < 2 ^ a := Nat.lt_two_pow a
    _ ≤ 2 ^ (53 + 1 + a) := Nat.pow_le_pow_right (by decide) (by omega)

theorem roundTiesEven_ge (n d : Nat) : n / d ≤ roundTiesEven n d := by
  unfold roundTiesEven
  simp only
  split
  · exact le_refl _
  · split
    · omega
    · split <;> omega

/-- Rounding to a double does not take a value below a whole number under 1024 that it is
not below. -/
theorem roundToDouble_ge (x : JsDouble) (b : Nat) (hb : b < 2 ^ 10)
    (h : ((b * 2 ^ x.scale : Nat) : Int) ≤ x.num) :
    ((b * 2 ^ x.scale : Nat) : Int) ≤ (roundToDouble x).num := by
  unfold roundToDouble
  split
  · exact h
  · rename_i hbig
    have hnn : 0 ≤ x.num := le_trans (Int.ofNat_nonneg _) h
    have hneg : ¬ x.num < 0 := by omega
    simp only [hneg, if_false, one_mul]
    have habs : (x.num.natAbs : Int) = x.num := Int.natAbs_of_nonneg hnn
    have hle : b * 2 ^ x.scale ≤ x.num.natAbs := by
      have : ((b * 2 ^ x.scale : Nat) : Int) ≤ (x.num.natAbs : Int) := by rw [habs]; exact h
      exact_mod_cast this
    generalize x.num.natAbs = a at hbig hle
    have h53 : 2 ^ (52 + 1) ≤ a := by
      have : (2 : Nat) ^ (52 + 1) = 2 ^ 53 := rfl
      omega
    have hlow := excessBits_lower a a 1 h53
    generalize excessBits a a 1 = s at hlow
    have hfloor := roundTiesEven_ge a (2 ^ s)
    have hpos : 0 < 2 ^ s := Nat.pow_pos (by decide)
    have hmul : a / 2 ^ s * 2 ^ s ≤ roundTiesEven a (2 ^ s) * 2 ^ s :=
      Nat.mul_le_mul_right _ hfloor
    have key : b * 2 ^ x.scale ≤ a / 2 ^ s * 2 ^ s := by
      by_cases hk : s ≤ x.scale
      · obtain ⟨j, hj⟩ := Nat.exists_eq_add_of_le hk
        have hsplit : b * 2 ^ x.scale = (b * 2 ^ j) * 2 ^ s := by
          rw [hj, pow_add]
          ring
        rw [hsplit] at hle ⊢
        apply Nat.mul_le_mul_right
        exact (Nat.le_div_iff_mul_le hpos).2 hle
      · have hk' : x.scale < s := by omega
        have h1 : 2 ^ 52 ≤ a / 2 ^ s := by
          rw [Nat.le_div_iff_mul_le hpos, ← pow_add]
          exact hlow
        have h2 : b * 2 ^ x.scale ≤ 2 ^ 52 * 2 ^ s := by
          have hb' : b ≤ 2 ^ 52 := by
            have : (2 : Nat) ^ 10 ≤ 2 ^ 52 := Nat.pow_le_pow_right (by decide) (by decide)
            omega
          have hs' : 2 ^ x.scale ≤ 2 ^ s := Nat.pow_le_pow_right (by decide) (by omega)
          exact Nat.mul_le_mul hb' hs'
        exact le_trans h2 (Nat.mul_le_mul_right _ h1)
    exact_mod_cast le_trans key hmul

/-- The rounding of `Math.round` is monotone. -/
theorem mathRoundInt_mono (n n' : Int) (d : Nat) (hd : 0 < d) (h : n ≤ n') :
    mathRoundInt n d ≤ mathRoundInt n' d := by
  unfold mathRoundInt
  apply Int.ediv_le_ediv
  · omega
  · omega

/-- The value of `Math.round` at `b * 2 ^ k / 2 ^ (k + 3)` is that at `b / 8`. -/
theorem mathRoundInt_scale (b : Int) (k : Nat) :
    mathRoundInt (b * 2 ^ k) (2 ^ (k + 3)) = mathRoundInt b 8 := by
  unfold mathRoundInt
  have hpos : (0 : Int) < 2 ^ k := by positivity
  have e1 : (2 * (b * 2 ^ k) + ((2 ^ (k + 3) : Nat) : Int)) = (2 * b + 8) * 2 ^ k := by
    push_cast
    ring
  have e2 : (2 * ((2 ^ (k + 3) : Nat) : Int)) = 16 * 2 ^ k := by
    push_cast
    ring
  rw [e1, e2, Int.mul_ediv_mul_of_pos_left _ _ hpos]
  norm_num

/-- `Math.round` of an exact quotient is the quotient rounded half up. -/
theorem mathRoundInt_nearest (n : Int) (d : Nat) (hd : 0 < d) :
    NearestHalfUpInt (mathRoundInt n d) n d := by
  unfold NearestHalfUpInt mathRoundInt
  have hd' : (0 : Int) < 2 * (d : Int) := by omega
  have h1 := Int.emod_add_ediv (2 * n + d) (2 * d)
  have h2 := Int.emod_nonneg (2 * n + d) (ne_of_gt hd')
  have h3 := Int.emod_lt_of_pos (2 * n + d) hd'
  constructor <;> nlinarith

/-- The value of `x || 0` is 0 itself when its numerator is 0. -/
theorem orZero_zero (o : Option JsDouble) (h : (orZero o).num = 0) :
    orZero o = JsDouble.ofInt 0 := by
  cases o with
  | none => rfl
  | some p =>
    by_cases hp : p.num = 0
    · simp [orZero, hp]
    · simp [orZero, hp] at h

/-- With at most 8 completed stages and a current progress that is not negative, the
dashboard's figure is at least `Math.round(100 * c / 8)`, and equal to it at progress 0. -/
theorem calculateOverallProgress_ge (w : ClientWorkflow) (hc : w.completedStages ≤ 8)
    (hp : 0 ≤ w.currentProgress.num) :
    mathRoundInt (100 * w.completedStages) 8 ≤ calculateOverallProgress w ∧
    (w.currentProgress.num = 0 →
      calculateOverallProgress w = mathRoundInt (100 * w.completedStages) 8) := by
  constructor
  · have hb : 100 * w.completedStages < 2 ^ 10 := by
      have : (2 : Nat) ^ 10 = 1024 := rfl
      omega
    have hsum : (((100 * w.completedStages) * 2 ^
        (progressSum w.completedStages w.currentProgress).scale : Nat) : Int) ≤
        (progressSum w.completedStages w.currentProgress).num := by
      simp only [progressSum]
      push_cast
      have : (w.completedStages : Int) * 100 = 100 * (w.completedStages : Int) := by ring
      rw [this]
      omega
    have hge := roundToDouble_ge _ _ hb hsum
    unfold calculateOverallProgress
    simp only
    rw [roundToDouble_scale]
    have hmono := mathRoundInt_mono _ _
      (2 ^ ((progressSum w.completedStages w.currentProgress).scale + 3))
      (Nat.pow_pos (by decide)) hge
    have hscale := mathRoundInt_scale (100 * (w.completedStages : Int))
      (progressSum w.completedStages w.currentProgress).scale
    have hcast : (((100 * w.completedStages) * 2 ^
        (progressSum w.completedStages w.currentProgress).scale : Nat) : Int) =
        100 * (w.completedStages : Int) *
          2 ^ (progressSum w.completedStages w.currentProgress).scale := by
      push_cast
      ring
    rw [hcast, hscale] at hmono
    exact hmono
  · intro h0
    have hz : w.currentProgress = JsDouble.ofInt 0 := by
      unfold ClientWorkflow.currentProgress at h0 ⊢
      exact orZero_zero _ h0
    have hsum : progressSum w.completedStages w.currentProgress =
        JsDouble.ofInt (100 * w.completedStages) := by
      rw [hz]
      simp only [progressSum, JsDouble.ofInt, pow_zero, mul_one, add_zero]
      congr 1
      ring
    have hexact : roundToDouble (JsDouble.ofInt (100 * w.completedStages)) =
        JsDouble.ofInt (100 * w.completedStages) := by
      apply roundToDouble_exact
      simp only [JsDouble.ofInt]
      have : (2 : Nat) ^ 53 = 9007199254740992 := by norm_num
      omega
    unfold calculateOverallProgress
    simp only
    rw [hsum, hexact]
    rfl

/-- C15, as stated, fails: the sum `(completedStages * 100) + currentProgress` is rounded to
a double before it is divided by 8.  With one completed stage and the current stage at
progress `2 ^ 55`, the sum `2 ^ 55 + 100` lies half-way between two doubles and becomes
`2 ^ 55 + 96`, so the result is 4503599627370508, while `(100 + 2 ^ 55) / 8` rounded half up
is 4503599627370509.  With the progress 7.999999999999999 (that is `(2 ^ 53 - 1) / 2 ^ 50`)
the sum becomes 108 and the result is 14, while the exact quotient, just below 13.5, rounds
to 13. -/
theorem calculateOverallProgress_not_half_up :
    (workflowWithProgress (JsDouble.ofInt (2 ^ 55))).completedStages = 1 ∧
    (workflowWithProgress (JsDouble.ofInt (2 ^ 55))).currentProgress =
      JsDouble.ofInt (2 ^ 55) ∧
    calculateOverallProgress (workflowWithProgress (JsDouble.ofInt (2 ^ 55))) =
      4503599627370508 ∧
    NearestHalfUpInt 4503599627370509 (100 + 2 ^ 55) 8 ∧
    ¬ NearestHalfUpInt 4503599627370508 (100 + 2 ^ 55) 8 ∧
    (workflowWithProgress { num := 2 ^ 53 - 1, scale := 50 }).currentProgress =
      { num := 2 ^ 53 - 1, scale := 50 } ∧
    calculateOverallProgress (workflowWithProgress { num := 2 ^ 53 - 1, scale := 50 }) = 14 ∧
    NearestHalfUpInt 13 (100 * 2 ^ 50 + (2 ^ 53 - 1)) (8 * 2 ^ 50) ∧
    ¬ NearestHalfUpInt 14 (100 * 2 ^ 50 + (2 ^ 53 - 1)) (8 * 2 ^ 50) := by
  decide

/-- C15 (amended): for a cached workflow with `c` stages in status completed whose current
stage (the first stage with the id `currentStage`) has progress `p`, taken as 0 when there
is no such stage, it has no progress or its progress is 0, `calculateOverallProgress`
returns `Math.round(((c * 100) + p) / 8)` in double arithmetic.  Whenever the sum
`100 * c + p` is exact, its numerator fitting 53 bits, the result `r` is `(100 * c + p) / 8`
rounded to the nearest integer, halves upward: `r - 1/2 ≤ (100 * c + p) / 8 < r + 1/2`.
This is so for every whole number `p` with `|100 * c + p| < 2 ^ 53`, hence for every whole
percentage; for 3 completed stages and the 4th at progress 50 the result is 44. -/
theorem calculateOverallProgress_formula (w : ClientWorkflow) :
    (w.stages.find? (fun s => s.id = w.currentStage) = none →
      w.currentProgress = JsDouble.ofInt 0) ∧
    (∀ s, w.stages.find? (fun s => s.id = w.currentStage) = some s →
      (s.progress = none → w.currentProgress = JsDouble.ofInt 0) ∧
      (∀ p, s.progress = some p → p.num = 0 → w.currentProgress = JsDouble.ofInt 0) ∧
      (∀ p, s.progress = some p → p.num ≠ 0 → w.currentProgress = p)) ∧
    w.completedStages = (w.stages.filter (fun s => s.status = "completed")).length ∧
    ((100 * (w.completedStages : Int) * 2 ^ w.currentProgress.scale +
        w.currentProgress.num).natAbs < 2 ^ 53 →
      NearestHalfUpInt (calculateOverallProgress w)
        (100 * (w.completedStages : Int) * 2 ^ w.currentProgress.scale +
          w.currentProgress.num)
        (8 * 2 ^ w.currentProgress.scale)) ∧
    (∀ p : Int, w.currentProgress = JsDouble.ofInt p →
      (100 * (w.completedStages : Int) + p).natAbs < 2 ^ 53 →
      NearestHalfUpInt (calculateOverallProgress w) (100 * (w.completedStages : Int) + p) 8) ∧
    demoClientWorkflow.completedStages = 3 ∧
    demoClientWorkflow.currentProgress = JsDouble.ofInt 50 ∧
    calculateOverallProgress demoClientWorkflow = 44 := by
  have hexact : (100 * (w.completedStages : Int) * 2 ^ w.currentProgress.scale +
        w.currentProgress.num).natAbs < 2 ^ 53 →
      NearestHalfUpInt (calculateOverallProgress w)
        (100 * (w.completedStages : Int) * 2 ^ w.currentProgress.scale +
          w.currentProgress.num)
        (8 * 2 ^ w.currentProgress.scale) := by
    intro h
    have hnum : (progressSum w.completedStages w.currentProgress).num =
        100 * (w.completedStages : Int) * 2 ^ w.currentProgress.scale +
          w.currentProgress.num := by
      simp only [progressSum]
      ring
    have hr : roundToDouble (progressSum w.completedStages w.currentProgress) =
        progressSum w.completedStages w.currentProgress :=
      roundToDouble_exact _ (by rw [hnum]; exact h)
    unfold calculateOverallProgress
    simp only
    rw [hr, hnum]
    have hd : 2 ^ ((progressSum w.completedStages w.currentProgress).scale + 3) =
        8 * 2 ^ w.currentProgress.scale := by
      simp only [progressSum, pow_succ]
      ring
    rw [hd]
    exact mathRoundInt_nearest _ _ (by positivity)
  refine ⟨?_, ?_, rfl, hexact, ?_, by decide, by decide, by decide⟩
  · intro h
    simp [ClientWorkflow.currentProgress, h, orZero]
  · intro s h
    refine ⟨?_, ?_, ?_⟩
    · intro hp
      simp [ClientWorkflow.currentProgress, h, hp, orZero]
    · intro p hp h0
      simp [ClientWorkflow.currentProgress, h, hp, orZero, h0]
    · intro p hp h0
      simp [ClientWorkflow.currentProgress, h, hp, orZero, h0]
  · intro p hp h
    have := hexact (by rw [hp]; simpa [JsDouble.ofInt] using h)
    rw [hp] at this
    simpa [JsDouble.ofInt] using this

theorem calculateOverallProgress_formula_witness :
    NearestHalfUpInt (calculateOverallProgress demoClientWorkflow) (100 * 3 + 50) 8 ∧
    calculateOverallProgress demoClientWorkflow = 44 :=
  have h := calculateOverallProgress_formula demoClientWorkflow
  ⟨h.2.2.2.2.1 50 (by decide) (by decide), h.2.2.2.2.2.2.2⟩

/-! ### The upload file filter -/

theorem toNat_ofNat_of_lt (n : Nat) (h : n < 55296) : (Char.ofNat n).toNat = n := by
  unfold Char.ofNat
  rw [dif_pos (Or.inl h)]
  rfl

theorem toLower_toUpper (c : Char) : c.toUpper.toLower = c.toLower := by
  simp only [Char.toUpper, Char.toLower]
  by_cases h : c.toNat ≥ 97 ∧ c.toNat ≤ 122
  · have h1 : (Char.ofNat (c.toNat - 32)).toNat = c.toNat - 32 :=
      toNat_ofNat_of_lt _ (by omega)
    rw [if_pos h, h1, if_pos (by omega), if_neg (by omega),
      show c.toNat - 32 + 32 = c.toNat by omega, Char.ofNat_toNat]
  · rw [if_neg h]

theorem toUpper_toLower (c : Char) : c.toLower.toUpper = c.toUpper := by
  simp only [Char.toUpper, Char.toLower]
  by_cases h : c.toNat ≥ 65 ∧ c.toNat ≤ 90
  · have h1 : (Char.ofNat (c.toNat + 32)).toNat = c.toNat + 32 :=
      toNat_ofNat_of_lt _ (by omega)
    rw [if_pos h, h1, if_pos (by omega), if_neg (by omega), Nat.add_sub_cancel,
      Char.ofNat_toNat]
  · rw [if_neg h]

theorem toLower_eq_dot (c : Char) (h : c.toLower = '.') : c = '.' := by
  simp only [Char.toLower] at h
  by_cases hc : c.toNat ≥ 65 ∧ c.toNat ≤ 90
  · rw [if_pos hc] at h
    have h1 : (Char.ofNat (c.toNat + 32)).toNat = c.toNat + 32 :=
      toNat_ofNat_of_lt _ (by omega)
    rw [h] at h1
    have : ('.' : Char).toNat = 46 := rfl
    omega
  · rw [if_neg hc] at h
    exact h

/-- The alternatives are in lower case. -/
theorem allowedExtensions_lower :
    ∀ alt ∈ allowedExtensions, (alt.toList.map Char.toUpper).map Char.toLower = alt.toList := by
  decide

/-- Against an alternative, comparing under `canonicalize` is comparing the lower-cased
text with the alternative itself. -/
theorem canonical_eq_iff (ext : List Char) (alt : String) (h : alt ∈ allowedExtensions) :
    ext.map canonicalize = alt.toList.map canonicalize ↔ ext.map Char.toLower = alt.toList := by
  have hfun : canonicalize = Char.toUpper := rfl
  rw [hfun]
  constructor
  · intro he
    have := congrArg (List.map Char.toLower) he
    rw [allowedExtensions_lower alt h, List.map_map] at this
    rw [← this]
    apply List.map_congr_left
    intro c _
    exact (toLower_toUpper c).symm
  · intro he
    rw [← he, List.map_map]
    apply List.map_congr_left
    intro c _
    exact (toUpper_toLower c).symm

/-- The pattern matches from the head of `rest` exactly when the lower-cased `rest` is a dot
followed by one of the alternatives. -/
theorem matchesHere_iff (rest : List Char) :
    matchesHere rest = true ↔
      ∃ alt ∈ allowedExtensions, rest.map Char.toLower = '.' :: alt.toList := by
  cases rest with
  | nil => simp [matchesHere]
  | cons c ext =>
    simp only [matchesHere, Bool.and_eq_true, decide_eq_true_eq, List.any_eq_true,
      List.map_cons, List.cons.injEq]
    constructor
    · rintro ⟨hc, alt, halt, he⟩
      exact ⟨alt, halt, by rw [hc]; rfl, (canonical_eq_iff ext alt halt).1 he⟩
    · rintro ⟨alt, halt, hc, he⟩
      exact ⟨toLower_eq_dot c hc, alt, halt, (canonical_eq_iff ext alt halt).2 he⟩

/-- The test of `allowedTypes` on a name, as a statement on the end of the name. -/
theorem allowedTypesTest_iff (name : String) :
    allowedTypesTest name = true ↔
      ∃ alt ∈ allowedExtensions, ('.' :: alt.toList) <:+ name.toList.map Char.toLower := by
  simp only [allowedTypesTest, List.any_eq_true, List.mem_tails]
  constructor
  · rintro ⟨t, ht, hm⟩
    obtain ⟨alt, halt, he⟩ := (matchesHere_iff t).1 hm
    exact ⟨alt, halt, he ▸ List.IsSuffix.map Char.toLower ht⟩
  · rintro ⟨alt, halt, pre, hpre⟩
    obtain ⟨l₁, l₂, hl, _, h2⟩ := List.map_eq_append_iff.1 hpre.symm
    exact ⟨l₂, ⟨l₁, hl.symm⟩, (matchesHere_iff l₂).2 ⟨alt, halt, h2⟩⟩

/-- C20: the upload file filter accepts a file exactly when its original name, put in lower
case, ends with a dot followed by one of pdf, jpg, jpeg, png, doc, docx, xls, xlsx; every
other name is rejected with the error "지원하지 않는 파일 형식입니다.".  So `report.PDF`
and `.docx` are accepted, `archive.tar.gz`, `pdf` and `scan.pdf.exe` are rejected. -/
theorem fileFilter_accepts_iff (name : String) :
    (fileFilter name = Except.ok true ↔
      ∃ alt ∈ allowedExtensions, ('.' :: alt.toList) <:+ name.toList.map Char.toLower) ∧
    ((¬ ∃ alt ∈ allowedExtensions, ('.' :: alt.toList) <:+ name.toList.map Char.toLower) →
      fileFilter name = Except.error "지원하지 않는 파일 형식입니다.") ∧
    (fileFilter name = Except.ok true ∨
      fileFilter name = Except.error "지원하지 않는 파일 형식입니다.") ∧
    fileFilter "report.PDF" = Except.ok true ∧
    fileFilter ".docx" = Except.ok true ∧
    fileFilter "archive.tar.gz" = Except.error "지원하지 않는 파일 형식입니다." ∧
    fileFilter "pdf" = Except.error "지원하지 않는 파일 형식입니다." ∧
    fileFilter "scan.pdf.exe" = Except.error "지원하지 않는 파일 형식입니다." := by
  have hiff := allowedTypesTest_iff name
  refine ⟨?_, ?_, ?_, rfl, rfl, rfl, rfl, rfl⟩
  · rw [← hiff]
    unfold fileFilter
    by_cases h : allowedTypesTest name = true
    · simp [h]
    · simp [h]
  · intro hn
    rw [← hiff] at hn
    unfold fileFilter
    rw [if_neg hn]
  · unfold fileFilter
    by_cases h : allowedTypesTest name = true
    · exact Or.inl (by rw [if_pos h])
    · exact Or.inr (by rw [if_neg h])

/-! ### The upload route -/

/-- A request of acceptable parts, one of them at or over the size limit, is ended by the
upload middleware with `LIMIT_FILE_SIZE`. -/
theorem uploadArrayFrom_too_large :
    ∀ (parts : List (FilePart × FileOutcome)) (index : Nat),
      index + parts.length ≤ filesLimit →
      (∀ p ∈ parts, p.1.fieldname = "documents" ∧
        allowedTypesTest p.1.originalname = true) →
      (∃ p ∈ parts, p.1.size ≥ fileSizeLimit) →
      uploadArrayFrom index parts = Except.error UploadError.limitFileSize
  | [], _, _, _, hbig => by
    obtain ⟨p, hp, _⟩ := hbig
    cases hp
  | part :: rest, index, hlen, hok, hbig => by
    have hidx : ¬ index ≥ filesLimit := by
      simp only [List.length_cons] at hlen
      omega
    obtain ⟨hfield, hname⟩ := hok part (List.mem_cons_self _ _)
    have hfilter : fileFilter part.1.originalname = Except.ok true := by
      unfold fileFilter
      rw [if_pos hname]
    by_cases hsize : part.1.size ≥ fileSizeLimit
    · have hacc : acceptPart index part.1 = Except.error UploadError.limitFileSize := by
        unfold acceptPart
        rw [if_neg hidx, if_neg (by simp [hfield]), hfilter]
        simp only
        rw [if_pos hsize]
      simp only [uploadArrayFrom, hacc]
    · have hacc : acceptPart index part.1 = Except.ok
          (some { originalname := part.1.originalname, size := part.1.size,
                  mimetype := part.1.mimetype }) := by
        unfold acceptPart
        rw [if_neg hidx, if_neg (by simp [hfield]), hfilter]
        simp only
        rw [if_neg hsize]
      have hrest := uploadArrayFrom_too_large rest (index + 1)
        (by simp only [List.length_cons] at hlen; omega)
        (fun p hp => hok p (List.mem_cons_of_mem _ hp))
        (by
          obtain ⟨p, hp, hpbig⟩ := hbig
          rcases List.mem_cons.1 hp with h | h
          · exact absurd (h ▸ hpbig) hsize
          · exact ⟨p, h, hpbig⟩)
      simp only [uploadArrayFrom, hacc, hrest]

/-- C16, as stated, fails: a request to an existing loan with one valid file and one file
over 50MB is answered 413 with `success: false` and the error `FILE_TOO_LARGE`; no file is
reported as uploaded and the store is as before, so no metadata row is inserted, although
the object store and the insert would have taken both files. -/
theorem uploadRoute_mixed_batch :
    selectLoan demoStore "CL-1" ≠ [] ∧
    uploadRoute demoStore { lookupOk := true, flipOk := true } 7 "CL-1" mixedBatch none none =
      (Response.fail 413 "FILE_TOO_LARGE", demoStore) ∧
    (uploadRoute demoStore { lookupOk := true, flipOk := true } 7 "CL-1" mixedBatch none
      none).1.success = false ∧
    (uploadRoute demoStore { lookupOk := true, flipOk := true } 7 "CL-1" mixedBatch none
      none).1.uploadedFiles = [] ∧
    (uploadRoute demoStore { lookupOk := true, flipOk := true } 7 "CL-1" mixedBatch none
      none).2.documents = demoStore.documents := by
  decide

/-- C16 (amended): a request of at most 10 file parts, all in the field `documents` and
with allowed names, one of them larger than 50MB, is ended by the upload middleware before
the handler runs: whatever the other files and whatever the loan, the answer is 413 with
`success: false` and the error `FILE_TOO_LARGE`, it lists no uploaded file, and the store
is as before: no metadata row is inserted, also none for the valid files, and no status is
changed. -/
theorem uploadRoute_file_too_large (db : Store) (env : UploadEnv) (now : Nat)
    (loanId : String) (parts : List (FilePart × FileOutcome)) (documentType : Option String)
    (devStack : Option String)
    (hcount : parts.length ≤ filesLimit)
    (hok : ∀ p ∈ parts, p.1.fieldname = "documents" ∧
      allowedTypesTest p.1.originalname = true)
    (hbig : ∃ p ∈ parts, p.1.size > 50 * 1024 * 1024) :
    uploadRoute db env now loanId parts documentType devStack =
      (Response.fail 413 "FILE_TOO_LARGE", db) ∧
    (uploadRoute db env now loanId parts documentType devStack).1.code = 413 ∧
    (uploadRoute db env now loanId parts documentType devStack).1.success = false ∧
    (uploadRoute db env now loanId parts documentType devStack).1.uploadedFiles = [] ∧
    (uploadRoute db env now loanId parts documentType devStack).2 = db := by
  have hbig' : ∃ p ∈ parts, p.1.size ≥ fileSizeLimit := by
    obtain ⟨q, hq, hqbig⟩ := hbig
    exact ⟨q, hq, Nat.le_of_lt hqbig⟩
  have harr : uploadArray parts = Except.error UploadError.limitFileSize :=
    uploadArrayFrom_too_large parts 0 (by omega) hok hbig'
  have hroute : uploadRoute db env now loanId parts documentType devStack =
      (Response.fail 413 "FILE_TOO_LARGE", db) := by
    simp only [uploadRoute, harr, errorMiddleware]
  rw [hroute]
  exact ⟨rfl, rfl, rfl, rfl, rfl⟩

theorem uploadRoute_file_too_large_witness :
    mixedBatch.length ≤ filesLimit ∧
    uploadRoute demoStore { lookupOk := true, flipOk := true } 7 "CL-1" mixedBatch none none =
      (Response.fail 413 "FILE_TOO_LARGE", demoStore) :=
  ⟨by decide,
    (uploadRoute_file_too_large demoStore { lookupOk := true, flipOk := true } 7 "CL-1"
      mixedBatch none none (by decide) (by decide) (by decide)).1⟩

/-! ### The upload handler, file by file -/

/-- The upload loop, file by file: the entries added to the answer are those of the files
that went through (completed) and of the files whose handling threw (failed), in the order
of the files, and one document row is added for every file that went through. -/
theorem uploadLoop_entries (id dt : String) :
    ∀ (files : List (UploadedFile × FileOutcome)) (acc : List UploadEntry × Store),
      (files.foldl (fun acc f => uploadOne id dt f.1 f.2 acc) acc).1.map
          (fun e => (e.filename, e.status)) =
        acc.1.map (fun e => (e.filename, e.status)) ++
          (files.filter (fun f => f.2.succeeded || f.2.thrown)).map
            (fun f => (f.1.originalname, if f.2.succeeded then "completed" else "failed")) ∧
      (files.foldl (fun acc f => uploadOne id dt f.1 f.2 acc) acc).2.documents.map
          (fun d => (d.loan_id, d.original_filename)) =
        acc.2.documents.map (fun d => (d.loan_id, d.original_filename)) ++
          (files.filter (fun f => f.2.succeeded)).map (fun f => (id, f.1.originalname))
  | [], _ => by simp
  | f :: fs, acc => by
    have ih := uploadLoop_entries id dt fs (uploadOne id dt f.1 f.2 acc)
    simp only [List.foldl_cons]
    rw [ih.1, ih.2]
    rcases f with ⟨file, outcome⟩
    cases outcome with
    | stored bucket key url insertOk =>
      cases insertOk <;>
        simp [uploadOne, FileOutcome.succeeded, FileOutcome.thrown]
    | storeFailed => simp [uploadOne, FileOutcome.succeeded, FileOutcome.thrown]
    | threw message => simp [uploadOne, FileOutcome.succeeded, FileOutcome.thrown]

/-- The upload handler past its two guards. -/
theorem uploadDocuments_run (db : Store) (env : UploadEnv) (now : Nat) (id : String)
    (files : List (UploadedFile × FileOutcome)) (dt : Option String)
    (hfiles : files ≠ []) (hlookup : env.lookupOk = true) (hfound : selectLoan db id ≠ []) :
    uploadDocuments db env now id files dt =
      ({ Response.okFor 200 id with
          uploadedFiles := (files.foldl
            (fun acc f => uploadOne id (documentTypeOf dt) f.1 f.2 acc) ([], db)).1 },
        runWrite env.flipOk (flipPendingQuery now id)
          (files.foldl (fun acc f => uploadOne id (documentTypeOf dt) f.1 f.2 acc)
            ([], db)).2) := by
  have h1 : files.isEmpty = false := by
    cases files with
    | nil => exact absurd rfl hfiles
    | cons _ _ => rfl
  have h2 : (selectLoan db id).isEmpty = false := by
    cases h : selectLoan db id with
    | nil => exact absurd h hfound
    | cons _ _ => rfl
  simp only [uploadDocuments, h1, hlookup, h2, documentTypeOf]
  rfl

/-- The loan table after an upload: the flip statement has run on it exactly when the
request has a file, the lookup runs and finds the loan, and the flip statement runs. -/
theorem uploadDocuments_loans (db : Store) (env : UploadEnv) (now : Nat) (id : String)
    (files : List (UploadedFile × FileOutcome)) (dt : Option String) :
    (uploadDocuments db env now id files dt).2.loans =
      if files ≠ [] ∧ env.lookupOk = true ∧ selectLoan db id ≠ [] ∧ env.flipOk = true then
        (flipPendingQuery now id db).loans
      else db.loans := by
  by_cases hfiles : files = []
  · subst hfiles
    simp [uploadDocuments]
  by_cases hlookup : env.lookupOk = true
  swap
  · have : env.lookupOk = false := by simpa using hlookup
    have h1 : files.isEmpty = false := by
      cases files with
      | nil => exact absurd rfl hfiles
      | cons _ _ => rfl
    simp [uploadDocuments, this, h1]
  by_cases hfound : selectLoan db id = []
  · have h1 : files.isEmpty = false := by
      cases files with
      | nil => exact absurd rfl hfiles
      | cons _ _ => rfl
    simp [uploadDocuments, hfound, h1]
  rw [uploadDocuments_run db env now id files dt hfiles hlookup hfound]
  have hl := (uploadLoop_tables id (documentTypeOf dt) files ([], db)).1
  cases hflip : env.flipOk
  · simp only [runWrite]
    rw [if_neg (by simp), if_neg (by simp)]
    exact hl
  · simp only [runWrite, if_true]
    rw [if_pos ⟨hfiles, hlookup, hfound, trivial⟩]
    simp only [flipPendingQuery]
    rw [hl]

/-- C17, as stated, fails: a request with one file that the object store refuses is
answered 200 with `success: true` and an empty `uploadedFiles`, so the file is reported
neither as a success nor as a failure; the same holds for a file whose metadata insert
errors. -/
theorem uploadDocuments_unreported_file :
    selectLoan demoStore "CL-1" ≠ [] ∧
    uploadDocuments demoStore { lookupOk := true, flipOk := true } 7 "CL-1"
        [(demoFile "plan.pdf", FileOutcome.storeFailed)] none =
      ({ Response.okFor 200 "CL-1" with uploadedFiles := [] }, demoStore) ∧
    uploadDocuments demoStore { lookupOk := true, flipOk := true } 7 "CL-1"
        [(demoFile "plan.pdf", FileOutcome.stored "b" "k" "u" false)] none =
      ({ Response.okFor 200 "CL-1" with uploadedFiles := [] }, demoStore) := by
  decide

/-- C17 (amended): for a request with at least one file to a loan that the lookup finds,
the call is answered 200 with `success: true`.  Its one list `uploadedFiles` holds, in the
order of the files, an entry of status completed for every file whose object-store upload and
metadata insert both succeeded and an entry of status failed for every file whose handling
threw; a file that the object store refuses or whose metadata insert errors has no entry.
The document rows added are those of the files reported as completed, in that order, all
under the loan id. -/
theorem uploadDocuments_accounting (db : Store) (env : UploadEnv) (now : Nat) (id : String)
    (files : List (UploadedFile × FileOutcome)) (dt : Option String)
    (hfiles : files ≠ []) (hlookup : env.lookupOk = true) (hfound : selectLoan db id ≠ []) :
    (uploadDocuments db env now id files dt).1.code = 200 ∧
    (uploadDocuments db env now id files dt).1.success = true ∧
    (uploadDocuments db env now id files dt).1.uploadedFiles.map
        (fun e => (e.filename, e.status)) =
      (files.filter (fun f => f.2.succeeded || f.2.thrown)).map
        (fun f => (f.1.originalname, if f.2.succeeded then "completed" else "failed")) ∧
    (uploadDocuments db env now id files dt).2.documents.map
        (fun d => (d.loan_id, d.original_filename)) =
      db.documents.map (fun d => (d.loan_id, d.original_filename)) ++
        (files.filter (fun f => f.2.succeeded)).map (fun f => (id, f.1.originalname)) ∧
    (uploadDocuments db env now id files dt).2.documents.length =
      db.documents.length +
        ((uploadDocuments db env now id files dt).1.uploadedFiles.filter
          (fun e => e.status = "completed")).length := by
  have hrun := uploadDocuments_run db env now id files dt hfiles hlookup hfound
  obtain ⟨he, hd⟩ := uploadLoop_entries id (documentTypeOf dt) files ([], db)
  have hdocs : (uploadDocuments db env now id files dt).2.documents =
      (files.foldl (fun acc f => uploadOne id (documentTypeOf dt) f.1 f.2 acc)
        ([], db)).2.documents := by
    rw [hrun]
    cases env.flipOk <;> rfl
  have hentries : (uploadDocuments db env now id files dt).1.uploadedFiles =
      (files.foldl (fun acc f => uploadOne id (documentTypeOf dt) f.1 f.2 acc)
        ([], db)).1 := by
    rw [hrun]
  have hcount : ∀ l : List (UploadedFile × FileOutcome),
      (((l.filter (fun f => f.2.succeeded || f.2.thrown)).map
        (fun f => (f.1.originalname, if f.2.succeeded then "completed" else "failed"))).filter
          (fun p : String × String => p.2 = "completed")).length =
        (l.filter (fun f => f.2.succeeded)).length := by
    intro l
    induction l with
    | nil => rfl
    | cons f fs ih =>
      rcases f with ⟨file, outcome⟩
      cases outcome with
      | stored bucket key url insertOk =>
        cases insertOk <;>
          simp_all [List.filter_cons, FileOutcome.succeeded, FileOutcome.thrown]
      | storeFailed => simp_all [List.filter_cons, FileOutcome.succeeded, FileOutcome.thrown]
      | threw message => simp_all [List.filter_cons, FileOutcome.succeeded, FileOutcome.thrown]
  refine ⟨by rw [hrun]; rfl, by rw [hrun]; rfl, ?_, ?_, ?_⟩
  · rw [hentries, he]
    rfl
  · rw [hdocs, hd]
  · have hlen := congrArg List.length hd
    simp only [List.length_map, List.length_append] at hlen
    rw [hdocs, hlen, hentries]
    congr 1
    have hfm := congrArg
      (fun l => (l.filter (fun p : String × String => p.2 = "completed")).length) he
    simp only [List.map_nil, List.nil_append] at hfm
    rw [hcount] at hfm
    rw [← hfm]
    simp only [List.filter_map, List.length_map]
    rfl

theorem uploadDocuments_accounting_witness :
    (uploadDocuments demoStore { lookupOk := true, flipOk := true } 7 "CL-1"
      [ (demoFile "a.pdf", FileOutcome.stored "b" "k" "u" true),
        (demoFile "b.pdf", FileOutcome.storeFailed),
        (demoFile "c.pdf", FileOutcome.threw "boom"),
        (demoFile "d.pdf", FileOutcome.stored "b" "k" "u" false) ] none).1.uploadedFiles.map
        (fun e => (e.filename, e.status)) =
      [("a.pdf", "completed"), ("c.pdf", "failed")] :=
  (uploadDocuments_accounting demoStore { lookupOk := true, flipOk := true } 7 "CL-1"
      [ (demoFile "a.pdf", FileOutcome.stored "b" "k" "u" true),
        (demoFile "b.pdf", FileOutcome.storeFailed),
        (demoFile "c.pdf", FileOutcome.threw "boom"),
        (demoFile "d.pdf", FileOutcome.stored "b" "k" "u" false) ] none
      (by decide) rfl (by decide)).2.2.1

/-! ### The status flip of an upload -/

/-- C19, as stated, fails: a request to a pending loan with one file, which the object store
refuses, reports no uploaded file and stores no document row, yet the loan is moved from
pending to processing. -/
theorem uploadDocuments_flip_without_upload :
    selectLoan pendingStore "CL-1" = [demoLoan "CL-1" 1 Status.pending] ∧
    (uploadDocuments pendingStore { lookupOk := true, flipOk := true } 7 "CL-1"
      [(demoFile "plan.pdf", FileOutcome.storeFailed)] none).1.uploadedFiles = [] ∧
    (uploadDocuments pendingStore { lookupOk := true, flipOk := true } 7 "CL-1"
      [(demoFile "plan.pdf", FileOutcome.storeFailed)] none).2.documents = [] ∧
    selectLoan (uploadDocuments pendingStore { lookupOk := true, flipOk := true } 7 "CL-1"
      [(demoFile "plan.pdf", FileOutcome.storeFailed)] none).2 "CL-1" =
      [{ demoLoan "CL-1" 1 Status.pending with
          workflow_status := Status.processing, updated_at := 7 }] := by
  decide

/-- C19 (amended): the document-upload operation changes a loan's workflow status only from
pending to processing and never its current stage; a loan that is not pending, or that is
not the one addressed, keeps its row.  The pending loan addressed is moved to processing
exactly when the request carries at least one file, the lookup runs and the flip statement
runs, whatever the outcome of the files: also when none of them was uploaded. -/
theorem uploadDocuments_status_flip (db : Store) (env : UploadEnv) (now : Nat) (id : String)
    (files : List (UploadedFile × FileOutcome)) (dt : Option String) (X : String)
    (row : LoanRow) (hsel : selectLoan db X = [row]) :
    ∃ row', selectLoan (uploadDocuments db env now id files dt).2 X = [row'] ∧
      row'.current_stage = row.current_stage ∧
      (row'.workflow_status = row.workflow_status ∨
        (row.workflow_status = Status.pending ∧
          row'.workflow_status = Status.processing)) ∧
      (row.workflow_status ≠ Status.pending → row' = row) ∧
      (X ≠ id → row' = row) ∧
      (X = id → row.workflow_status = Status.pending →
        (row'.workflow_status = Status.processing ↔
          files ≠ [] ∧ env.lookupOk = true ∧ env.flipOk = true)) := by
  have hloans := uploadDocuments_loans db env now id files dt
  by_cases hc : files ≠ [] ∧ env.lookupOk = true ∧ selectLoan db id ≠ [] ∧ env.flipOk = true
  · rw [if_pos hc] at hloans
    have hflip := selectLoan_mapIf db (uploadDocuments db env now id files dt).2 id X
      (fun r => if r.workflow_status = Status.pending then
        { r with workflow_status := Status.processing, updated_at := now } else r)
      (fun r => by by_cases hp : r.workflow_status = Status.pending <;> simp [hp])
      (by
        rw [hloans]
        simp only [flipPendingQuery]
        apply List.map_congr_left
        intro r _
        by_cases h1 : r.loan_id = id <;> by_cases h2 : r.workflow_status = Status.pending <;>
          simp [h1, h2])
    rw [hflip, hsel]
    by_cases hid : id = X
    · by_cases hp : row.workflow_status = Status.pending
      · refine ⟨{ row with workflow_status := Status.processing, updated_at := now },
          by simp [hid, hp], rfl, Or.inr ⟨hp, rfl⟩, fun h => absurd hp h,
          fun h => absurd hid.symm h, fun _ _ => ⟨fun _ => ⟨hc.1, hc.2.1, hc.2.2.2⟩,
            fun _ => rfl⟩⟩
      · refine ⟨row, by simp [hid, hp], rfl, Or.inl rfl, fun _ => rfl, fun _ => rfl,
          fun _ h => absurd h hp⟩
    · refine ⟨row, by simp [hid], rfl, Or.inl rfl, fun _ => rfl, fun _ => rfl,
        fun h => absurd h.symm hid⟩
  · rw [if_neg hc] at hloans
    refine ⟨row, by rw [selectLoan_of_loans_eq _ _ _ hloans, hsel], rfl, Or.inl rfl,
      fun _ => rfl, fun _ => rfl, ?_⟩
    intro hX hp
    constructor
    · intro hproc
      rw [hp] at hproc
      cases hproc
    · rintro ⟨h1, h2, h3⟩
      exact absurd ⟨h1, h2, by rw [← hX, hsel]; simp, h3⟩ hc

theorem uploadDocuments_status_flip_witness :
    ∃ row', selectLoan (uploadDocuments pendingStore { lookupOk := true, flipOk := true } 7
        "CL-1" [(demoFile "plan.pdf", FileOutcome.stored "b" "k" "u" true)] none).2 "CL-1" =
        [row'] ∧
      row'.current_stage = 1 ∧ row'.workflow_status = Status.processing :=
  have ⟨row', h⟩ := uploadDocuments_status_flip pendingStore
    { lookupOk := true, flipOk := true } 7 "CL-1"
    [(demoFile "plan.pdf", FileOutcome.stored "b" "k" "u" true)] none "CL-1"
    (demoLoan "CL-1" 1 Status.pending) (by decide)
  ⟨row', h.1, h.2.1, (h.2.2.2.2.2 rfl rfl).2 ⟨by decide, rfl, rfl⟩⟩

/-! ### The client's upload -/

theorem JsObject.prop_assign_ne (o : JsObject) (key other : String) (value : JsValue)
    (h : other ≠ key) :
    JsObject.prop (JsObject.assign o other value) key = JsObject.prop o key := by
  unfold JsObject.assign
  split
  · unfold JsObject.prop
    have hfst : ∀ p : String × JsValue,
        (if p.1 = other then (p.1, value) else p).1 = p.1 := by
      intro p
      by_cases hp : p.1 = other <;> simp [hp]
    have hcomp : ((fun p : String × JsValue => decide (p.1 = key)) ∘
        fun p => if p.1 = other then (p.1, value) else p) =
        fun p => decide (p.1 = key) := by
      funext p
      simp only [Function.comp, hfst]
    rw [List.find?_map, hcomp]
    cases hf : List.find? (fun p => decide (p.1 = key)) o with
    | none => rfl
    | some p =>
      have hp : p.1 = key := by
        have := List.find?_some hf
        simpa using this
      have hne : ¬ p.1 = other := fun h1 => h (h1.symm.trans hp)
      simp [hne]
  · unfold JsObject.prop
    rw [List.find?_append]
    cases hf : List.find? (fun p => decide (p.1 = key)) o with
    | none => simp [List.find?_cons, h]
    | some p => rfl

/-- A spread of properties none of which is named `key` leaves `o[key]` as it was. -/
theorem JsObject.prop_spread (key : String) :
    ∀ (source : List (String × JsValue)) (o : JsObject),
      (∀ p ∈ source, p.1 ≠ key) →
      JsObject.prop (JsObject.spread o source) key = JsObject.prop o key
  | [], _, _ => rfl
  | p :: rest, o, h => by
    unfold JsObject.spread
    rw [List.foldl_cons]
    have ih := JsObject.prop_spread key rest (JsObject.assign o p.1 p.2)
      (fun q hq => h q (List.mem_cons_of_mem _ hq))
    unfold JsObject.spread at ih
    rw [ih]
    exact JsObject.prop_assign_ne o key p.1 p.2 (h p (List.mem_cons_self _ _))

/-- The status of the entry of a file whose response, if any, has no property `status`:
failed when the request threw, completed otherwise. -/
theorem APIService.resultEntry_status (loanId : String) (documentTypes : List String)
    (i : Nat) (file : ClientFile) (outcome : RequestOutcome)
    (h : ∀ result, outcome = RequestOutcome.resolved result → ∀ p ∈ result, p.1 ≠ "status") :
    JsObject.prop (APIService.resultEntry loanId documentTypes i file outcome) "status" =
      JsValue.string (if outcome.threw then "failed" else "completed") := by
  cases outcome with
  | resolved result =>
    simp only [APIService.resultEntry]
    rw [JsObject.prop_spread "status" result _ (h result rfl)]
    rfl
  | rejected message => rfl

/-- When no response carries a property `status`, the two lists of the answer partition the
files: the failed ones are those whose request threw, the uploaded ones are the others. -/
theorem APIService.uploadDocuments_partition (loanId : String) (documentTypes : List String)
    (files : List (ClientFile × RequestOutcome))
    (h : ∀ f ∈ files, ∀ result, f.2 = RequestOutcome.resolved result →
      ∀ p ∈ result, p.1 ≠ "status") :
    (APIService.uploadDocuments loanId files documentTypes).success = true ∧
    (APIService.uploadDocuments loanId files documentTypes).uploadedFiles.length =
      (files.filter (fun f => !f.2.threw)).length ∧
    (APIService.uploadDocuments loanId files documentTypes).failedFiles.length =
      (files.filter (fun f => f.2.threw)).length ∧
    (APIService.uploadDocuments loanId files documentTypes).uploadedFiles.length +
      (APIService.uploadDocuments loanId files documentTypes).failedFiles.length =
        files.length := by
  have key : ∀ (fs : List (ClientFile × RequestOutcome)) (i : Nat),
      (∀ f ∈ fs, ∀ result, f.2 = RequestOutcome.resolved result →
        ∀ p ∈ result, p.1 ≠ "status") →
      ((APIService.results loanId documentTypes i fs).filter
        (fun r => JsObject.prop r "status" = JsValue.string "completed")).length =
        (fs.filter (fun f => !f.2.threw)).length ∧
      ((APIService.results loanId documentTypes i fs).filter
        (fun r => JsObject.prop r "status" = JsValue.string "failed")).length =
        (fs.filter (fun f => f.2.threw)).length := by
    intro fs
    induction fs with
    | nil => intro _ _; exact ⟨rfl, rfl⟩
    | cons f rest ih =>
      intro i hf
      have hrest := ih (i + 1) (fun g hg => hf g (List.mem_cons_of_mem _ hg))
      have hst := APIService.resultEntry_status loanId documentTypes i f.1 f.2
        (hf f (List.mem_cons_self _ _))
      simp only [APIService.results, List.filter_cons, hst]
      cases hthrew : f.2.threw
      · simp [hrest.1, hrest.2]
      · simp [hrest.1, hrest.2]
  obtain ⟨h1, h2⟩ := key files 0 h
  refine ⟨rfl, h1, h2, ?_⟩
  have hsplit : ∀ fs : List (ClientFile × RequestOutcome),
      (fs.filter (fun f => !f.2.threw)).length + (fs.filter (fun f => f.2.threw)).length =
        fs.length := by
    intro fs
    induction fs with
    | nil => rfl
    | cons f rest ih =>
      cases hthrew : f.2.threw <;> simp [List.filter_cons, hthrew] <;> omega
  have e1 : (APIService.uploadDocuments loanId files documentTypes).uploadedFiles.length =
      (files.filter (fun f => !f.2.threw)).length := h1
  have e2 : (APIService.uploadDocuments loanId files documentTypes).failedFiles.length =
      (files.filter (fun f => f.2.threw)).length := h2
  rw [e1, e2]
  exact hsplit files

/-- C18: the code at a failing input.  One file whose storage request returns the object
`{ status: "ok" }` without throwing: the spread of the response after `status: 'completed'`
overwrites the status, so the file is in neither list and the two lists hold 0 entries for
1 file.  With the response `{ status: "failed" }` the file is listed as failed although its
request did not throw.  With a response without `status` the file is listed as uploaded. -/
theorem client_upload_status_overwritten :
    APIService.uploadDocuments "CL-1"
        [({ name := "plan.pdf", size := 1000 },
          RequestOutcome.resolved [("status", JsValue.string "ok")])] [] =
      { success := true, loanId := "CL-1", uploadedFiles := [], failedFiles := [] } ∧
    (APIService.uploadDocuments "CL-1"
        [({ name := "plan.pdf", size := 1000 },
          RequestOutcome.resolved [("status", JsValue.string "failed")])] []).uploadedFiles
      = [] ∧
    (APIService.uploadDocuments "CL-1"
        [({ name := "plan.pdf", size := 1000 },
          RequestOutcome.resolved [("status", JsValue.string "failed")])]
        []).failedFiles.length = 1 ∧
    (APIService.uploadDocuments "CL-1"
        [({ name := "plan.pdf", size := 1000 },
          RequestOutcome.resolved [("url", JsValue.string "https://s/plan.pdf")])]
        []).uploadedFiles.length = 1 := by
  decide

/-! ### Deleting a loan -/

/-- C21, as stated, fails: for an id that no row carries, a delete request during which the
statement on `loan_applications` errors is answered 500, not 404 (the store is as
before). -/
theorem deleteLoan_unknown_id_500 :
    selectLoan demoStore "CL-9" = [] ∧
    deleteLoan demoStore { documentsOk := true, stagesOk := true, loanOk := false } "CL-9" =
      (Response.fail 500 "Internal server error", demoStore) := by
  decide

/-- C21 (amended): deleting an id that no loan row carries, on a store in which no stage row
and no document row carries it either (they reference their loan), leaves every loan, stage,
document and audit row as before, whatever the outcome of the three statements; the answer
is 404 when the delete statement on `loan_applications` runs and 500 when it errors. -/
theorem deleteLoan_unknown_id (db : Store) (env : DeleteEnv) (loanId : String)
    (hloan : selectLoan db loanId = [])
    (hstages : ∀ s ∈ db.stages, s.loan_id ≠ loanId)
    (hdocs : ∀ d ∈ db.documents, d.loan_id ≠ loanId) :
    (deleteLoan db env loanId).2 = db ∧
    (deleteLoan db env loanId).1.success = false ∧
    (env.loanOk = true → (deleteLoan db env loanId).1.code = 404) ∧
    (env.loanOk = false → (deleteLoan db env loanId).1.code = 500) := by
  have h1 : deleteDocumentsQuery loanId db = db := by
    have : db.documents.filter (fun r => decide (r.loan_id ≠ loanId)) = db.documents :=
      List.filter_eq_self.2 (fun d hd => by simpa using hdocs d hd)
    simp only [deleteDocumentsQuery, this]
  have h2 : deleteStagesQuery loanId db = db := by
    have : db.stages.filter (fun r => decide (r.loan_id ≠ loanId)) = db.stages :=
      List.filter_eq_self.2 (fun s hs => by simpa using hstages s hs)
    simp only [deleteStagesQuery, this]
  have h3 : deleteLoanQuery loanId db = db := by
    have : db.loans.filter (fun r => decide (r.loan_id ≠ loanId)) = db.loans := by
      apply List.filter_eq_self.2
      intro r hr
      have hne : r.loan_id ≠ loanId := by
        intro heq
        have hmem : r ∈ selectLoan db loanId := by
          simp only [selectLoan, List.mem_filter]
          exact ⟨hr, by simpa using heq⟩
        rw [hloan] at hmem
        cases hmem
      simpa using hne
    simp only [deleteLoanQuery, this]
  have hdb1 : runWrite env.documentsOk (deleteDocumentsQuery loanId) db = db := by
    cases env.documentsOk <;> simp [runWrite, h1]
  have hdb2 : runWrite env.stagesOk (deleteStagesQuery loanId) db = db := by
    cases env.stagesOk <;> simp [runWrite, h2]
  cases hl : env.loanOk
  · have hc : deleteLoan db env loanId = (Response.fail 500 "Internal server error", db) := by
      simp only [deleteLoan, hdb1, hdb2, hl]
      rfl
    rw [hc]
    exact ⟨rfl, rfl, fun h => Bool.noConfusion h, fun _ => rfl⟩
  · have hc : deleteLoan db env loanId =
        (Response.fail 404 "대출 신청을 찾을 수 없습니다.", db) := by
      simp only [deleteLoan, hdb1, hdb2, hl, hloan, h3]
      rfl
    rw [hc]
    exact ⟨rfl, rfl, fun _ => rfl, fun h => Bool.noConfusion h⟩

theorem deleteLoan_unknown_id_witness :
    deleteLoan demoStore { documentsOk := true, stagesOk := true, loanOk := true } "CL-9" =
      (Response.fail 404 "대출 신청을 찾을 수 없습니다.", demoStore) :=
  have h := deleteLoan_unknown_id demoStore
    { documentsOk := true, stagesOk := true, loanOk := true } "CL-9"
    (by decide) (by decide) (by decide)
  Prod.ext (by decide) h.1

/-! ### The transaction helper -/

/-- The loop over the statements when all of them run: one `execute` for every query, in
order. -/
theorem statementCalls_all_ok :
    ∀ (count : Nat) (oks : List Bool) (index : Nat),
      (∀ ok ∈ oks.take count, ok = true) →
      statementCalls oks index count =
        ((List.range' index count).map ConnectionCall.execute, true)
  | 0, _, _, _ => rfl
  | count + 1, [], index, _ => by
    have ih := statementCalls_all_ok count [] (index + 1) (by simp)
    simp only [statementCalls, List.headD_nil, if_true, List.tail_nil, ih, List.range'_succ,
      List.map_cons]
  | count + 1, ok :: oks, index, h => by
    have hok : ok = true := h ok (by simp)
    have ih := statementCalls_all_ok count oks (index + 1)
      (fun o ho => h o (by simp [ho]))
    simp only [statementCalls, List.headD_cons, hok, if_true, List.tail_cons, ih,
      List.range'_succ, List.map_cons]

/-- The loop over the statements when one of them errors: it does not run to its end. -/
theorem statementCalls_not_ok :
    ∀ (count : Nat) (oks : List Bool) (index : Nat),
      (∃ ok ∈ oks.take count, ok = false) → (statementCalls oks index count).2 = false
  | 0, _, _, h => by simp at h
  | count + 1, [], _, h => by simp at h
  | count + 1, ok :: oks, index, h => by
    cases hok : ok
    · simp [statementCalls]
    · simp only [statementCalls, List.headD_cons, if_true, List.tail_cons]
      apply statementCalls_not_ok count oks (index + 1)
      obtain ⟨o, ho, hof⟩ := h
      simp only [List.take_succ_cons, List.mem_cons] at ho
      rcases ho with rfl | ho
      · rw [hok] at hof
        cases hof
      · exact ⟨o, ho, hof⟩

/-- The loop over the statements calls nothing but `execute`. -/
theorem statementCalls_execute :
    ∀ (count : Nat) (oks : List Bool) (index : Nat),
      ∀ c ∈ (statementCalls oks index count).1, ∃ i, c = ConnectionCall.execute i
  | 0, _, _, c, hc => by simp [statementCalls] at hc
  | count + 1, oks, index, c, hc => by
    simp only [statementCalls] at hc
    split at hc
    · rcases List.mem_cons.1 hc with h | h
      · exact ⟨index, h⟩
      · exact statementCalls_execute count oks.tail (index + 1) c h
    · rcases List.mem_cons.1 hc with h | h
      · exact ⟨index, h⟩
      · cases h

/-- The `try` block never releases the connection. -/
theorem tryCalls_no_release (env : TxEnv) (count : Nat) :
    ConnectionCall.release ∉ (tryCalls env count).1 := by
  intro hmem
  have hexec : ConnectionCall.release ∉ (statementCalls env.stmtOk 0 count).1 := by
    intro h
    obtain ⟨i, hi⟩ := statementCalls_execute count env.stmtOk 0 _ h
    cases hi
  unfold tryCalls at hmem
  split at hmem
  · simp at hmem
  · split at hmem
    · simp only [List.cons_append, List.mem_cons, List.mem_append, List.mem_singleton] at hmem
      rcases hmem with h | h | h
      · cases h
      · exact hexec h
      · simp at h
    · simp only [List.mem_cons] at hmem
      rcases hmem with h | h
      · cases h
      · exact hexec h

/-- C22, as stated, fails: with a connection acquired, a transaction whose third statement
errors and whose rollback errors too throws: the exception of `rollback` leaves the `catch`
block.  The connection is still released once. -/
theorem executeTransaction_throws_after_connect :
    stagesThrowEnv.stagesTx.connectOk = true ∧
    executeTransaction stagesThrowEnv.stagesTx
      (stageTable.map (insertStageQuery 0 "CL-1")) Store.empty = TxResult.thrown ∧
    connectionCalls stagesThrowEnv.stagesTx 8 =
      [ ConnectionCall.beginTransaction, ConnectionCall.execute 0, ConnectionCall.execute 1,
        ConnectionCall.execute 2, ConnectionCall.rollback, ConnectionCall.release ] := by
  decide

/-- C22 (amended): once the connection has been acquired, `executeTransaction` is
all-or-nothing.  When `beginTransaction`, every statement and `commit` run, every query is
applied in list order, the result is success with one result per query, and the calls on the
connection are begin, one execute per query, commit, release.  Otherwise nothing of the
queries is kept and `rollback` is called: the result is `success: false` when the rollback
runs, and the function throws when the rollback errors.  On every path the connection is
released exactly once, as the last call. -/
theorem executeTransaction_all_or_nothing (env : TxEnv) (qs : List (Store → Store))
    (db : Store) (hconnect : env.connectOk = true) :
    ((env.beginOk = true ∧ (∀ ok ∈ env.stmtOk.take qs.length, ok = true) ∧
        env.commitOk = true) →
      executeTransaction env qs db = TxResult.success (qs.foldl (fun d q => q d) db) ∧
      resultCount env qs.length = qs.length ∧
      connectionCalls env qs.length =
        ConnectionCall.beginTransaction ::
          (List.range' 0 qs.length).map ConnectionCall.execute ++
          [ConnectionCall.commit, ConnectionCall.release]) ∧
    (¬ (env.beginOk = true ∧ (∀ ok ∈ env.stmtOk.take qs.length, ok = true) ∧
        env.commitOk = true) →
      executeTransaction env qs db =
        (if env.rollbackOk then TxResult.failure else TxResult.thrown) ∧
      (executeTransaction env qs db).storeAfter db = db ∧
      ConnectionCall.rollback ∈ connectionCalls env qs.length) ∧
    (connectionCalls env qs.length).count ConnectionCall.release = 1 ∧
    (connectionCalls env qs.length).getLast? = some ConnectionCall.release := by
  have hcalls : connectionCalls env qs.length =
      (tryCalls env qs.length).1 ++
        (if (tryCalls env qs.length).2 then [] else [ConnectionCall.rollback]) ++
        [ConnectionCall.release] := by
    simp only [connectionCalls, hconnect]
    rfl
  refine ⟨?_, ?_, ?_, ?_⟩
  · rintro ⟨hb, hs, hc⟩
    have hrun := runStatements_all_ok qs env.stmtOk db hs
    have hst := statementCalls_all_ok qs.length env.stmtOk 0 hs
    have htry : tryCalls env qs.length =
        (ConnectionCall.beginTransaction ::
          (List.range' 0 qs.length).map ConnectionCall.execute ++ [ConnectionCall.commit],
          true) := by
      simp only [tryCalls, hb, hst, hc]
      rfl
    refine ⟨?_, ?_, ?_⟩
    · exact (executeTransaction_success_iff env qs db _).2 ⟨hconnect, hb, hrun, hc⟩
    · simp [resultCount, hst]
    · rw [hcalls, htry]
      simp
  · intro hnot
    have hfail : env.beginOk = false ∨ (∃ ok ∈ env.stmtOk.take qs.length, ok = false) ∨
        env.commitOk = false := by
      by_contra hcon
      push_neg at hcon
      apply hnot
      refine ⟨by simpa using hcon.1, ?_, by simpa using hcon.2.2⟩
      intro ok hok
      have := hcon.2.1 ok hok
      simpa using this
    have hres := executeTransaction_failed env qs db hconnect hfail
    have htry2 : (tryCalls env qs.length).2 = false := by
      unfold tryCalls
      rcases hfail with h | h | h
      · simp [h]
      · have := statementCalls_not_ok qs.length env.stmtOk 0 h
        cases env.beginOk <;> simp [this]
      · cases env.beginOk <;> cases (statementCalls env.stmtOk 0 qs.length).2 <;> simp [h]
    refine ⟨hres, ?_, ?_⟩
    · rw [hres]
      cases env.rollbackOk <;> rfl
    · rw [hcalls, htry2]
      simp
  · rw [hcalls]
    have hno := tryCalls_no_release env qs.length
    rw [List.count_append, List.count_append, List.count_eq_zero_of_not_mem hno]
    cases (tryCalls env qs.length).2 <;> simp
  · rw [hcalls]
    simp

theorem executeTransaction_all_or_nothing_witness :
    executeTransaction TxEnv.allOk (stageTable.map (insertStageQuery 0 "CL-1")) Store.empty =
      TxResult.success
        ((stageTable.map (insertStageQuery 0 "CL-1")).foldl (fun d q => q d) Store.empty) ∧
    (connectionCalls TxEnv.allOk 8).count ConnectionCall.release = 1 :=
  have h := executeTransaction_all_or_nothing TxEnv.allOk
    (stageTable.map (insertStageQuery 0 "CL-1")) Store.empty rfl
  ⟨(h.1 ⟨rfl, by decide, rfl⟩).1, h.2.2.1⟩

/-! ### The stage rows of a loan along its advances -/

/-- The shape of the stage rows of a loan after a statement that rewrites stage rows by
`f`, which keeps the loan id and acts on the shape as `g`. -/
theorem stageShape_map (db db' : Store) (id : String) (f : StageRow → StageRow)
    (g : Nat × Status × Int → Nat × Status × Int)
    (hf : ∀ r, (f r).loan_id = r.loan_id)
    (hg : ∀ r : StageRow, r.loan_id = id →
      ((f r).stage_id, (f r).status, (f r).progress) = g (r.stage_id, r.status, r.progress))
    (h : db'.stages = db.stages.map f) :
    stageShape db' id = (stageShape db id).map g := by
  unfold stageShape
  rw [h, List.filter_map, List.map_map, List.map_map]
  have hp : ((fun r : StageRow => decide (r.loan_id = id)) ∘ f) =
      fun r => decide (r.loan_id = id) := by
    funext r
    simp only [Function.comp, hf]
  rw [hp]
  apply List.map_congr_left
  intro r hr
  have hid : r.loan_id = id := by simpa using (List.mem_filter.1 hr).2
  exact hg r hid

/-- One advance in which every statement runs, on a loan in the shape after `n < 7`
advances: it is answered 200 and leaves the loan in the shape after `n + 1` advances. -/
theorem advance_shape_step (db : Store) (t : Nat) (id : String) (n : Nat) (row : LoanRow)
    (hn : n < 7) (hsel : selectLoan db id = [row]) (hcur : row.current_stage = n + 1)
    (hshape : stageShape db id = shapeAfter n) :
    (advanceStage db AdvanceEnv.allOk t id).1.code = 200 ∧
    ∃ row', selectLoan (advanceStage db AdvanceEnv.allOk t id).2 id = [row'] ∧
      row'.current_stage = n + 2 ∧ row'.workflow_status = Status.processing ∧
      stageShape (advanceStage db AdvanceEnv.allOk t id).2 id = shapeAfter (n + 1) := by
  have h8 : row.current_stage < 8 := by omega
  have hall := advanceStage_allOk db t id row [] hsel h8
  have hself := selectLoan_advanceStage_self db AdvanceEnv.allOk t id row hsel
  rw [if_pos ⟨rfl, by omega, rfl⟩] at hself
  refine ⟨by rw [hall]; rfl, _, hself, by simp [hcur], rfl, ?_⟩
  rw [hall]
  simp only
  have h1 : stageShape (completeCurrentStageQuery t id row.current_stage db) id =
      (stageShape db id).map (fun v =>
        if v.1 = n + 1 then (v.1, Status.completed, 100) else v) := by
    apply stageShape_map db _ id
      (fun r => if r.loan_id = id ∧ r.stage_id = row.current_stage then
        { r with status := Status.completed, progress := 100, completed_at := some t,
                 updated_at := t } else r)
    · intro r
      by_cases hc : r.loan_id = id ∧ r.stage_id = row.current_stage <;> simp [hc]
    · intro r hid
      by_cases hc : r.stage_id = n + 1 <;> simp [hid, hcur, hc]
    · rfl
  have h2 : stageShape (startNextStageQuery t id (row.current_stage + 1)
      (updateLoanQuery t (row.current_stage + 1) id
        (completeCurrentStageQuery t id row.current_stage db))) id =
      (stageShape (completeCurrentStageQuery t id row.current_stage db) id).map (fun v =>
        if v.1 = n + 2 then (v.1, Status.processing, 0) else v) := by
    apply stageShape_map (completeCurrentStageQuery t id row.current_stage db) _ id
      (fun r => if r.loan_id = id ∧ r.stage_id = row.current_stage + 1 then
        { r with status := Status.processing, progress := 0, started_at := some t,
                 updated_at := t } else r)
    · intro r
      by_cases hc : r.loan_id = id ∧ r.stage_id = row.current_stage + 1 <;> simp [hc]
    · intro r hid
      by_cases hc : r.stage_id = n + 2 <;> simp [hid, hcur, hc]
    · rfl
  rw [h2, h1, hshape]
  interval_cases n <;> decide

/-- A run of advances in which every statement runs, from the shape after `n` advances. -/
theorem advanceRun_shape (id : String) :
    ∀ (times : List Nat) (db : Store) (n : Nat) (row : LoanRow),
      n + times.length ≤ 7 → selectLoan db id = [row] → row.current_stage = n + 1 →
      stageShape db id = shapeAfter n →
      ∃ row', selectLoan (advanceRun db (successfulAdvances id times)) id = [row'] ∧
        row'.current_stage = n + times.length + 1 ∧
        stageShape (advanceRun db (successfulAdvances id times)) id =
          shapeAfter (n + times.length)
  | [], _, _, row, _, hsel, hcur, hshape => ⟨row, hsel, hcur, hshape⟩
  | t :: ts, db, n, row, hlen, hsel, hcur, hshape => by
    simp only [List.length_cons] at hlen
    obtain ⟨_, row₁, hsel₁, hcur₁, _, hshape₁⟩ :=
      advance_shape_step db t id n row (by omega) hsel hcur hshape
    obtain ⟨row', h1, h2, h3⟩ := advanceRun_shape id ts _ (n + 1) row₁ (by omega) hsel₁
      hcur₁ hshape₁
    refine ⟨row', h1, ?_, ?_⟩
    · rw [h2, List.length_cons]
      omega
    · rw [show n + (t :: ts).length = n + 1 + ts.length by simp only [List.length_cons]; omega]
      exact h3

/-- The number of completed rows of a loan, read off its shape. -/
theorem completedCount_shape (db : Store) (id : String) :
    completedCount (db.stages.filter (fun r => r.loan_id = id)) =
      ((stageShape db id).filter (fun v => v.2.1 = Status.completed)).length := by
  unfold completedCount stageShape
  rw [List.filter_map, List.length_map]
  rfl

/-- C26: a loan just created under an unused id, with its 8 pending stage rows, after `n`
advances in which every statement runs, `0 ≤ n ≤ 7`: its only loan row is at stage `n + 1`,
its stage rows are those of the stages 1, ..., 8 in order, with the stages 1, ..., n
completed at progress 100, the stage n + 1 processing when `n ≥ 1` and pending when `n = 0`,
and the later stages pending; the number of its completed stage rows is `n`, that is
`current_stage - 1`.  While `n < 7` a further such advance is answered 200. -/
theorem advances_shape (lib : JoiLib) (db : Store) (env : CreateEnv) (now : Nat)
    (body : CreateBody) (times : List Nat)
    (hcreated : (createLoan lib db env now body).1.code = 201)
    (hfresh : ∀ r ∈ db.loans, r.loan_id ≠ env.loanId)
    (hrows : stageShape (createLoan lib db env now body).2 env.loanId = shapeAfter 0)
    (hn : times.length ≤ 7) :
    ∃ row,
      selectLoan (advanceRun (createLoan lib db env now body).2
        (successfulAdvances env.loanId times)) env.loanId = [row] ∧
      row.current_stage = times.length + 1 ∧
      stageShape (advanceRun (createLoan lib db env now body).2
        (successfulAdvances env.loanId times)) env.loanId = shapeAfter times.length ∧
      completedCount ((advanceRun (createLoan lib db env now body).2
        (successfulAdvances env.loanId times)).stages.filter
          (fun r => r.loan_id = env.loanId)) = row.current_stage - 1 ∧
      (times.length < 7 → ∀ t,
        (advanceStage (advanceRun (createLoan lib db env now body).2
          (successfulAdvances env.loanId times)) AdvanceEnv.allOk t env.loanId).1.code =
            200) := by
  obtain ⟨row₀, hsel₀, hcur₀, _⟩ := selectLoan_createLoan lib db env now body hcreated hfresh
  obtain ⟨row, hsel, hcur, hshape⟩ := advanceRun_shape env.loanId times _ 0 row₀
    (by omega) hsel₀ (by rw [hcur₀]) hrows
  rw [Nat.zero_add] at hcur hshape
  refine ⟨row, hsel, hcur, hshape, ?_, ?_⟩
  · rw [completedCount_shape, hshape, hcur]
    generalize times.length = n at hn
    interval_cases n <;> decide
  · intro h7 t
    exact (advance_shape_step _ t env.loanId times.length row h7 hsel hcur hshape).1

theorem advances_shape_witness :
    stageShape (advanceRun demoCreated (successfulAdvances "CL-20240615-0001" [1, 2, 3]))
        "CL-20240615-0001" =
      [ (1, Status.completed, 100), (2, Status.completed, 100), (3, Status.completed, 100),
        (4, Status.processing, 0), (5, Status.pending, 0), (6, Status.pending, 0),
        (7, Status.pending, 0), (8, Status.pending, 0) ] :=
  have ⟨_, h⟩ := advances_shape demoLib Store.empty demoCreateEnv 0 demoBody [1, 2, 3]
    (by decide) (by decide) (by decide) (by decide)
  h.2.2.1

/-! ### Advances alone never finish a loan -/

theorem noFinish_createLoan (lib : JoiLib) (db : Store) (env : CreateEnv) (now : Nat)
    (body : CreateBody) (h : NoFinish db) : NoFinish (createLoan lib db env now body).2 := by
  rcases createLoan_store lib db env now body with hsame | ⟨value, hloans, hstages⟩
  · rw [hsame]
    exact h
  · refine ⟨?_, ?_⟩
    · intro l hl
      rw [hloans] at hl
      rcases List.mem_append.1 hl with hl | hl
      · exact h.1 l hl
      · rw [List.mem_singleton.1 hl]
        simp [newLoanRow]
    · intro s hs hcomp
      rcases hstages with hst | hst
      · rw [hst] at hs
        exact h.2 s hs hcomp
      · rw [hst] at hs
        rcases List.mem_append.1 hs with hs | hs
        · exact h.2 s hs hcomp
        · obtain ⟨st, _, rfl⟩ := List.mem_map.1 hs
          simp [newStageRow] at hcomp

theorem noFinish_advanceStage (db : Store) (env : AdvanceEnv) (now : Nat) (id : String)
    (h : NoFinish db) : NoFinish (advanceStage db env now id).2 := by
  rcases advanceStage_rows db env now id with hsame | ⟨loan, rest, _, h8, hloans, hstages⟩
  · rw [hsame]
    exact h
  · refine ⟨?_, ?_⟩
    · intro l' hl'
      obtain ⟨l, hl, _, hcase⟩ := forall₂_mem_right hloans l' hl'
      rcases hcase with rfl | ⟨_, _, hproc⟩
      · exact h.1 _ hl
      · rw [hproc]
        decide
    · intro s' hs' hcomp
      obtain ⟨s, hs, _, hid, hcase⟩ := forall₂_mem_right hstages s' hs'
      rcases hcase with rfl | ⟨_, hk, _⟩ | ⟨_, _, hproc⟩
      · exact h.2 _ hs hcomp
      · rw [hid, hk]
        exact h8
      · rw [hproc] at hcomp
        cases hcomp

theorem noFinish_uploadDocuments (db : Store) (env : UploadEnv) (now : Nat) (id : String)
    (files : List (UploadedFile × FileOutcome)) (dt : Option String) (h : NoFinish db) :
    NoFinish (uploadDocuments db env now id files dt).2 := by
  obtain ⟨hstages, hloans⟩ := uploadDocuments_rows db env now id files dt
  refine ⟨?_, ?_⟩
  · intro l' hl'
    obtain ⟨l, hl, _, _, hcase⟩ := forall₂_mem_right hloans l' hl'
    rcases hcase with rfl | ⟨_, hproc⟩
    · exact h.1 _ hl
    · rw [hproc]
      decide
  · rw [hstages]
    exact h.2

/-- No store reachable without stage updates holds a completed loan or a completed row of
the final stage. -/
theorem reachable_noFinish (lib : JoiLib) (u : Bool) (db : Store) (h : Reachable lib u db)
    (hu : u = false) : NoFinish db := by
  induction h with
  | empty u =>
    exact ⟨by intro l hl; simp [Store.empty] at hl, by intro s hs; simp [Store.empty] at hs⟩
  | create _ env now body _ ih => exact noFinish_createLoan lib _ env now body (ih hu)
  | advance _ c ih => exact noFinish_advanceStage _ c.env c.now c.loanId (ih hu)
  | upload _ env now id files dt ih =>
    exact noFinish_uploadDocuments _ env now id files dt (ih hu)
  | updateStage _ env now id body _ => exact absurd hu (by decide)

/-- The overall progress in a workflow answer of status 200. -/
theorem getWorkflowStatus_ok (db : Store) (loanOk stagesOk : Bool) (loanId : String)
    (d : WorkflowData) (h : getWorkflowStatus db loanOk stagesOk loanId = (200, some d)) :
    d.overallProgress = overallProgressOf (completedCount (selectStages db loanId))
      (selectStages db loanId).length := by
  unfold getWorkflowStatus at h
  split at h
  · exact absurd (congrArg Prod.fst h) (by simp)
  · split at h
    · exact absurd (congrArg Prod.fst h) (by simp)
    · split at h
      · exact absurd (congrArg Prod.fst h) (by simp)
      · have hd := Option.some.inj (congrArg Prod.snd h)
        rw [← hd]

/-- C27: in every store reached from the empty store by creations and advances, whatever
the outcome of their statements (and also with document uploads in between), no loan has
workflow status completed and no stage row of stage 8 is completed; so every workflow
answer of status 200 reports an overall progress of at most 88, the value for 7 completed
rows out of 8. -/
theorem advances_never_finish (lib : JoiLib) (db : Store) (h : Reachable lib false db) :
    (∀ l ∈ db.loans, l.workflow_status ≠ Status.completed) ∧
    (∀ s ∈ db.stages, s.stage_id = 8 → s.status ≠ Status.completed) ∧
    (∀ (loanOk stagesOk : Bool) (loanId : String) (d : WorkflowData),
      getWorkflowStatus db loanOk stagesOk loanId = (200, some d) →
        d.overallProgress ≤ 88) ∧
    overallProgressOf 7 8 = 88 := by
  have hno := reachable_noFinish lib false db h rfl
  have hinv := reachable_storeInv lib false db h
  refine ⟨hno.1, ?_, ?_, by decide⟩
  · intro s hs h8 hcomp
    have := hno.2 s hs hcomp
    omega
  · intro loanOk stagesOk loanId d hd
    rw [getWorkflowStatus_ok db loanOk stagesOk loanId d hd]
    have hperm : (selectStages db loanId).Perm
        (db.stages.filter (fun r => r.loan_id = loanId)) :=
      List.perm_insertionSort _ _
    have hlen : (selectStages db loanId).length = (stageIdsOf db loanId).length := by
      rw [hperm.length_eq]
      simp [stageIdsOf]
    rcases hinv.2.2.1 loanId with hids | hids
    · rw [hids] at hlen
      have h0 : (selectStages db loanId).length = 0 := hlen
      rw [h0]
      simp [overallProgressOf]
    · rw [hids] at hlen
      have h8 : (selectStages db loanId).length = 8 := hlen
      have hmem : (8 : Nat) ∈ stageIdsOf db loanId := by
        rw [hids]
        decide
      obtain ⟨s, hs, hs8⟩ := List.mem_map.1 hmem
      have hs' : s ∈ selectStages db loanId := hperm.mem_iff.2 hs
      have hnot : ¬ (decide (s.status = Status.completed) = true) := by
        intro hc
        have hc' : s.status = Status.completed := by simpa using hc
        have := hno.2 s (List.mem_filter.1 hs).1 hc'
        omega
      have hlt : completedCount (selectStages db loanId) < (selectStages db loanId).length :=
        List.length_filter_lt_length_iff_exists.2 ⟨s, hs', hnot⟩
      rw [h8] at hlt ⊢
      generalize completedCount (selectStages db loanId) = c at hlt
      interval_cases c <;> decide

theorem advances_never_finish_witness :
    ((advanceStage (createLoan demoLib Store.empty demoCreateEnv 0 demoBody).2
        AdvanceEnv.allOk 1 "CL-20240615-0001").2.loans.all
      (fun l => decide (l.workflow_status ≠ Status.completed))) = true ∧
    ((advanceStage (createLoan demoLib Store.empty demoCreateEnv 0 demoBody).2
        AdvanceEnv.allOk 1 "CL-20240615-0001").2.stages.all
      (fun s => decide (s.stage_id = 8 → s.status ≠ Status.completed))) = true :=
  have h := advances_never_finish demoLib _
    (Reachable.advance
      (Reachable.create (Reachable.empty false) demoCreateEnv 0 demoBody
        (fun _ r hr => absurd hr (List.not_mem_nil r)))
      { loanId := "CL-20240615-0001", env := AdvanceEnv.allOk, now := 1 })
  ⟨List.all_eq_true.2 (fun l hl => decide_eq_true (h.1 l hl)),
    List.all_eq_true.2 (fun s hs => decide_eq_true (h.2.1 s hs))⟩

/-! ### The client's workflow cache -/

/-- The array after an assignment to the found element, by position: the elements before
the first that satisfies `p` and those after it are as before. -/
theorem modifyFound_split {α : Type} (p : α → Bool) (f : α → α) :
    ∀ (l : List α) (a : α), l.find? p = some a →
      ∃ pre post, l = pre ++ a :: post ∧ (∀ x ∈ pre, p x = false) ∧
        modifyFound p f l = pre ++ f a :: post
  | [], a, h => by simp at h
  | b :: l, a, h => by
    cases hb : p b
    · rw [List.find?_cons_of_neg _ (by simp [hb])] at h
      obtain ⟨pre, post, hl, hpre, hmod⟩ := modifyFound_split p f l a h
      refine ⟨b :: pre, post, by rw [hl]; rfl, ?_, ?_⟩
      · intro x hx
        rcases List.mem_cons.1 hx with rfl | hx
        · exact hb
        · exact hpre x hx
      · simp only [modifyFound, hb, hmod]
        rfl
    · rw [List.find?_cons_of_pos _ hb] at h
      cases h
      exact ⟨[], l, rfl, by simp, by simp [modifyFound, hb]⟩

/-- An assignment that keeps the key of the found element, on a list without repeated
keys, is the same as rewriting every element with that key. -/
theorem modifyFound_eq_map {α : Type} (key : α → Nat) (k : Nat) (f : α → α) :
    ∀ l : List α, (l.map key).Nodup →
      modifyFound (fun a => key a = k) f l = l.map (fun a => if key a = k then f a else a)
  | [], _ => rfl
  | a :: l, hnd => by
    rw [List.map_cons, List.nodup_cons] at hnd
    by_cases ha : key a = k
    · have hrest : l.map (fun b => if key b = k then f b else b) = l := by
        conv_rhs => rw [← List.map_id l]
        apply List.map_congr_left
        intro b hb
        have hne : key b ≠ k := by
          intro hbk
          exact hnd.1 (List.mem_map.2 ⟨b, hb, hbk.trans ha.symm⟩)
        simp [hne]
      simp [modifyFound, ha, hrest]
    · simp [modifyFound, ha, modifyFound_eq_map key k f l hnd.2]

/-- C24: the client's `completeStage(s)`.  Without a current loan, or with a stage id that
no stage of the current loan has, it returns false and changes nothing.  With a current loan
that has a stage of id `s` it returns true; the first such stage becomes completed with
progress 100 and all its tasks completed, every other stage is as before; when `s < 8` the
current stage becomes `s + 1` and the loan status is as before, and when `s ≥ 8` (so for
`s = 8`) the current stage is as before and the loan status becomes completed. -/
theorem completeStage_effect (m : WorkflowManager) (now s : Nat) :
    (m.currentLoan = none → m.completeStage now s = (false, m)) ∧
    (∀ loan, m.currentLoan = some loan → loan.stages.find? (fun x => x.id = s) = none →
      m.completeStage now s = (false, m)) ∧
    (∀ loan stage, m.currentLoan = some loan →
      loan.stages.find? (fun x => x.id = s) = some stage →
      (m.completeStage now s).1 = true ∧
      ∃ loan' pre post,
        (m.completeStage now s).2.currentLoan = some loan' ∧
        loan.stages = pre ++ stage :: post ∧ (∀ x ∈ pre, x.id ≠ s) ∧ stage.id = s ∧
        loan'.stages = pre ++
          { stage with status := "completed", progress := 100, endTime := some now,
                       tasks := stage.tasks.map (fun t => { t with completed := true }) }
            :: post ∧
        loan'.loanId = loan.loanId ∧
        (s < 8 → loan'.currentStage = s + 1 ∧ loan'.status = loan.status) ∧
        (8 ≤ s → loan'.currentStage = loan.currentStage ∧ loan'.status = "completed")) := by
  refine ⟨?_, ?_, ?_⟩
  · intro h
    simp [WorkflowManager.completeStage, h]
  · intro loan h hfind
    simp [WorkflowManager.completeStage, h, hfind]
  · intro loan stage h hfind
    obtain ⟨pre, post, hl, hpre, hmod⟩ :=
      modifyFound_split (fun x : WorkflowStage => decide (x.id = s)) (completedStage now)
        loan.stages stage hfind
    have hid : stage.id = s := by simpa using List.find?_some hfind
    have hpre' : ∀ x ∈ pre, x.id ≠ s := fun x hx => by simpa using hpre x hx
    by_cases h8 : s < 8
    · have hc : m.completeStage now s =
          (true,
            { currentLoan := some
                ({ loan with
                   stages := modifyFound (fun x => x.id = s) (completedStage now) loan.stages,
                   updatedAt := now, currentStage := s + 1 }) }) := by
        simp [WorkflowManager.completeStage, h, hfind, h8]
      rw [hc]
      exact ⟨rfl, _, pre, post, rfl, hl, hpre', hid, hmod, rfl, fun _ => ⟨rfl, rfl⟩,
        fun h => absurd h8 (by omega)⟩
    · have hc : m.completeStage now s =
          (true,
            { currentLoan := some
                ({ loan with
                   stages := modifyFound (fun x => x.id = s) (completedStage now) loan.stages,
                   updatedAt := now, status := "completed" }) }) := by
        simp [WorkflowManager.completeStage, h, hfind, h8]
      rw [hc]
      exact ⟨rfl, _, pre, post, rfl, hl, hpre', hid, hmod, rfl, fun h => absurd h h8,
        fun _ => ⟨rfl, rfl⟩⟩

theorem completeStage_effect_witness :
    (({ currentLoan := none } : WorkflowManager).createNewWorkflow "CL-1" 0).2.completeStage
        5 1 =
      (true,
        { currentLoan := some
            ({ loanId := "CL-1", currentStage := 2, status := "pending", updatedAt := 5,
               stages := completedStage 5 (initialStage 1 "신규대출등록"
                   ["기본 정보 입력", "문서 업로드", "파일 검증"]) ::
                 initializeStages.tail }) }) ∧
    (({ currentLoan := none } : WorkflowManager).completeStage 5 1).1 = false :=
  have h := completeStage_effect { currentLoan := none } 5 1
  ⟨by decide, by rw [h.1 rfl]⟩

/-! ### The client's cache along its calls -/

theorem clientInv_created (m : WorkflowManager) (loanId : String) (now : Nat) :
    ClientInv (m.createNewWorkflow loanId now).1 := by
  have hstatus : ¬ ("pending" = "completed") := by decide
  have hprogress : ∀ s ∈ initializeStages, 0 ≤ s.progress ∧ s.progress ≤ 100 := by decide
  exact ⟨rfl, hprogress, ⟨Nat.le_refl 1, (by decide : (1 : Nat) ≤ 8)⟩, fun h => absurd h hstatus⟩

/-- On a workflow whose stage ids are not repeated, an assignment to the found stage
rewrites the stages of that id. -/
theorem clientInv_modify (w : Workflow) (h : ClientInv w) (sid : Nat)
    (f : WorkflowStage → WorkflowStage) :
    modifyFound (fun s => s.id = sid) f w.stages =
      w.stages.map (fun a => if a.id = sid then f a else a) :=
  modifyFound_eq_map (fun s : WorkflowStage => s.id) sid f w.stages
    (by rw [h.1]; decide)

/-- A rewriting of the stages of one id that keeps ids, keeps progress within 0 and 100 and
writes the status `st` keeps the first three parts of the invariant. -/
theorem clientInv_map (w : Workflow) (h : ClientInv w) (sid : Nat)
    (f : WorkflowStage → WorkflowStage) (hid : ∀ a, (f a).id = a.id)
    (hp : ∀ a, 0 ≤ a.progress ∧ a.progress ≤ 100 → 0 ≤ (f a).progress ∧ (f a).progress ≤ 100) :
    (w.stages.map (fun a => if a.id = sid then f a else a)).map (fun s => s.id) =
      [1, 2, 3, 4, 5, 6, 7, 8] ∧
    ∀ s ∈ w.stages.map (fun a => if a.id = sid then f a else a),
      0 ≤ s.progress ∧ s.progress ≤ 100 := by
  refine ⟨?_, ?_⟩
  · rw [← h.1, List.map_map]
    apply List.map_congr_left
    intro a _
    by_cases ha : a.id = sid <;> simp [ha, hid]
  · intro s hs
    obtain ⟨a, ha, rfl⟩ := List.mem_map.1 hs
    by_cases hc : a.id = sid
    · simp only [hc, if_true]
      exact hp a (h.2.1 a ha)
    · simp only [hc, if_false]
      exact h.2.1 a ha

/-- A stage id found in a workflow that satisfies the invariant is one of 1, ..., 8. -/
theorem clientInv_found (w : Workflow) (h : ClientInv w) (sid : Nat) (stage : WorkflowStage)
    (hfind : w.stages.find? (fun s => s.id = sid) = some stage) : 1 ≤ sid ∧ sid ≤ 8 := by
  have hmem : stage ∈ w.stages := List.mem_of_find?_eq_some hfind
  have hid : stage.id = sid := by simpa using List.find?_some hfind
  have : stage.id ∈ w.stages.map (fun s => s.id) := List.mem_map.2 ⟨stage, hmem, rfl⟩
  rw [h.1, hid] at this
  simp only [List.mem_cons, List.mem_singleton, List.not_mem_nil, or_false] at this
  omega

/-- Every call of a stage function keeps the invariant of the current loan. -/
theorem clientInv_call (m : WorkflowManager) (w : Workflow) (c : ClientCall)
    (hm : m.currentLoan = some w) (h : ClientInv w) :
    ∃ w', (m.call c).currentLoan = some w' ∧ ClientInv w' := by
  cases c with
  | start now sid =>
    cases hfind : w.stages.find? (fun s => s.id = sid) with
    | none =>
      exact ⟨w, by simp [WorkflowManager.call, WorkflowManager.startStage, hm, hfind], h⟩
    | some stage =>
      have hsid := clientInv_found w h sid stage hfind
      refine ⟨_, (by
          simp only [WorkflowManager.call, WorkflowManager.startStage, hm, hfind]
          rfl), ?_⟩
      have hmap := clientInv_map w h sid
        (fun s => { s with status := "processing", startTime := some now, progress := 0 })
        (fun _ => rfl) (fun _ _ => ⟨le_refl _, (by decide : (0 : Int) ≤ 100)⟩)
      refine ⟨?_, ?_, hsid, ?_⟩
      · show (modifyFound _ _ w.stages).map _ = _
        rw [clientInv_modify w h]
        exact hmap.1
      · show ∀ s ∈ modifyFound _ _ w.stages, _
        rw [clientInv_modify w h]
        exact hmap.2
      · intro hst
        have hne : ¬ ("processing" = "completed") := by decide
        exact absurd hst hne
  | complete now sid =>
    cases hfind : w.stages.find? (fun s => s.id = sid) with
    | none =>
      exact ⟨w, by simp [WorkflowManager.call, WorkflowManager.completeStage, hm, hfind], h⟩
    | some stage =>
      have hsid := clientInv_found w h sid stage hfind
      have hmap := clientInv_map w h sid (completedStage now)
        (fun _ => rfl) (fun _ _ => by simp [completedStage])
      have hstages : ∀ s ∈ w.stages.map
          (fun a => if a.id = sid then completedStage now a else a),
          s.id = sid ∨ s ∈ w.stages := by
        intro s hs
        obtain ⟨a, ha, rfl⟩ := List.mem_map.1 hs
        by_cases hc : a.id = sid
        · left
          simp only [hc, if_true]
          exact hc
        · right
          simp only [hc, if_false]
          exact ha
      have hdone : ∀ s ∈ w.stages.map
          (fun a => if a.id = sid then completedStage now a else a),
          s.id = sid → s.status = "completed" := by
        intro s hs hid
        obtain ⟨a, ha, rfl⟩ := List.mem_map.1 hs
        by_cases hc : a.id = sid
        · simp [hc, completedStage]
        · simp [hc] at hid
      by_cases h8 : sid < 8
      · refine ⟨_, (by
          simp only [WorkflowManager.call, WorkflowManager.completeStage, hm,
          hfind, h8, if_true]
          rfl), ?_⟩
        refine ⟨?_, ?_, ⟨by show 1 ≤ sid + 1; omega, by show sid + 1 ≤ 8; omega⟩, ?_⟩
        · show (modifyFound _ _ w.stages).map _ = _
          rw [clientInv_modify w h]
          exact hmap.1
        · show ∀ s ∈ modifyFound _ _ w.stages, _
          rw [clientInv_modify w h]
          exact hmap.2
        · intro hst s hs hs8
          have hs' : s ∈ w.stages.map
              (fun a => if a.id = sid then completedStage now a else a) := by
            rw [← clientInv_modify w h]
            exact hs
          rcases hstages s hs' with hid | hold
          · exact hdone s hs' hid
          · exact h.2.2.2 hst s hold hs8
      · refine ⟨_, (by
          simp only [WorkflowManager.call, WorkflowManager.completeStage, hm,
          hfind, h8, if_false]
          rfl), ?_⟩
        refine ⟨?_, ?_, h.2.2.1, ?_⟩
        · show (modifyFound _ _ w.stages).map _ = _
          rw [clientInv_modify w h]
          exact hmap.1
        · show ∀ s ∈ modifyFound _ _ w.stages, _
          rw [clientInv_modify w h]
          exact hmap.2
        · intro _ s hs hs8
          have hs' : s ∈ w.stages.map
              (fun a => if a.id = sid then completedStage now a else a) := by
            rw [← clientInv_modify w h]
            exact hs
          exact hdone s hs' (by omega)
  | progress now sid p taskName =>
    cases hfind : w.stages.find? (fun s => s.id = sid) with
    | none =>
      exact ⟨w, by simp [WorkflowManager.call, WorkflowManager.updateStageProgress, hm,
        hfind], h⟩
    | some stage =>
      refine ⟨_, (by
          simp only [WorkflowManager.call, WorkflowManager.updateStageProgress,
        hm, hfind]
          rfl), ?_⟩
      have hmap := clientInv_map w h sid
        (fun s =>
          { s with
            progress := min 100 (max 0 p),
            tasks := match taskName with
              | some name =>
                if name != "" then
                  modifyFound (fun t => t.name = name)
                    (fun t => { t with completed := true }) s.tasks
                else s.tasks
              | none => s.tasks })
        (fun _ => rfl) (fun _ _ => ⟨by simp, by simp⟩)
      refine ⟨?_, ?_, h.2.2.1, ?_⟩
      · show (modifyFound _ _ w.stages).map _ = _
        rw [clientInv_modify w h]
        exact hmap.1
      · show ∀ s ∈ modifyFound _ _ w.stages, _
        rw [clientInv_modify w h]
        exact hmap.2
      · intro hst s hs hs8
        have hs' := hs
        change s ∈ modifyFound _ _ w.stages at hs'
        rw [clientInv_modify w h] at hs'
        obtain ⟨a, ha, rfl⟩ := List.mem_map.1 hs'
        by_cases hc : a.id = sid
        · simp only [hc, if_true] at hs8 ⊢
          exact h.2.2.2 hst a ha (by rw [hc]; exact hs8)
        · simp only [hc, if_false] at hs8 ⊢
          exact h.2.2.2 hst a ha hs8

/-- Every sequence of calls keeps the invariant of the current loan. -/
theorem clientInv_run :
    ∀ (calls : List ClientCall) (m : WorkflowManager) (w : Workflow),
      m.currentLoan = some w → ClientInv w →
      ∃ w', (m.run calls).currentLoan = some w' ∧ ClientInv w'
  | [], _, w, hm, h => ⟨w, hm, h⟩
  | c :: cs, m, w, hm, h => by
    obtain ⟨w₁, hm₁, h₁⟩ := clientInv_call m w c hm h
    exact clientInv_run cs (m.call c) w₁ hm₁ h₁

/-- C25, as stated, fails: on a workflow just created, `completeStage(8)` sets the status to
completed and leaves the current stage at 1. -/
theorem client_completed_at_stage_1 :
    ((({ currentLoan := none } : WorkflowManager).createNewWorkflow "CL-1" 0).2.run
        [ClientCall.complete 1 8]).currentLoan.map
      (fun w => (w.status, w.currentStage,
        (w.stages.filter (fun s => s.id = 8)).map (fun s => s.status))) =
      some ("completed", 1, ["completed"]) := by
  decide

/-- C25 (amended): after `createNewWorkflow` and any sequence of `startStage`,
`completeStage` and `updateStageProgress` calls there is a current loan; its stages are
those of the ids 1, ..., 8, its current stage is between 1 and 8, and when its status is
completed its stage 8 has status completed.  The current stage need not be 8 then:
`completeStage` does not look at the current stage. -/
theorem client_completed_invariant (m : WorkflowManager) (loanId : String) (now : Nat)
    (calls : List ClientCall) :
    ∃ w, ((m.createNewWorkflow loanId now).2.run calls).currentLoan = some w ∧
      w.stages.map (fun s => s.id) = [1, 2, 3, 4, 5, 6, 7, 8] ∧
      1 ≤ w.currentStage ∧ w.currentStage ≤ 8 ∧
      (w.status = "completed" → ∀ s ∈ w.stages, s.id = 8 → s.status = "completed") := by
  obtain ⟨w, hw, hinv⟩ := clientInv_run calls (m.createNewWorkflow loanId now).2
    (m.createNewWorkflow loanId now).1 rfl (clientInv_created m loanId now)
  exact ⟨w, hw, hinv.1, hinv.2.2.1.1, hinv.2.2.1.2, hinv.2.2.2⟩

/-- The dashboard's figure on a workflow that satisfies the invariant lies between 0 and
113. -/
theorem calculateOverallProgress_bounds (w : Workflow) (h : ClientInv w) :
    0 ≤ calculateOverallProgress w.toDashboard ∧
    calculateOverallProgress w.toDashboard ≤ 113 := by
  have hlen : w.stages.length = 8 := by
    have := congrArg List.length h.1
    simpa using this
  have hc : w.toDashboard.completedStages ≤ 8 := by
    unfold ClientWorkflow.completedStages
    calc (w.toDashboard.stages.filter (fun s => s.status = "completed")).length
        ≤ w.toDashboard.stages.length := List.length_filter_le _ _
      _ = 8 := by simp [Workflow.toDashboard, hlen]
  have hp : ∃ q : Int, w.toDashboard.currentProgress = JsDouble.ofInt q ∧ 0 ≤ q ∧
      q ≤ 100 := by
    unfold ClientWorkflow.currentProgress
    cases hfind : w.toDashboard.stages.find? (fun s => s.id = w.toDashboard.currentStage) with
    | none => exact ⟨0, rfl, by decide, by decide⟩
    | some s =>
      have hmem : s ∈ w.toDashboard.stages := List.mem_of_find?_eq_some hfind
      obtain ⟨a, ha, rfl⟩ := List.mem_map.1 hmem
      have hr := h.2.1 a ha
      by_cases h0 : a.progress = 0
      · exact ⟨0, by simp [orZero, JsDouble.ofInt, h0], by decide, by decide⟩
      · exact ⟨a.progress, by simp [orZero, JsDouble.ofInt, h0], hr.1, hr.2⟩
  obtain ⟨q, hq, hq0, hq100⟩ := hp
  have hsum : progressSum w.toDashboard.completedStages w.toDashboard.currentProgress =
      JsDouble.ofInt ((w.toDashboard.completedStages : Int) * 100 + q) := by
    rw [hq]
    simp only [progressSum, JsDouble.ofInt, pow_zero, mul_one]
  have hexact : roundToDouble
      (JsDouble.ofInt ((w.toDashboard.completedStages : Int) * 100 + q)) =
      JsDouble.ofInt ((w.toDashboard.completedStages : Int) * 100 + q) := by
    apply roundToDouble_exact
    simp only [JsDouble.ofInt]
    have : (2 : Nat) ^ 53 = 9007199254740992 := by norm_num
    omega
  have hval : calculateOverallProgress w.toDashboard =
      mathRoundInt ((w.toDashboard.completedStages : Int) * 100 + q) 8 := by
    unfold calculateOverallProgress
    simp only
    rw [hsum, hexact]
    rfl
  rw [hval]
  unfold mathRoundInt
  constructor <;> omega

/-- C28: the code at a failing input.  On a workflow just created, completing the stages
1, ..., 8 in order leaves all 8 stages completed and the current stage at 8 with progress
100, and the dashboard's figure is `Math.round((8 * 100 + 100) / 8) = 113`, above 100: the
completed current stage is counted twice. -/
theorem client_progress_above_100 :
    ((({ currentLoan := none } : WorkflowManager).createNewWorkflow "CL-1" 0).2.run
        completeAll).currentLoan.map
      (fun w => (w.status, w.currentStage, w.toDashboard.completedStages,
        w.toDashboard.currentProgress, calculateOverallProgress w.toDashboard)) =
      some ("completed", 8, 8, JsDouble.ofInt 100, 113) := by
  decide

/-! ### The client's copy against the server's rows -/

/-- The stage rows of a loan after an advance in which every statement runs. -/
theorem stageShape_advanceStage (db : Store) (t : Nat) (id : String) (row : LoanRow)
    (rest : List LoanRow) (hsel : selectLoan db id = row :: rest)
    (h8 : row.current_stage < 8) :
    stageShape (advanceStage db AdvanceEnv.allOk t id).2 id =
      ((stageShape db id).map (fun v =>
        if v.1 = row.current_stage then (v.1, Status.completed, 100) else v)).map (fun v =>
        if v.1 = row.current_stage + 1 then (v.1, Status.processing, 0) else v) := by
  rw [advanceStage_allOk db t id row rest hsel h8]
  simp only
  have h1 : stageShape (completeCurrentStageQuery t id row.current_stage db) id =
      (stageShape db id).map (fun v =>
        if v.1 = row.current_stage then (v.1, Status.completed, 100) else v) := by
    apply stageShape_map db _ id
      (fun r => if r.loan_id = id ∧ r.stage_id = row.current_stage then
        { r with status := Status.completed, progress := 100, completed_at := some t,
                 updated_at := t } else r)
    · intro r
      by_cases hc : r.loan_id = id ∧ r.stage_id = row.current_stage <;> simp [hc]
    · intro r hid
      by_cases hc : r.stage_id = row.current_stage <;> simp [hid, hc]
    · rfl
  have h2 : stageShape (startNextStageQuery t id (row.current_stage + 1)
      (updateLoanQuery t (row.current_stage + 1) id
        (completeCurrentStageQuery t id row.current_stage db))) id =
      (stageShape (completeCurrentStageQuery t id row.current_stage db) id).map (fun v =>
        if v.1 = row.current_stage + 1 then (v.1, Status.processing, 0) else v) := by
    apply stageShape_map (completeCurrentStageQuery t id row.current_stage db) _ id
      (fun r => if r.loan_id = id ∧ r.stage_id = row.current_stage + 1 then
        { r with status := Status.processing, progress := 0, started_at := some t,
                 updated_at := t } else r)
    · intro r
      by_cases hc : r.loan_id = id ∧ r.stage_id = row.current_stage + 1 <;> simp [hc]
    · intro r hid
      by_cases hc : r.stage_id = row.current_stage + 1 <;> simp [hid, hc]
    · rfl
  rw [h2, h1]

/-- The loan rows of a loan after an advance in which every statement runs. -/
theorem selectLoan_advanceStage_allOk (db : Store) (t : Nat) (id : String) (row : LoanRow)
    (rest : List LoanRow) (hsel : selectLoan db id = row :: rest)
    (h8 : row.current_stage < 8) :
    selectLoan (advanceStage db AdvanceEnv.allOk t id).2 id =
      (row :: rest).map (fun r =>
        { r with current_stage := row.current_stage + 1,
                 workflow_status := Status.processing, updated_at := t }) := by
  rw [advanceStage_allOk db t id row rest hsel h8]
  simp only
  rw [selectLoan_of_loans_eq
      (updateLoanQuery t (row.current_stage + 1) id
        (completeCurrentStageQuery t id row.current_stage db))
      (startNextStageQuery t id (row.current_stage + 1)
        (updateLoanQuery t (row.current_stage + 1) id
          (completeCurrentStageQuery t id row.current_stage db))) id rfl,
    selectLoan_updateLoanQuery_self,
    selectLoan_of_loans_eq db (completeCurrentStageQuery t id row.current_stage db) id rfl,
    hsel]

/-- A workflow with the stages 1, ..., 8 has a stage of every id from 1 to 8. -/
theorem find_stage (stages : List WorkflowStage)
    (hids : stages.map (fun s => s.id) = [1, 2, 3, 4, 5, 6, 7, 8]) (j : Nat)
    (h1 : 1 ≤ j) (h8 : j ≤ 8) :
    ∃ stage, stages.find? (fun s => s.id = j) = some stage := by
  cases hfind : stages.find? (fun s => s.id = j) with
  | some stage => exact ⟨stage, rfl⟩
  | none =>
    exfalso
    have hmem : j ∈ stages.map (fun s => s.id) := by
      rw [hids]
      simp only [List.mem_cons, List.mem_singleton, List.not_mem_nil, or_false]
      omega
    obtain ⟨s, hs, hsj⟩ := List.mem_map.1 hmem
    have := List.find?_eq_none.1 hfind s hs
    simp [hsj] at this

/-- The view of the stages after an assignment to the stage of id `j` that keeps its id. -/
theorem view_modifyFound (stages : List WorkflowStage)
    (hids : stages.map (fun s => s.id) = [1, 2, 3, 4, 5, 6, 7, 8]) (j : Nat)
    (f : WorkflowStage → WorkflowStage) (st : String) (p : Int)
    (hf : ∀ s, (f s).id = s.id ∧ (f s).status = st ∧ (f s).progress = p) :
    (modifyFound (fun s => s.id = j) f stages).map (fun s => s.id) =
      [1, 2, 3, 4, 5, 6, 7, 8] ∧
    (modifyFound (fun s => s.id = j) f stages).map (fun s => (s.id, s.status, s.progress)) =
      (stages.map (fun s => (s.id, s.status, s.progress))).map
        (fun v => if v.1 = j then (v.1, st, p) else v) := by
  rw [modifyFound_eq_map (fun s : WorkflowStage => s.id) j f stages (by rw [hids]; decide)]
  refine ⟨?_, ?_⟩
  · rw [← hids, List.map_map]
    apply List.map_congr_left
    intro a _
    by_cases ha : a.id = j <;> simp [ha, (hf a).1]
  · rw [List.map_map, List.map_map]
    apply List.map_congr_left
    intro a _
    by_cases ha : a.id = j
    · simp [ha, (hf a).1, (hf a).2.1, (hf a).2.2]
    · simp [ha]

/-- C23, as stated, fails: from a loan just created on both sides (the client's copy and
the server's rows agree: stage 1, pending, eight pending stages), the client's
`completeStage(1)` and the server's advance both lead to stage 2 with stage 1 completed, but
the server has the loan and stage 2 processing while the client's copy has both pending. -/
theorem client_server_disagree :
    serverView demoCreated "CL-20240615-0001" =
      freshManager.currentLoan.map Workflow.view ∧
    (freshManager.completeStage 1 1).2.currentLoan.map Workflow.view =
      some { currentStage := 2, status := "pending",
             stages := [ (1, "completed", 100), (2, "pending", 0), (3, "pending", 0),
               (4, "pending", 0), (5, "pending", 0), (6, "pending", 0), (7, "pending", 0),
               (8, "pending", 0) ] } ∧
    serverView (advanceStage demoCreated AdvanceEnv.allOk 1 "CL-20240615-0001").2
        "CL-20240615-0001" =
      some { currentStage := 2, status := "processing",
             stages := [ (1, "completed", 100), (2, "processing", 0), (3, "pending", 0),
               (4, "pending", 0), (5, "pending", 0), (6, "pending", 0), (7, "pending", 0),
               (8, "pending", 0) ] } := by
  decide

/-- C23 (amended): let the client's copy of a loan, with the stages 1, ..., 8, agree with
the server's rows on current stage, loan status and the status and progress of every stage,
at current stage `k` with `1 ≤ k < 8`.  After the client's `completeStage(k)` and the
server's advance (every statement running) both sides are at stage `k + 1` and agree on the
status and progress of every stage but the stage `k + 1`: the server has that stage
processing at progress 0 and the loan processing, the client leaves that stage and the loan
status as they were.  The two sides agree again after the client's `startStage(k + 1)`. -/
theorem completeStage_vs_advanceStage (db : Store) (t now : Nat) (id : String)
    (m : WorkflowManager) (w : Workflow) (k : Nat)
    (hm : m.currentLoan = some w)
    (hids : w.stages.map (fun s => s.id) = [1, 2, 3, 4, 5, 6, 7, 8])
    (hagree : serverView db id = some w.view)
    (hk : w.currentStage = k) (h1 : 1 ≤ k) (h8 : k < 8) :
    ∃ w' v,
      (m.completeStage now k).1 = true ∧
      (m.completeStage now k).2.currentLoan = some w' ∧
      (advanceStage db AdvanceEnv.allOk t id).1.code = 200 ∧
      serverView (advanceStage db AdvanceEnv.allOk t id).2 id = some v ∧
      w'.currentStage = k + 1 ∧ v.currentStage = k + 1 ∧
      w'.status = w.status ∧ v.status = "processing" ∧
      w'.view.stages = w.view.stages.map
        (fun x => if x.1 = k then (x.1, "completed", 100) else x) ∧
      v.stages = w'.view.stages.map
        (fun x => if x.1 = k + 1 then (x.1, "processing", 0) else x) ∧
      ((m.completeStage now k).2.startStage now (k + 1)).2.currentLoan.map Workflow.view =
        some v := by
  -- the server's rows before
  cases hsel : selectLoan db id with
  | nil => simp [serverView, hsel] at hagree
  | cons row rest =>
    have hview : LoanView.mk row.current_stage row.workflow_status.name
        ((stageShape db id).map (fun v => (v.1, v.2.1.name, v.2.2))) = w.view := by
      simpa [serverView, hsel] using hagree
    have hcur : row.current_stage = k := by
      have := congrArg LoanView.currentStage hview
      exact this.trans hk
    have hstages : (stageShape db id).map (fun v => (v.1, v.2.1.name, v.2.2)) =
        w.stages.map (fun s => (s.id, s.status, s.progress)) :=
      congrArg LoanView.stages hview
    have hrow8 : row.current_stage < 8 := by omega
    -- the client's two calls
    obtain ⟨stage, hfind⟩ := find_stage w.stages hids k h1 (by omega)
    obtain ⟨hids₁, hview₁⟩ := view_modifyFound w.stages hids k (completedStage now)
      "completed" 100 (fun _ => ⟨rfl, rfl, rfl⟩)
    have hc : m.completeStage now k =
        (true,
          { currentLoan := some
              ({ w with
                 stages := modifyFound (fun x => x.id = k) (completedStage now) w.stages,
                 updatedAt := now, currentStage := k + 1 }) }) := by
      simp [WorkflowManager.completeStage, hm, hfind, h8]
    obtain ⟨stage₂, hfind₂⟩ := find_stage _ hids₁ (k + 1) (by omega) (by omega)
    obtain ⟨_, hview₂⟩ := view_modifyFound _ hids₁ (k + 1)
      (fun s => { s with status := "processing", startTime := some now, progress := 0 })
      "processing" 0 (fun _ => ⟨rfl, rfl, rfl⟩)
    -- the server's rows after
    have hshape := stageShape_advanceStage db t id row rest hsel hrow8
    have hloans := selectLoan_advanceStage_allOk db t id row rest hsel hrow8
    have hcode : (advanceStage db AdvanceEnv.allOk t id).1.code = 200 := by
      rw [advanceStage_allOk db t id row rest hsel hrow8]
      rfl
    have hserver : serverView (advanceStage db AdvanceEnv.allOk t id).2 id =
        some (LoanView.mk (k + 1) "processing"
          (((w.stages.map (fun s => (s.id, s.status, s.progress))).map
            (fun x => if x.1 = k then (x.1, "completed", 100) else x)).map
            (fun x => if x.1 = k + 1 then (x.1, "processing", 0) else x))) := by
      simp only [serverView, hloans, List.map_cons, hshape, hcur]
      congr 2
      rw [← hstages, List.map_map, List.map_map, List.map_map, List.map_map]
      apply List.map_congr_left
      intro v _
      by_cases hv : v.1 = k
      · have hne : ¬ (v.1 = k + 1) := by omega
        simp [hv, Status.name]
      · by_cases hv' : v.1 = k + 1
        · simp [hv', Status.name]
        · simp [hv, hv']
    refine ⟨Workflow.mk w.loanId (k + 1) w.status
        (modifyFound (fun x => x.id = k) (completedStage now) w.stages) now,
      LoanView.mk (k + 1) "processing"
        (((w.stages.map (fun s => (s.id, s.status, s.progress))).map
          (fun x => if x.1 = k then (x.1, "completed", 100) else x)).map
          (fun x => if x.1 = k + 1 then (x.1, "processing", 0) else x)),
      by rw [hc], by rw [hc], hcode, hserver, rfl, rfl, rfl, rfl, ?_, ?_, ?_⟩
    · exact hview₁
    · show _ = (List.map _ (modifyFound _ _ w.stages)).map _
      rw [hview₁]
    · rw [hc]
      simp only [WorkflowManager.startStage, hfind₂, Option.map_some']
      congr 1
      simp only [Workflow.view]
      rw [hview₂, hview₁]

theorem completeStage_vs_advanceStage_witness :
    ((freshManager.completeStage 1 1).2.startStage 1 2).2.currentLoan.map Workflow.view =
      serverView (advanceStage demoCreated AdvanceEnv.allOk 1 "CL-20240615-0001").2
        "CL-20240615-0001" :=
  have ⟨_, _, h⟩ := completeStage_vs_advanceStage demoCreated 1 1 "CL-20240615-0001"
    freshManager
    { loanId := "CL-20240615-0001", currentStage := 1, status := "pending",
      stages := initializeStages, updatedAt := 0 }
    1 rfl (by decide) (by decide) rfl (by decide) (by decide)
  h.2.2.2.2.2.2.2.2.2.2.trans h.2.2.2.1.symm

/-! ### The two progress figures -/

/-- The server's figure for `c` completed rows out of 8. -/
theorem overallProgressOf_eight (c : Nat) (hc : c ≤ 8) :
    overallProgressOf c 8 = (100 * c + 4) / 8 := by
  interval_cases c <;> decide

/-- C29: for 8 stage rows of which `c` are completed and a cached workflow with the same
number `c` of completed stages whose current stage has progress `p ≥ 0`, the client's
figure `Math.round((100 * c + p) / 8)`, computed in double arithmetic, is at least the
server's figure `Math.round((c / 8) * 100)`, and the two are equal when `p = 0`. -/
theorem client_progress_ge_server (w : ClientWorkflow) (rows : List StageRow)
    (hrows : rows.length = 8) (hc : completedCount rows = w.completedStages)
    (hp : 0 ≤ w.currentProgress.num) :
    ((overallProgressOf (completedCount rows) rows.length : Nat) : Int) ≤
      calculateOverallProgress w ∧
    (w.currentProgress.num = 0 →
      calculateOverallProgress w =
        ((overallProgressOf (completedCount rows) rows.length : Nat) : Int)) := by
  have hle : completedCount rows ≤ 8 := hrows ▸ completedCount_le rows
  have hserver : ((overallProgressOf (completedCount rows) rows.length : Nat) : Int) =
      mathRoundInt (100 * w.completedStages) 8 := by
    rw [hrows, overallProgressOf_eight _ hle, hc]
    unfold mathRoundInt
    omega
  rw [hserver]
  exact calculateOverallProgress_ge w (hc ▸ hle) hp

theorem client_progress_ge_server_witness :
    ((overallProgressOf 3 8 : Nat) : Int) ≤ calculateOverallProgress demoClientWorkflow ∧
    overallProgressOf 3 8 = 38 ∧ calculateOverallProgress demoClientWorkflow = 44 :=
  ⟨(client_progress_ge_server demoClientWorkflow demoStoreHalf.stages (by decide)
      (by decide) (by decide)).1, by decide, by decide⟩

/-! ### The client's file checks against the server's filter -/

/-- A list that holds `a` splits at its first `a`. -/
theorem takeWhile_ne_split {α : Type} [DecidableEq α] (a : α) :
    ∀ l : List α, a ∈ l → ∃ post, l = l.takeWhile (fun c => c ≠ a) ++ a :: post
  | [], h => by cases h
  | x :: xs, h => by
    by_cases hx : x = a
    · subst hx
      exact ⟨xs, by simp⟩
    · have hmem : a ∈ xs := by
        rcases List.mem_cons.1 h with h | h
        · exact absurd h.symm hx
        · exact h
      obtain ⟨post, hpost⟩ := takeWhile_ne_split a xs hmem
      refine ⟨post, ?_⟩
      rw [List.takeWhile_cons_of_pos (by simpa using hx), List.cons_append, ← hpost]

/-- A name with a dot ends with the dot followed by what `split('.').pop()` returns. -/
theorem name_ends_with_extension (cs : List Char) (h : '.' ∈ cs) :
    ∃ pre, cs = pre ++ '.' :: (cs.reverse.takeWhile (fun c => c ≠ '.')).reverse := by
  obtain ⟨post, hpost⟩ := takeWhile_ne_split '.' cs.reverse (List.mem_reverse.2 h)
  refine ⟨post.reverse, ?_⟩
  have := congrArg List.reverse hpost
  rw [List.reverse_reverse, List.reverse_append, List.reverse_cons, List.append_assoc] at this
  simpa using this

/-- C30, as stated, fails: a file named `notes.txt` of type `application/pdf` passes both
client checks (the type alone is enough for `validateFileType`), and so does a file named
`pdf` without any dot; the server's filter rejects both names.  A file `scan.pdf` of exactly
52428800 bytes passes both client checks as well, and the upload middleware refuses it with
`LIMIT_FILE_SIZE`. -/
theorem client_accepts_server_rejects :
    validateFileType { name := "notes.txt", type := "application/pdf", size := 10 } = true ∧
    validateFileSize { name := "notes.txt", type := "application/pdf", size := 10 } = true ∧
    allowedTypesTest "notes.txt" = false ∧
    validateFileType { name := "pdf", type := "", size := 10 } = true ∧
    validateFileSize { name := "pdf", type := "", size := 10 } = true ∧
    allowedTypesTest "pdf" = false ∧
    validateFileType { name := "scan.pdf", type := "application/pdf", size := 52428800 } =
      true ∧
    validateFileSize { name := "scan.pdf", type := "application/pdf", size := 52428800 } =
      true ∧
    acceptPart 0 { fieldname := "documents", originalname := "scan.pdf",
                   mimetype := "application/pdf", size := 52428800 } =
      Except.error UploadError.limitFileSize :=
  ⟨by decide, by decide, by decide, by decide, by decide, by decide, by decide, by decide,
    rfl⟩

/-- C30 (amended): `validateFileSize` passes exactly the files of at most 52428800 bytes.  A
file whose name has a dot and whose extension, as `validateFileType` reads it, is one of the
eight allowed ones passes `validateFileType` and is accepted by the server's filter; the
upload middleware then accepts it when its size is below 52428800 bytes, and refuses it
with `LIMIT_FILE_SIZE` at exactly 52428800 bytes, a size that `validateFileSize` passes.
(`validateFileType` also passes on an allowed MIME type alone, and on a name without a dot
that is itself an extension; the server accepts neither.) -/
theorem client_checks_vs_server (file : BrowserFile) :
    (validateFileSize file = true ↔ file.size ≤ 52428800) ∧
    ('.' ∈ file.name.toList →
      clientAllowedExtensions.any (fun e => e.toList = clientExtension file.name) = true →
      validateFileType file = true ∧
      fileFilter file.name = Except.ok true ∧
      ∀ index, index < filesLimit →
        (file.size < 52428800 →
          acceptPart index file.toPart =
            Except.ok (some { originalname := file.name, size := file.size,
                              mimetype := file.type })) ∧
        (file.size = 52428800 →
          validateFileSize file = true ∧
          acceptPart index file.toPart = Except.error UploadError.limitFileSize)) := by
  have hsize : validateFileSize file = true ↔ file.size ≤ 52428800 := by
    simp [validateFileSize]
  have hlimit : fileSizeLimit = 52428800 := by decide
  refine ⟨hsize, ?_⟩
  intro hdot hext
  have htest : allowedTypesTest file.name = true := by
    rw [allowedTypesTest_iff]
    obtain ⟨e, he, heq⟩ := List.any_eq_true.1 hext
    have heq' : e.toList = clientExtension file.name := by simpa using heq
    obtain ⟨pre, hpre⟩ := name_ends_with_extension file.name.toList hdot
    refine ⟨e, he, pre.map Char.toLower, ?_⟩
    rw [heq']
    unfold clientExtension
    conv_rhs => rw [hpre]
    simp
  have hfilter : fileFilter file.name = Except.ok true := by
    unfold fileFilter
    rw [if_pos htest]
  refine ⟨by unfold validateFileType; rw [hext, Bool.or_true], hfilter, ?_⟩
  intro index hindex
  refine ⟨?_, ?_⟩
  · intro hlt
    unfold acceptPart
    rw [if_neg (by omega), if_neg (by simp [BrowserFile.toPart])]
    simp only [BrowserFile.toPart, hfilter]
    rw [if_neg (by omega)]
  · intro heq
    refine ⟨hsize.2 (by omega), ?_⟩
    unfold acceptPart
    rw [if_neg (by omega), if_neg (by simp [BrowserFile.toPart])]
    simp only [BrowserFile.toPart, hfilter]
    rw [if_pos (by omega)]

theorem client_checks_vs_server_witness :
    fileFilter "Report.PDF" = Except.ok true ∧
    acceptPart 0 { fieldname := "documents", originalname := "Report.PDF",
                   mimetype := "application/pdf", size := 1000 } =
      Except.ok (some { originalname := "Report.PDF", size := 1000,
                        mimetype := "application/pdf" }) :=
  have h := (client_checks_vs_server
    { name := "Report.PDF", type := "application/pdf", size := 1000 }).2
    (by decide) (by decide)
  ⟨h.2.1, (h.2.2 0 (by decide)).1 (by decide)⟩

theorem client_completed_invariant_witness :
    ∃ w, (freshManager.run [ClientCall.complete 1 8, ClientCall.complete 2 3]).currentLoan =
        some w ∧
      w.status = "completed" ∧ w.currentStage = 4 ∧
      ∀ s ∈ w.stages, s.id = 8 → s.status = "completed" :=
  have ⟨w, h⟩ := client_completed_invariant { currentLoan := none } "CL-20240615-0001" 0
    [ClientCall.complete 1 8, ClientCall.complete 2 3]
  have hw : some w = (freshManager.run
      [ClientCall.complete 1 8, ClientCall.complete 2 3]).currentLoan := h.1.symm
  have hst : ((freshManager.run
      [ClientCall.complete 1 8, ClientCall.complete 2 3]).currentLoan.map
        (fun w => (w.status, w.currentStage))) = some ("completed", 4) := by decide
  have hpair : (w.status, w.currentStage) = ("completed", 4) := by
    rw [← hw] at hst
    exact Option.some.inj hst
  ⟨w, h.1, (Prod.mk.inj hpair).1, (Prod.mk.inj hpair).2,
    h.2.2.2.2 (Prod.mk.inj hpair).1⟩

end CorpLoan
